import Mathlib

/-! NES emulator (qrals/nes-emulator): CPU core and its bus.

A shallow embedding of `src/machine.cpp` (the 6502 interpreter and the CPU-side
bus) and of `src/gfx.cpp`: first the part that the CPU bus calls (`gfx::get`,
`gfx::set`, `gfx::oam_write` and the PPU-side memory map), further down the
rendering and timing part (`gfx::cycle`).

Conventions of the embedding.

* The module-scoped globals of each translation unit become the fields of one
  record (`Gfx`, `Machine`); a C++ function that mutates globals becomes a
  function from record to record, and one that also returns a value returns a
  pair `(value, state)`.
* `char` is the unsigned 8-bit byte the program relies on (`sp = 0xff`,
  `0x100u + sp`, `ofs < 0x80u`): every conversion to `char` is an explicit
  `% 256`.  `unsigned` is 32 bits wide (`u32`), `unsigned long` and `t_adr`
  are 64 bits wide (`u64`).
* `std::array` and `std::vector` contents are total functions `Nat → Nat`;
  a byte read from one is reduced `% 256`. An index is not checked against the
  size of the array: bounds are properties to be proved of the index.
* Console logging is omitted.
-/

/-- Conversion to `unsigned` (32 bits). -/
def u32 (x : Nat) : Nat := x % 4294967296

/-- Conversion to `unsigned long` / `t_adr` (64 bits). -/
def u64 (x : Nat) : Nat := x % 18446744073709551616

/-- Array store: the array `f` with cell `i` replaced by `v`. -/
def upd {α : Type} (f : Nat → α) (i : Nat) (v : α) : Nat → α :=
  fun j => if j = i then v else f j

namespace misc

/-- Modelled from the spec: `misc.hpp` is not among the sources. The `bit(x,n)`
of section 4.A: bit `n` of `x`, as 0 or 1. -/
def get_bit (x n : Nat) : Nat := x / 2 ^ n % 2

/-- Modelled from the spec: `misc.hpp` is not among the sources.
`set_bit(x,n,v)` of section 4.A: `x` with bit `n` replaced by `v`. -/
def set_bit (x n : Nat) (v : Bool) : Nat :=
  x - get_bit x n * 2 ^ n + (if v then 2 ^ n else 0)

/-- Modelled from the spec: `misc.hpp` is not among the sources. `flip_bit(x,n)`
toggles bit `n` of `x` (the palette twin is "the bit4-flipped index"). -/
def flip_bit (x n : Nat) : Nat := set_bit x n (get_bit x n == 0)

/-- Modelled from the spec: `misc.hpp` is not among the sources.
`get_last_bits(x,n)`: the lowest `n` bits of `x` ("lowest 5 bits index"). -/
def get_last_bits (x n : Nat) : Nat := x % 2 ^ n

/-- Modelled from the spec: `misc.hpp` is not among the sources.
`in_range(v,lo,hi)` of section 4.A, half-open. -/
def in_range (v lo hi : Nat) : Bool := decide (lo ≤ v) && decide (v < hi)

/-- Modelled from the spec: `misc.hpp` is not among the sources.
`set_octet(x,n,v)`: `x` with its `n`-th byte replaced by `v` (the first ADDR
write, latch value 1, sets the high byte, the second the low byte). -/
def set_octet (x n v : Nat) : Nat :=
  x - (x / 256 ^ n % 256) * 256 ^ n + (v % 256) * 256 ^ n

end misc

open misc

/-! ## PPU state and register aperture (`gfx.cpp`) -/

/-- The class `t_sprite`: four `unsigned` fields. -/
structure t_sprite where
  sx : Nat
  sy : Nat
  tile_index : Nat
  attr : Nat

namespace t_sprite

def set_y (spr : t_sprite) (val : Nat) : t_sprite := { spr with sy := val }

def set_x (spr : t_sprite) (val : Nat) : t_sprite := { spr with sx := val }

def set_tile_index (spr : t_sprite) (val : Nat) : t_sprite := { spr with tile_index := val }

def set_attr (spr : t_sprite) (val : Nat) : t_sprite := { spr with attr := val }

end t_sprite

/-- The globals of `gfx.cpp`. `address_latch` is the `latch` member of the
anonymous class; a sprite's cached pixel matrix is a function of the index. -/
structure Gfx where
  started : Bool
  in_vblank : Bool
  frame_idx : Nat
  hor_cnt : Nat
  ver_cnt : Nat
  set_adr : Nat
  set_val : Nat
  set_delay : Nat
  set_delay_active : Bool
  address : Nat
  oam_address : Nat
  control_reg : Nat
  data_read_buffer : Nat
  address_latch : Bool
  memory : Nat → Nat
  pattern_table : Nat → Nat
  palette : Nat → Nat
  sprite_list : Nat → t_sprite
  line_sprite_list : List t_sprite
  line_sprite_data_list : List (Nat → Nat)
  sprite_0_hit : Bool
  scroll_x_start : Nat
  scroll_y_start : Nat
  scroll_nametable_start : Nat
  scroll_x : Nat
  scroll_y : Nat
  scroll_nametable : Nat
  mirroring : Bool

namespace gfx

/-- The palette alias at the head of `read_mem` and `write_mem`. -/
def alias_adr (adr : Nat) : Nat :=
  if adr = 0x3f10 ∨ adr = 0x3f14 ∨ adr = 0x3f18 ∨ adr = 0x3f1c then adr - 0x10 else adr

/-- The nametable fold of `read_mem` and `write_mem`, on `adr - 0x2000`. -/
def mirror_adr (mirroring : Bool) (adr : Nat) : Nat :=
  if mirroring = false then
    if in_range adr 0x400 0x800 then adr - 0x400
    else if in_range adr 0x800 0xc00 then adr - 0x400
    else if in_range adr 0xc00 0x1000 then adr - 0x800
    else adr
  else
    if in_range adr 0x800 0xc00 then adr - 0x800
    else if in_range adr 0xc00 0x1000 then adr - 0x800
    else adr

/-- PPU-side `write_mem(unsigned adr, char val)`. -/
def write_mem (g : Gfx) (adr val : Nat) : Gfx :=
  let val := val % 256
  let adr := alias_adr (adr &&& 0x3fff)
  if adr < 0x2000 then
    { g with memory := upd g.memory adr val }
  else if adr < 0x3000 then
    { g with memory := upd g.memory (mirror_adr g.mirroring (adr - 0x2000)) val }
  else if adr < 0x3eff then
    g
  else
    let idx := get_last_bits adr 5 % 256
    let p := upd g.palette idx val
    if get_last_bits idx 2 = 0 then
      { g with palette := upd p (flip_bit idx 4) val }
    else
      { g with palette := p }

/-- PPU-side `read_mem(unsigned adr)`. -/
def read_mem (g : Gfx) (adr : Nat) : Nat :=
  let adr := alias_adr (adr &&& 0x3fff)
  if adr < 0x2000 then
    g.pattern_table adr % 256
  else if adr < 0x3000 then
    g.memory (mirror_adr g.mirroring (adr - 0x2000)) % 256
  else if adr < 0x3eff then
    0
  else
    g.palette (get_last_bits adr 5) % 256

def increment_address (g : Gfx) : Gfx :=
  if get_bit g.control_reg 2 = 1 then
    { g with address := u32 (g.address + 32) }
  else
    { g with address := u32 (g.address + 1) }

/-- The function `gfx::oam_write(char val)`. -/
def oam_write (g : Gfx) (val : Nat) : Gfx :=
  let val := val % 256
  let m := g.oam_address / 4
  let spr := g.sprite_list m
  let n := g.oam_address % 4
  let spr :=
    if n = 0 then spr.set_y (val + 1)
    else if n = 1 then spr.set_tile_index val
    else if n = 2 then spr.set_attr val
    else if n = 3 then spr.set_x val
    else spr
  { g with sprite_list := upd g.sprite_list m spr,
           oam_address := (g.oam_address + 1) % 256 }

/-- The function `gfx::set(unsigned adr, char val)`. -/
def set (g : Gfx) (adr val : Nat) : Gfx :=
  let val := val % 256
  if adr = 0x2000 then
    { g with control_reg := val, scroll_nametable := get_last_bits val 2 }
  else if adr = 0x2003 then
    { g with oam_address := val }
  else if adr = 0x2004 then
    oam_write g val
  else if adr = 0x2005 then
    let g1 :=
      if g.address_latch then { g with scroll_x := val, scroll_x_start := val }
      else { g with scroll_y_start := val }
    { g1 with address_latch := !g1.address_latch }
  else if adr = 0x2006 then
    let g1 := { g with address := u32 (set_octet g.address g.address_latch.toNat val) }
    { g1 with address_latch := !g1.address_latch }
  else if adr = 0x2007 then
    increment_address (write_mem g g.address val)
  else
    g

/-- The function `gfx::get(unsigned adr)`: the byte returned and the state left. -/
def get (g : Gfx) (adr : Nat) : Nat × Gfx :=
  if adr = 0x2002 then
    (set_bit (set_bit 0 6 g.sprite_0_hit) 7 g.in_vblank,
     { g with in_vblank := false, address_latch := true })
  else if adr = 0x2007 then
    if g.address < 0x3f00 then
      (g.data_read_buffer % 256,
       increment_address { g with data_read_buffer := read_mem g g.address })
    else
      (read_mem g g.address, increment_address g)
  else
    (0, g)

end gfx

/-! ## Controller port -/

/-- Modelled from the spec: `input.hpp` is not among the sources. The host
implements the two primitives of port 0x4016; `feed` is the sequence of bytes
the host answers successive reads with, `writes` the bytes written so far. -/
structure Input where
  feed : Nat → Nat
  pos : Nat
  writes : List Nat

namespace input

/-- Modelled from the spec: "read returns the next controller bit". -/
def read (i : Input) : Nat × Input := (i.feed i.pos % 256, { i with pos := i.pos + 1 })

/-- Modelled from the spec: "write triggers the strobe protocol". -/
def write (i : Input) (val : Nat) : Input := { i with writes := (val % 256) :: i.writes }

end input

/-! ## CPU state (`machine.cpp`) -/

/-- The globals of `machine.cpp`. `prg_rom` is the contents of the vector and
`prg_size` its `size()`. -/
structure Machine where
  reset_flag : Bool
  nmi_flag : Bool
  irq_flag : Bool
  ready : Bool
  memory : Nat → Nat
  prg_rom : Nat → Nat
  prg_size : Nat
  arg : Nat
  r_cyc : Nat
  w_cyc : Nat
  step_count : Nat
  cycle_count : Nat
  odd_cycle : Bool
  cur_opcode : Nat
  pc : Nat
  sp : Nat
  ra : Nat
  rx : Nat
  ry : Nat
  rp : Nat
  gfx : Gfx
  input : Input

namespace machine

def adr_ra : Nat := 0x10000
def adr_rx : Nat := 0x10001
def adr_ry : Nat := 0x10002
def adr_rp : Nat := 0x10003
def adr_sp : Nat := 0x10004

/-- The function `make_adr(char hi, char lo)`: `(t_adr(hi) << 8) | lo`. -/
def make_adr (hi lo : Nat) : Nat := ((hi % 256) <<< 8) ||| (lo % 256)

/-- The function `add_with_carry(char& x, char y, bool& c)`: the new `x` and the carry. -/
def add_with_carry (x y : Nat) : Nat × Bool :=
  let z := u32 (x + y)
  (z % 256, decide (z ≥ 0x100))

/-- The function `add_signed_offset(unsigned long adr, char ofs)`. -/
def add_signed_offset (adr ofs : Nat) : Nat :=
  let ofs := ofs % 256
  if ofs < 0x80 then
    u64 (adr + ofs)
  else
    let ofs := (255 - ofs) % 256
    u64 (adr + 18446744073709551616 - u32 (ofs + 1))

def set_carry_flag (s : Machine) (x : Bool) : Machine := { s with rp := set_bit s.rp 0 x }
def get_carry_flag (s : Machine) : Bool := get_bit s.rp 0 == 1
def set_zero_flag (s : Machine) (x : Bool) : Machine := { s with rp := set_bit s.rp 1 x }
def get_zero_flag (s : Machine) : Bool := get_bit s.rp 1 == 1
def set_interrupt_disable_flag (s : Machine) (x : Bool) : Machine :=
  { s with rp := set_bit s.rp 2 x }
def get_interrupt_disable_flag (s : Machine) : Bool := get_bit s.rp 2 == 1
def set_overflow_flag (s : Machine) (x : Bool) : Machine := { s with rp := set_bit s.rp 6 x }
def get_overflow_flag (s : Machine) : Bool := get_bit s.rp 6 == 1
def set_negative_flag (s : Machine) (x : Bool) : Machine := { s with rp := set_bit s.rp 7 x }
def get_negative_flag (s : Machine) : Bool := get_bit s.rp 7 == 1
def set_break_flag (s : Machine) (x : Bool) : Machine := { s with rp := set_bit s.rp 4 x }
def get_break_flag (s : Machine) : Bool := get_bit s.rp 4 == 1

/-- CPU-side `read_mem(t_adr adr)`: the byte read and the state left (a PPU
register or controller read has side effects). -/
def read_mem (s : Machine) (adr : Nat) : Nat × Machine :=
  if adr < 0x2000 then
    (s.memory (adr % 0x0800) % 256, s)
  else if adr < 0x4000 then
    ((gfx.get s.gfx (adr &&& 0x2007)).1 % 256, { s with gfx := (gfx.get s.gfx (adr &&& 0x2007)).2 })
  else if adr = 0x4016 then
    ((input.read s.input).1 % 256, { s with input := (input.read s.input).2 })
  else if adr < 0x8000 then
    (0, s)
  else if adr < 0x10000 then
    (s.prg_rom (if s.prg_size = 0x4000 then (adr - 0x8000) % 0x4000 else adr - 0x8000) % 256, s)
  else if adr = adr_ra then (s.ra, s)
  else if adr = adr_rx then (s.rx, s)
  else if adr = adr_ry then (s.ry, s)
  else if adr = adr_rp then (s.rp, s)
  else if adr = adr_sp then (s.sp, s)
  else (0, s)

/-- The loop of the 0x4014 branch of `write_mem`: `n` iterations left, at
index `i`. -/
def oam_dma (val : Nat) : Nat → Nat → Machine → Machine
  | 0, _, s => s
  | n + 1, i, s =>
    let r := read_mem s (make_adr val (i % 256))
    oam_dma val n (i + 1) { r.2 with gfx := gfx.oam_write r.2.gfx r.1 }

/-- CPU-side `write_mem(t_adr adr, char val)`. -/
def write_mem (s : Machine) (adr val : Nat) : Machine :=
  let val := val % 256
  if adr < 0x2000 then
    { s with memory := upd s.memory (adr % 0x0800) val }
  else if adr < 0x4000 then
    { s with gfx := gfx.set s.gfx (adr &&& 0x2007) val }
  else if adr = 0x4014 then
    let s1 := oam_dma val 0x100 0 s
    let s2 := { s1 with cycle_count := u64 (s1.cycle_count + 513) }
    if s2.odd_cycle then { s2 with cycle_count := u64 (s2.cycle_count + 1) } else s2
  else if adr = 0x4016 then
    { s with input := input.write s.input val }
  else if adr < 0x8000 then
    s
  else if adr < 0x10000 then
    s
  else if adr = adr_ra then { s with ra := val }
  else if adr = adr_rx then { s with rx := val }
  else if adr = adr_ry then { s with ry := val }
  else if adr = adr_rp then { s with rp := val }
  else if adr = adr_sp then { s with sp := val }
  else s

def read_mem_2 (s : Machine) (adr : Nat) : Nat × Machine :=
  let v := read_mem s adr
  let u := read_mem v.2 (u64 (adr + 1))
  (make_adr u.1 v.1, u.2)

def set_with_flags (s : Machine) (adr v : Nat) : Machine :=
  let v := v % 256
  let s := write_mem s adr v
  let s := set_zero_flag s (v == 0)
  set_negative_flag s (get_bit v 7 == 1)

def push (s : Machine) (val : Nat) : Machine :=
  let s := write_mem s (0x100 + s.sp) val
  { s with sp := (s.sp + 255) % 256 }

def pull (s : Machine) : Nat × Machine :=
  let s := { s with sp := (s.sp + 1) % 256 }
  read_mem s (0x100 + s.sp)

def push_adr (s : Machine) (adr : Nat) : Machine :=
  let s := push s (adr >>> 8)
  push s adr

def pull_adr (s : Machine) : Nat × Machine :=
  let v := pull s
  let u := pull v.2
  (make_adr u.1 v.1, u.2)

def short_jump_if (s : Machine) (cond : Bool) : Machine :=
  let s := { s with cycle_count := u64 (s.cycle_count + 2) }
  if cond then
    let s := { s with cycle_count := u64 (s.cycle_count + 1) }
    let old_page := (s.pc >>> 8) % 256
    let r := read_mem s s.arg
    let s := { r.2 with pc := add_signed_offset r.2.pc r.1 }
    let new_page := (s.pc >>> 8) % 256
    if new_page ≠ old_page then
      { s with cycle_count := u64 (s.cycle_count + 1) }
    else s
  else s

/-- The function `set_arg(t_adr adr, int n)` for a non-negative `n`: `n` times `pc++`. -/
def set_arg (s : Machine) (adr : Nat) : Nat → Machine
  | 0 => { s with arg := adr }
  | n + 1 => let s := set_arg s adr n; { s with pc := u64 (s.pc + 1) }

def process_interrupt (s : Machine) : Machine :=
  let s :=
    if s.nmi_flag then
      let s := { s with nmi_flag := false }
      let s := push_adr s s.pc
      let val := set_bit (set_bit s.rp 5 true) 4 false
      let s := push s val
      let s := set_interrupt_disable_flag s true
      let r := read_mem_2 s 0xfffa
      { r.2 with pc := r.1 }
    else s
  if s.reset_flag then
    let s := { s with reset_flag := false }
    let s := set_interrupt_disable_flag s true
    let r := read_mem_2 s 0xfffc
    { r.2 with pc := r.1 }
  else if s.irq_flag then
    let s := { s with irq_flag := false }
    let s := push_adr s s.pc
    let val := set_bit (set_bit s.rp 5 true) 4 false
    let s := push s val
    let s := set_interrupt_disable_flag s true
    let r := read_mem_2 s 0xfffe
    { r.2 with pc := r.1 }
  else s

/-! ### Addressing modes -/

def m_imp (s : Machine) : Machine :=
  set_arg { s with r_cyc := 0, w_cyc := 0 } 0 0

def m_acc (s : Machine) : Machine :=
  set_arg { s with r_cyc := 0, w_cyc := 0 } adr_ra 0

def m_imm (s : Machine) : Machine :=
  set_arg { s with r_cyc := 0, w_cyc := 0 } s.pc 1

def m_rel (s : Machine) : Machine :=
  let s := set_arg s s.pc 1
  { s with r_cyc := 0, w_cyc := 0 }

def m_zpg (s : Machine) : Machine :=
  let s := { s with r_cyc := 1, w_cyc := 1 }
  let r := read_mem s s.pc
  set_arg r.2 r.1 1

def m_zpx (s : Machine) : Machine :=
  let s := { s with r_cyc := 2, w_cyc := 2 }
  let r := read_mem s s.pc
  set_arg r.2 ((r.1 + r.2.rx) % 256) 1

def m_zpy (s : Machine) : Machine :=
  let s := { s with r_cyc := 2, w_cyc := 2 }
  let r := read_mem s s.pc
  set_arg r.2 ((r.1 + r.2.ry) % 256) 1

def m_abs (s : Machine) : Machine :=
  let s := { s with r_cyc := 2, w_cyc := 2 }
  let r := read_mem_2 s s.pc
  set_arg r.2 r.1 2

def m_abx (s : Machine) : Machine :=
  let lo := read_mem s s.pc
  let hi := read_mem lo.2 (u64 (lo.2.pc + 1))
  let s := hi.2
  let ac := add_with_carry lo.1 s.rx
  let hi := (hi.1 + ac.2.toNat) % 256
  let s := set_arg s (make_adr hi ac.1) 2
  { s with r_cyc := 2 + ac.2.toNat, w_cyc := 3 }

def m_aby (s : Machine) : Machine :=
  let lo := read_mem s s.pc
  let hi := read_mem lo.2 (u64 (lo.2.pc + 1))
  let s := hi.2
  let ac := add_with_carry lo.1 s.ry
  let hi := (hi.1 + ac.2.toNat) % 256
  let s := set_arg s (make_adr hi ac.1) 2
  { s with r_cyc := 2 + ac.2.toNat, w_cyc := 3 }

def m_ind (s : Machine) : Machine :=
  let p := read_mem_2 s s.pc
  let r := read_mem_2 p.2 p.1
  let s := set_arg r.2 r.1 2
  { s with r_cyc := 4 }

def m_inx (s : Machine) : Machine :=
  let s := { s with r_cyc := 4, w_cyc := 4 }
  let z := read_mem s s.pc
  let r := read_mem_2 z.2 ((z.1 + z.2.rx) % 256)
  set_arg r.2 r.1 1

def m_iny (s : Machine) : Machine :=
  let adr := read_mem s s.pc
  let lo := read_mem adr.2 adr.1
  let hi := read_mem lo.2 ((adr.1 + 1) % 256)
  let s := hi.2
  let ac := add_with_carry lo.1 s.ry
  let hi := (hi.1 + ac.2.toNat) % 256
  let s := set_arg s (make_adr hi ac.1) 1
  { s with r_cyc := 3 + ac.2.toNat, w_cyc := 4 }

/-! ### Instructions -/

/-- The statement `cycle_count += n` for an `unsigned` summand `n`. -/
def add_cycles (s : Machine) (n : Nat) : Machine :=
  { s with cycle_count := u64 (s.cycle_count + u32 n) }

def i_lda (s : Machine) : Machine :=
  let res := read_mem s s.arg
  let s := set_with_flags res.2 adr_ra res.1
  add_cycles s (2 + s.r_cyc)

def i_ldx (s : Machine) : Machine :=
  let res := read_mem s s.arg
  let s := set_with_flags res.2 adr_rx res.1
  add_cycles s (2 + s.r_cyc)

def i_ldy (s : Machine) : Machine :=
  let res := read_mem s s.arg
  let s := set_with_flags res.2 adr_ry res.1
  add_cycles s (2 + s.r_cyc)

def i_sta (s : Machine) : Machine :=
  let s := add_cycles s (2 + s.w_cyc)
  write_mem s s.arg s.ra

def i_stx (s : Machine) : Machine :=
  let s := add_cycles s (2 + s.r_cyc)
  write_mem s s.arg s.rx

def i_sty (s : Machine) : Machine :=
  let s := add_cycles s (2 + s.r_cyc)
  write_mem s s.arg s.ry

def i_tax (s : Machine) : Machine := add_cycles (set_with_flags s adr_rx s.ra) 2

def i_tay (s : Machine) : Machine := add_cycles (set_with_flags s adr_ry s.ra) 2

def i_txa (s : Machine) : Machine := add_cycles (set_with_flags s adr_ra s.rx) 2

def i_tya (s : Machine) : Machine := add_cycles (set_with_flags s adr_ra s.ry) 2

def i_tsx (s : Machine) : Machine := add_cycles (set_with_flags s adr_rx s.sp) 2

def i_txs (s : Machine) : Machine := add_cycles { s with sp := s.rx } 2

def i_pha (s : Machine) : Machine := add_cycles (push s s.ra) 3

def i_pla (s : Machine) : Machine :=
  let r := pull s
  add_cycles (set_with_flags r.2 adr_ra r.1) 4

def i_php (s : Machine) : Machine :=
  let val := set_bit (set_bit s.rp 5 true) 4 true
  add_cycles (push s val) 3

def i_plp (s : Machine) : Machine :=
  let r := pull s
  add_cycles { r.2 with rp := r.1 } 4

def i_and (s : Machine) : Machine :=
  let r := read_mem s s.arg
  let s := set_with_flags r.2 adr_ra (r.2.ra &&& r.1)
  add_cycles s (2 + s.r_cyc)

def i_eor (s : Machine) : Machine :=
  let r := read_mem s s.arg
  let s := set_with_flags r.2 adr_ra (r.2.ra ^^^ r.1)
  add_cycles s (2 + s.r_cyc)

def i_ora (s : Machine) : Machine :=
  let r := read_mem s s.arg
  let s := set_with_flags r.2 adr_ra (r.2.ra ||| r.1)
  add_cycles s (2 + s.r_cyc)

def i_bit (s : Machine) : Machine :=
  let val := read_mem s s.arg
  let s := val.2
  let s := set_zero_flag s ((s.ra &&& val.1) == 0)
  let s := set_overflow_flag s (get_bit val.1 6 == 1)
  let s := set_negative_flag s (get_bit val.1 7 == 1)
  add_cycles s (2 + s.r_cyc)

def i_inc (s : Machine) : Machine :=
  let r := read_mem s s.arg
  let s := set_with_flags r.2 r.2.arg (r.1 + 1)
  add_cycles s (4 + s.w_cyc)

def i_dec (s : Machine) : Machine :=
  let r := read_mem s s.arg
  let s := set_with_flags r.2 r.2.arg (r.1 + 4294967296 - 1)
  add_cycles s (4 + s.w_cyc)

def i_inx (s : Machine) : Machine := add_cycles (set_with_flags s adr_rx (s.rx + 1)) 2

def i_dex (s : Machine) : Machine :=
  add_cycles (set_with_flags s adr_rx (s.rx + 4294967296 - 1)) 2

def i_iny (s : Machine) : Machine := add_cycles (set_with_flags s adr_ry (s.ry + 1)) 2

def i_dey (s : Machine) : Machine :=
  add_cycles (set_with_flags s adr_ry (s.ry + 4294967296 - 1)) 2

def i_jmp (s : Machine) : Machine := add_cycles { s with pc := s.arg } (1 + s.r_cyc)

def i_jsr (s : Machine) : Machine :=
  let s := push_adr s (u64 (s.pc + 18446744073709551616 - 1))
  add_cycles { s with pc := s.arg } (4 + s.r_cyc)

def i_rts (s : Machine) : Machine :=
  let r := pull_adr s
  add_cycles { r.2 with pc := u64 (r.1 + 1) } 6

def i_clc (s : Machine) : Machine := add_cycles (set_carry_flag s false) 2

def i_sec (s : Machine) : Machine := add_cycles (set_carry_flag s true) 2

def i_clv (s : Machine) : Machine := add_cycles (set_overflow_flag s false) 2

def i_cld (s : Machine) : Machine := add_cycles { s with rp := set_bit s.rp 3 false } 2

def i_sed (s : Machine) : Machine := add_cycles { s with rp := set_bit s.rp 3 true } 2

def i_cli (s : Machine) : Machine := add_cycles { s with rp := set_bit s.rp 2 false } 2

def i_sei (s : Machine) : Machine := add_cycles { s with rp := set_bit s.rp 2 true } 2

def i_bcc (s : Machine) : Machine := short_jump_if s (get_carry_flag s == false)

def i_bcs (s : Machine) : Machine := short_jump_if s (get_carry_flag s == true)

def i_bpl (s : Machine) : Machine := short_jump_if s (get_negative_flag s == false)

def i_bmi (s : Machine) : Machine := short_jump_if s (get_negative_flag s == true)

def i_bne (s : Machine) : Machine := short_jump_if s (get_zero_flag s == false)

def i_beq (s : Machine) : Machine := short_jump_if s (get_zero_flag s == true)

def i_bvc (s : Machine) : Machine := short_jump_if s (get_overflow_flag s == false)

def i_bvs (s : Machine) : Machine := short_jump_if s (get_overflow_flag s == true)

def i_brk (s : Machine) : Machine :=
  let s := push_adr s (u64 (s.pc + 1))
  let val := set_bit (set_bit s.rp 5 true) 4 true
  let s := push s val
  let r := read_mem_2 s 0xfffe
  let s := { r.2 with pc := r.1 }
  let s := set_break_flag s true
  let s := set_interrupt_disable_flag s true
  add_cycles s 7

def i_rti (s : Machine) : Machine :=
  let r := pull s
  let s := { r.2 with rp := r.1 }
  let a := pull_adr s
  add_cycles { a.2 with pc := a.1 } 6

def i_nop (s : Machine) : Machine := add_cycles s (2 + s.r_cyc)

def i_asl (s : Machine) : Machine :=
  let val := read_mem s s.arg
  let s := set_carry_flag val.2 (get_bit val.1 7 == 1)
  let s := set_with_flags s s.arg (val.1 <<< 1)
  add_cycles s (if s.arg = adr_ra then 2 else 4 + s.w_cyc)

def i_lsr (s : Machine) : Machine :=
  let val := read_mem s s.arg
  let s := set_carry_flag val.2 (get_bit val.1 0 == 1)
  let s := set_with_flags s s.arg (val.1 >>> 1)
  add_cycles s (if s.arg = adr_ra then 2 else 4 + s.w_cyc)

def i_rol (s : Machine) : Machine :=
  let val := read_mem s s.arg
  let s := val.2
  let ca := get_carry_flag s
  let s := set_carry_flag s (get_bit val.1 7 == 1)
  let v := set_bit ((val.1 <<< 1) % 256) 0 ca
  let s := set_with_flags s s.arg v
  add_cycles s (if s.arg = adr_ra then 2 else 4 + s.w_cyc)

def i_ror (s : Machine) : Machine :=
  let val := read_mem s s.arg
  let s := val.2
  let ca := get_carry_flag s
  let s := set_carry_flag s (get_bit val.1 0 == 1)
  let v := set_bit ((val.1 >>> 1) % 256) 7 ca
  let s := set_with_flags s s.arg v
  add_cycles s (if s.arg = adr_ra then 2 else 4 + s.w_cyc)

def i_adc (s : Machine) : Machine :=
  let res := s.ra
  let r := read_mem s s.arg
  let s := r.2
  let ca := get_carry_flag s
  let v := u32 (r.1 + ca.toNat)
  let a7 := get_bit s.ra 7
  let b7 := get_bit v 7
  let res := u32 (res + v)
  let s := set_with_flags s adr_ra res
  let c7 := get_bit s.ra 7
  let s :=
    if ca = true ∧ v = 0x80 then set_overflow_flag s (a7 == 0)
    else set_overflow_flag s (a7 == b7 && a7 != c7)
  let s := set_carry_flag s (decide (res ≥ 0x100))
  add_cycles s (2 + s.r_cyc)

def i_sbc (s : Machine) : Machine :=
  let res := s.ra
  let r := read_mem s s.arg
  let s := r.2
  let nc := !get_carry_flag s
  let xx := u32 (r.1 + nc.toNat)
  let a7 := get_bit s.ra 7
  let b7 := get_bit xx 7
  let res := u32 (res + 4294967296 - xx)
  let s := set_with_flags s adr_ra res
  let c7 := get_bit s.ra 7
  let s :=
    if nc = true ∧ xx = 0x80 then set_overflow_flag s (a7 == 1)
    else set_overflow_flag s (a7 != b7 && b7 == c7)
  let s := set_carry_flag s (decide (res < 0x100))
  add_cycles s (2 + s.r_cyc)

def i_cmp (s : Machine) : Machine :=
  let val := read_mem s s.arg
  let s := val.2
  let s := set_carry_flag s (decide (s.ra ≥ val.1))
  let s := set_zero_flag s (s.ra == val.1)
  let s := set_negative_flag s (get_bit (u32 (s.ra + 4294967296 - val.1)) 7 == 1)
  add_cycles s (2 + s.r_cyc)

def i_cpx (s : Machine) : Machine :=
  let val := read_mem s s.arg
  let s := val.2
  let s := set_carry_flag s (decide (s.rx ≥ val.1))
  let s := set_zero_flag s (s.rx == val.1)
  let s := set_negative_flag s (get_bit (u32 (s.rx + 4294967296 - val.1)) 7 == 1)
  add_cycles s (2 + s.r_cyc)

def i_cpy (s : Machine) : Machine :=
  let val := read_mem s s.arg
  let s := val.2
  let s := set_carry_flag s (decide (s.ry ≥ val.1))
  let s := set_zero_flag s (s.ry == val.1)
  let s := set_negative_flag s (get_bit (u32 (s.ry + 4294967296 - val.1)) 7 == 1)
  add_cycles s (2 + s.r_cyc)

def i_isc (s : Machine) : Machine :=
  let s := i_inc s
  let s := i_sbc s
  { s with cycle_count := u64 (u32 (4 + s.w_cyc)) }

/-! ### Decode and step -/

/-- The addressing-mode functions `m_*`. -/
inductive Mode where
  | imp | acc | imm | rel | zpg | zpx | zpy | abs | abx | aby | ind | inx | iny
  deriving DecidableEq, Repr

/-- The instruction functions `i_*`. -/
inductive Instr where
  | lda | ldx | ldy | sta | stx | sty | tax | tay | txa | tya | tsx | txs
  | pha | pla | php | plp | and | eor | ora | bit | inc | dec | inx | dex | iny | dey
  | jmp | jsr | rts | clc | sec | clv | cld | sed | cli | sei
  | bcc | bcs | bpl | bmi | bne | beq | bvc | bvs | brk | rti | nop
  | asl | lsr | rol | ror | adc | sbc | cmp | cpx | cpy | isc
  deriving DecidableEq, Repr

def run_mode : Mode → Machine → Machine
  | .imp => m_imp | .acc => m_acc | .imm => m_imm | .rel => m_rel
  | .zpg => m_zpg | .zpx => m_zpx | .zpy => m_zpy | .abs => m_abs
  | .abx => m_abx | .aby => m_aby | .ind => m_ind | .inx => m_inx | .iny => m_iny

def run_instr : Instr → Machine → Machine
  | .lda => i_lda | .ldx => i_ldx | .ldy => i_ldy
  | .sta => i_sta | .stx => i_stx | .sty => i_sty
  | .tax => i_tax | .tay => i_tay | .txa => i_txa | .tya => i_tya
  | .tsx => i_tsx | .txs => i_txs
  | .pha => i_pha | .pla => i_pla | .php => i_php | .plp => i_plp
  | .and => i_and | .eor => i_eor | .ora => i_ora | .bit => i_bit
  | .inc => i_inc | .dec => i_dec
  | .inx => i_inx | .dex => i_dex | .iny => i_iny | .dey => i_dey
  | .jmp => i_jmp | .jsr => i_jsr | .rts => i_rts
  | .clc => i_clc | .sec => i_sec | .clv => i_clv | .cld => i_cld
  | .sed => i_sed | .cli => i_cli | .sei => i_sei
  | .bcc => i_bcc | .bcs => i_bcs | .bpl => i_bpl | .bmi => i_bmi
  | .bne => i_bne | .beq => i_beq | .bvc => i_bvc | .bvs => i_bvs
  | .brk => i_brk | .rti => i_rti | .nop => i_nop
  | .asl => i_asl | .lsr => i_lsr | .rol => i_rol | .ror => i_ror
  | .adc => i_adc | .sbc => i_sbc | .cmp => i_cmp | .cpx => i_cpx | .cpy => i_cpy
  | .isc => i_isc

/-- One `case` of the `switch`: opcode, addressing mode, instruction. -/
@[reducible] def entry (op : Nat) (m : Mode) (i : Instr) : Nat × Mode × Instr := (op, m, i)

/-- The `switch (cur_opcode)` of `step`, one entry per `case` in source order:
`case 0x29: m_imm(); i_and(); break;` is `entry 0x29 .imm .and`. -/
def opcode_table : List (Nat × Mode × Instr) := [
  entry 0x29 .imm .and, entry 0x25 .zpg .and, entry 0x35 .zpx .and, entry 0x2d .abs .and,
  entry 0x3d .abx .and, entry 0x39 .aby .and, entry 0x21 .inx .and, entry 0x31 .iny .and,
  entry 0x49 .imm .eor, entry 0x45 .zpg .eor, entry 0x55 .zpx .eor, entry 0x4d .abs .eor,
  entry 0x5d .abx .eor, entry 0x59 .aby .eor, entry 0x41 .inx .eor, entry 0x51 .iny .eor,
  entry 0x09 .imm .ora, entry 0x05 .zpg .ora, entry 0x15 .zpx .ora, entry 0x0d .abs .ora,
  entry 0x1d .abx .ora, entry 0x19 .aby .ora, entry 0x01 .inx .ora, entry 0x11 .iny .ora,
  entry 0x24 .zpg .bit, entry 0x2c .abs .bit,
  entry 0xa9 .imm .lda, entry 0xa5 .zpg .lda, entry 0xb5 .zpx .lda, entry 0xad .abs .lda,
  entry 0xbd .abx .lda, entry 0xb9 .aby .lda, entry 0xa1 .inx .lda, entry 0xb1 .iny .lda,
  entry 0xa2 .imm .ldx, entry 0xa6 .zpg .ldx, entry 0xb6 .zpy .ldx, entry 0xae .abs .ldx,
  entry 0xbe .aby .ldx,
  entry 0xa0 .imm .ldy, entry 0xa4 .zpg .ldy, entry 0xb4 .zpx .ldy, entry 0xac .abs .ldy,
  entry 0xbc .abx .ldy,
  entry 0x85 .zpg .sta, entry 0x95 .zpx .sta, entry 0x8d .abs .sta, entry 0x9d .abx .sta,
  entry 0x99 .aby .sta, entry 0x81 .inx .sta, entry 0x91 .iny .sta,
  entry 0x86 .zpg .stx, entry 0x96 .zpy .stx, entry 0x8e .abs .stx,
  entry 0x84 .zpg .sty, entry 0x94 .zpx .sty, entry 0x8c .abs .sty,
  entry 0xaa .imp .tax, entry 0xa8 .imp .tay, entry 0x8a .imp .txa, entry 0x98 .imp .tya,
  entry 0xe6 .zpg .inc, entry 0xf6 .zpx .inc, entry 0xee .abs .inc, entry 0xfe .abx .inc,
  entry 0xe8 .imp .inx, entry 0xc8 .imp .iny,
  entry 0xc6 .zpg .dec, entry 0xd6 .zpx .dec, entry 0xce .abs .dec, entry 0xde .abx .dec,
  entry 0xca .imp .dex, entry 0x88 .imp .dey,
  entry 0x0a .acc .asl, entry 0x06 .zpg .asl, entry 0x16 .zpx .asl, entry 0x0e .abs .asl,
  entry 0x1e .abx .asl,
  entry 0x4a .acc .lsr, entry 0x46 .zpg .lsr, entry 0x56 .zpx .lsr, entry 0x4e .abs .lsr,
  entry 0x5e .abx .lsr,
  entry 0x2a .acc .rol, entry 0x26 .zpg .rol, entry 0x36 .zpx .rol, entry 0x2e .abs .rol,
  entry 0x3e .abx .rol,
  entry 0x6a .acc .ror, entry 0x66 .zpg .ror, entry 0x76 .zpx .ror, entry 0x6e .abs .ror,
  entry 0x7e .abx .ror,
  entry 0xba .imp .tsx, entry 0x9a .imp .txs, entry 0x48 .imp .pha, entry 0x08 .imp .php,
  entry 0x68 .imp .pla, entry 0x28 .imp .plp,
  entry 0x4c .abs .jmp, entry 0x6c .ind .jmp, entry 0x20 .abs .jsr, entry 0x60 .imp .rts,
  entry 0x90 .rel .bcc, entry 0xb0 .rel .bcs, entry 0xf0 .rel .beq, entry 0x30 .rel .bmi,
  entry 0xd0 .rel .bne, entry 0x10 .rel .bpl, entry 0x50 .rel .bvc, entry 0x70 .rel .bvs,
  entry 0x18 .imp .clc, entry 0xd8 .imp .cld, entry 0x58 .imp .cli, entry 0xb8 .imp .clv,
  entry 0x38 .imp .sec, entry 0xf8 .imp .sed, entry 0x78 .imp .sei,
  entry 0x69 .imm .adc, entry 0x65 .zpg .adc, entry 0x75 .zpx .adc, entry 0x6d .abs .adc,
  entry 0x7d .abx .adc, entry 0x79 .aby .adc, entry 0x61 .inx .adc, entry 0x71 .iny .adc,
  entry 0xe9 .imm .sbc, entry 0xe5 .zpg .sbc, entry 0xf5 .zpx .sbc, entry 0xed .abs .sbc,
  entry 0xfd .abx .sbc, entry 0xf9 .aby .sbc, entry 0xe1 .inx .sbc, entry 0xf1 .iny .sbc,
  entry 0xc9 .imm .cmp, entry 0xc5 .zpg .cmp, entry 0xd5 .zpx .cmp, entry 0xcd .abs .cmp,
  entry 0xdd .abx .cmp, entry 0xd9 .aby .cmp, entry 0xc1 .inx .cmp, entry 0xd1 .iny .cmp,
  entry 0xe0 .imm .cpx, entry 0xe4 .zpg .cpx, entry 0xec .abs .cpx,
  entry 0xc0 .imm .cpy, entry 0xc4 .zpg .cpy, entry 0xcc .abs .cpy,
  entry 0xea .imp .nop, entry 0x00 .imp .brk, entry 0x40 .imp .rti,
  entry 0x04 .zpg .nop, entry 0xe7 .zpg .isc]

/-- The case of the `switch` that opcode `op` selects, `none` for `default`. -/
def decode (op : Nat) : Option (Mode × Instr) := opcode_table.lookup op

/-- The condition under which `step` services interrupts instead of fetching. -/
def interrupt_pending (s : Machine) : Bool :=
  s.nmi_flag || s.reset_flag || (!get_interrupt_disable_flag s && s.irq_flag)

/-- The fetch of `step`: `cur_opcode = read_mem(pc); pc++;`. -/
def fetch (s : Machine) : Machine :=
  let r := read_mem s s.pc
  let s := { r.2 with cur_opcode := r.1 }
  { s with pc := u64 (s.pc + 1) }

/-- The function `step()`: the `int` returned and the state left. -/
def step (s : Machine) : Int × Machine :=
  if interrupt_pending s then
    (0, { process_interrupt s with cycle_count := 6 })
  else
    let s := fetch s
    match decode s.cur_opcode with
    | none => (-1, s)
    | some (m, i) =>
      let s := run_instr i (run_mode m s)
      (0, { s with step_count := u64 (s.step_count + 1) })

/-- The function `machine::cycle()`; `none` is the `exit(1)` on a bad opcode. -/
def cycle (s : Machine) : Option Machine :=
  if s.cycle_count = 0 then
    if !s.ready then some s
    else
      let r := step s
      if r.1 = -1 then none
      else some { r.2 with cycle_count := u64 (r.2.cycle_count + 18446744073709551616 - 1),
                           odd_cycle := !r.2.odd_cycle }
  else
    some { s with cycle_count := u64 (s.cycle_count + 18446744073709551616 - 1),
                  odd_cycle := !s.odd_cycle }

/-- The function `machine::init()`. -/
def init (s : Machine) : Machine :=
  { s with sp := 0xff, ra := 0x00, rx := 0x00, ry := 0x00, rp := 0x34,
           memory := fun _ => 0x00,
           nmi_flag := false, irq_flag := false, reset_flag := true,
           step_count := 0, cycle_count := 0, odd_cycle := false, ready := true }

/-- The function `machine::set_nmi_flag(bool val)`. -/
def set_nmi_flag (s : Machine) (val : Bool) : Machine := { s with nmi_flag := val }

end machine

/-! ## Program start

Objects of static storage duration are zero-initialised. -/

/-- The PPU globals at program start. -/
def gfx.start : Gfx :=
  { started := false, in_vblank := false, frame_idx := 0, hor_cnt := 0, ver_cnt := 0,
    set_adr := 0, set_val := 0, set_delay := 0, set_delay_active := false,
    address := 0, oam_address := 0, control_reg := 0, data_read_buffer := 0,
    address_latch := false,
    memory := fun _ => 0, pattern_table := fun _ => 0, palette := fun _ => 0,
    sprite_list := fun _ => { sx := 0, sy := 0, tile_index := 0, attr := 0 },
    line_sprite_list := [], line_sprite_data_list := [],
    sprite_0_hit := false,
    scroll_x_start := 0, scroll_y_start := 0, scroll_nametable_start := 0,
    scroll_x := 0, scroll_y := 0, scroll_nametable := 0,
    mirroring := false }

/-- The CPU globals at program start, with a cartridge of PRG contents `rom` and
size `size` loaded and a controller that answers reads with `feed`. -/
def machine.start (rom : Nat → Nat) (size : Nat) (feed : Nat → Nat) : Machine :=
  { reset_flag := false, nmi_flag := false, irq_flag := false, ready := false,
    memory := fun _ => 0, prg_rom := rom, prg_size := size,
    arg := 0, r_cyc := 0, w_cyc := 0, step_count := 0, cycle_count := 0,
    odd_cycle := false, cur_opcode := 0,
    pc := 0, sp := 0, ra := 0, rx := 0, ry := 0, rp := 0,
    gfx := gfx.start, input := { feed := feed, pos := 0, writes := [] } }

/-! ## Notions used to state the properties -/

/-- A byte read as a signed 8-bit value. -/
def signed8 (x : Nat) : Int := if x < 128 then (x : Int) else (x : Int) - 256

namespace machine

/-- The value `i_adc` passes to `set_overflow_flag`, for accumulator `a`,
operand byte `m` and carry-in `c`. -/
def adc_overflow (a m : Nat) (c : Bool) : Bool :=
  if c = true ∧ u32 (m + c.toNat) = 0x80 then get_bit a 7 == 0
  else (get_bit a 7 == get_bit (u32 (m + c.toNat)) 7
        && get_bit a 7 != get_bit (u32 (a + u32 (m + c.toNat)) % 256) 7)

/-- The value `i_sbc` passes to `set_overflow_flag`, for accumulator `a`,
operand byte `m` and carry-in `c`. -/
def sbc_overflow (a m : Nat) (c : Bool) : Bool :=
  if (!c) = true ∧ u32 (m + (!c).toNat) = 0x80 then get_bit a 7 == 1
  else (get_bit a 7 != get_bit (u32 (m + (!c).toNat)) 7
        && get_bit (u32 (m + (!c).toNat)) 7
            == get_bit (u32 (a + 4294967296 - u32 (m + (!c).toNat)) % 256) 7)

/-- The sequence `process_interrupt` runs for NMI and for IRQ, with the vector at
`vec`: push PC, push P with bit 5 set and bit 4 clear, set InterruptDisable,
load PC. -/
def service (s : Machine) (vec : Nat) : Machine :=
  let s := push_adr s s.pc
  let val := set_bit (set_bit s.rp 5 true) 4 false
  let s := push s val
  let s := set_interrupt_disable_flag s true
  let r := read_mem_2 s vec
  { r.2 with pc := r.1 }

/-- The `if (reset_flag) ... else if (irq_flag) ...` statement of `process_interrupt`. -/
def reset_or_irq (s : Machine) : Machine :=
  if s.reset_flag then
    let s := { s with reset_flag := false }
    let s := set_interrupt_disable_flag s true
    let r := read_mem_2 s 0xfffc
    { r.2 with pc := r.1 }
  else if s.irq_flag then
    service { s with irq_flag := false } 0xfffe
  else s

/-- The first instruction of the subroutine at `t` is RTS and its opcode byte is
not one of the two stack cells a JSR writes: the byte lives in RAM, in a cell
other than those two, or in PRG ROM. -/
def rts_at (s : Machine) (t : Nat) : Prop :=
  (t < 0x2000 ∧ s.memory (t % 0x0800) % 256 = 0x60 ∧ t % 0x0800 ≠ 0x100 + s.sp ∧
    t % 0x0800 ≠ 0x100 + (s.sp + 255) % 256) ∨
  (0x8000 ≤ t ∧ t < 0x10000 ∧
    s.prg_rom (if s.prg_size = 0x4000 then (t - 0x8000) % 0x4000 else t - 0x8000) % 256 = 0x60)

/-- The five 8-bit registers hold bytes, as `char` variables do. -/
def regs_wf (s : Machine) : Prop :=
  s.ra < 256 ∧ s.rx < 256 ∧ s.ry < 256 ∧ s.rp < 256 ∧ s.sp < 256

instance (s : Machine) : Decidable (regs_wf s) := by
  unfold regs_wf; infer_instance

/-- The opcodes of the eight branch instructions BPL, BMI, BVC, BVS, BCC, BCS, BNE, BEQ. -/
def branch_opcodes : List Nat := [0x10, 0x30, 0x50, 0x70, 0x90, 0xb0, 0xd0, 0xf0]

/-- The documented 6502 condition under which the branch with opcode `op` is
taken: BPL on N = 0, BMI on N = 1, BVC on V = 0, BVS on V = 1, BCC on C = 0,
BCS on C = 1, BNE on Z = 0, BEQ on Z = 1. -/
def branch_taken (op : Nat) (s : Machine) : Bool :=
  if op = 0x10 then get_bit s.rp 7 == 0
  else if op = 0x30 then get_bit s.rp 7 == 1
  else if op = 0x50 then get_bit s.rp 6 == 0
  else if op = 0x70 then get_bit s.rp 6 == 1
  else if op = 0x90 then get_bit s.rp 0 == 0
  else if op = 0xb0 then get_bit s.rp 0 == 1
  else if op = 0xd0 then get_bit s.rp 1 == 0
  else if op = 0xf0 then get_bit s.rp 1 == 1
  else false

/-- One row of the documented timing table: opcode, addressing mode, base
cycles, and whether a page crossing adds one cycle. -/
@[reducible] def timing (op : Nat) (m : Mode) (base : Nat) (pen : Bool) : Nat × Mode × Nat × Bool :=
  (op, m, base, pen)

/-- The documented 6502 cost of the 143 official opcodes other than the eight
branches, by mnemonic in alphabetical order (ADC, AND, ASL, BIT, BRK, CLC, CLD,
CLI, CLV, CMP, CPX, CPY, DEC, DEX, DEY, EOR, INC, INX, INY, JMP, JSR, LDA, LDX,
LDY, LSR, NOP, ORA, PHA, PHP, PLA, PLP, ROL, ROR, RTI, RTS, SBC, SEC, SED, SEI,
STA, STX, STY, TAX, TAY, TSX, TXA, TXS, TYA). Reads in AbsoluteX, AbsoluteY and
IndirectIndexedY take one cycle more when a page is crossed; stores and
read-modify-write instructions have a fixed cost. -/
def documented_timing : List (Nat × Mode × Nat × Bool) := [
  timing 0x69 .imm 2 false, timing 0x65 .zpg 3 false, timing 0x75 .zpx 4 false,
  timing 0x6d .abs 4 false, timing 0x7d .abx 4 true, timing 0x79 .aby 4 true,
  timing 0x61 .inx 6 false, timing 0x71 .iny 5 true,
  timing 0x29 .imm 2 false, timing 0x25 .zpg 3 false, timing 0x35 .zpx 4 false,
  timing 0x2d .abs 4 false, timing 0x3d .abx 4 true, timing 0x39 .aby 4 true,
  timing 0x21 .inx 6 false, timing 0x31 .iny 5 true,
  timing 0x0a .acc 2 false, timing 0x06 .zpg 5 false, timing 0x16 .zpx 6 false,
  timing 0x0e .abs 6 false, timing 0x1e .abx 7 false,
  timing 0x24 .zpg 3 false, timing 0x2c .abs 4 false,
  timing 0x00 .imp 7 false,
  timing 0x18 .imp 2 false,
  timing 0xd8 .imp 2 false,
  timing 0x58 .imp 2 false,
  timing 0xb8 .imp 2 false,
  timing 0xc9 .imm 2 false, timing 0xc5 .zpg 3 false, timing 0xd5 .zpx 4 false,
  timing 0xcd .abs 4 false, timing 0xdd .abx 4 true, timing 0xd9 .aby 4 true,
  timing 0xc1 .inx 6 false, timing 0xd1 .iny 5 true,
  timing 0xe0 .imm 2 false, timing 0xe4 .zpg 3 false, timing 0xec .abs 4 false,
  timing 0xc0 .imm 2 false, timing 0xc4 .zpg 3 false, timing 0xcc .abs 4 false,
  timing 0xc6 .zpg 5 false, timing 0xd6 .zpx 6 false, timing 0xce .abs 6 false,
  timing 0xde .abx 7 false,
  timing 0xca .imp 2 false,
  timing 0x88 .imp 2 false,
  timing 0x49 .imm 2 false, timing 0x45 .zpg 3 false, timing 0x55 .zpx 4 false,
  timing 0x4d .abs 4 false, timing 0x5d .abx 4 true, timing 0x59 .aby 4 true,
  timing 0x41 .inx 6 false, timing 0x51 .iny 5 true,
  timing 0xe6 .zpg 5 false, timing 0xf6 .zpx 6 false, timing 0xee .abs 6 false,
  timing 0xfe .abx 7 false,
  timing 0xe8 .imp 2 false,
  timing 0xc8 .imp 2 false,
  timing 0x4c .abs 3 false, timing 0x6c .ind 5 false,
  timing 0x20 .abs 6 false,
  timing 0xa9 .imm 2 false, timing 0xa5 .zpg 3 false, timing 0xb5 .zpx 4 false,
  timing 0xad .abs 4 false, timing 0xbd .abx 4 true, timing 0xb9 .aby 4 true,
  timing 0xa1 .inx 6 false, timing 0xb1 .iny 5 true,
  timing 0xa2 .imm 2 false, timing 0xa6 .zpg 3 false, timing 0xb6 .zpy 4 false,
  timing 0xae .abs 4 false, timing 0xbe .aby 4 true,
  timing 0xa0 .imm 2 false, timing 0xa4 .zpg 3 false, timing 0xb4 .zpx 4 false,
  timing 0xac .abs 4 false, timing 0xbc .abx 4 true,
  timing 0x4a .acc 2 false, timing 0x46 .zpg 5 false, timing 0x56 .zpx 6 false,
  timing 0x4e .abs 6 false, timing 0x5e .abx 7 false,
  timing 0xea .imp 2 false,
  timing 0x09 .imm 2 false, timing 0x05 .zpg 3 false, timing 0x15 .zpx 4 false,
  timing 0x0d .abs 4 false, timing 0x1d .abx 4 true, timing 0x19 .aby 4 true,
  timing 0x01 .inx 6 false, timing 0x11 .iny 5 true,
  timing 0x48 .imp 3 false,
  timing 0x08 .imp 3 false,
  timing 0x68 .imp 4 false,
  timing 0x28 .imp 4 false,
  timing 0x2a .acc 2 false, timing 0x26 .zpg 5 false, timing 0x36 .zpx 6 false,
  timing 0x2e .abs 6 false, timing 0x3e .abx 7 false,
  timing 0x6a .acc 2 false, timing 0x66 .zpg 5 false, timing 0x76 .zpx 6 false,
  timing 0x6e .abs 6 false, timing 0x7e .abx 7 false,
  timing 0x40 .imp 6 false,
  timing 0x60 .imp 6 false,
  timing 0xe9 .imm 2 false, timing 0xe5 .zpg 3 false, timing 0xf5 .zpx 4 false,
  timing 0xed .abs 4 false, timing 0xfd .abx 4 true, timing 0xf9 .aby 4 true,
  timing 0xe1 .inx 6 false, timing 0xf1 .iny 5 true,
  timing 0x38 .imp 2 false,
  timing 0xf8 .imp 2 false,
  timing 0x78 .imp 2 false,
  timing 0x85 .zpg 3 false, timing 0x95 .zpx 4 false, timing 0x8d .abs 4 false,
  timing 0x9d .abx 5 false, timing 0x99 .aby 5 false, timing 0x81 .inx 6 false,
  timing 0x91 .iny 6 false,
  timing 0x86 .zpg 3 false, timing 0x96 .zpy 4 false, timing 0x8e .abs 4 false,
  timing 0x84 .zpg 3 false, timing 0x94 .zpx 4 false, timing 0x8c .abs 4 false,
  timing 0xaa .imp 2 false,
  timing 0xa8 .imp 2 false,
  timing 0xba .imp 2 false,
  timing 0x8a .imp 2 false,
  timing 0x9a .imp 2 false,
  timing 0x98 .imp 2 false]

/-- The documented page-crossing condition, on the state after the opcode fetch
(PC at the first operand byte): in AbsoluteX and AbsoluteY the base address is
the operand word, in IndirectIndexedY it is the word at the zero-page pointer
(the high byte read from the next zero-page cell, wrapping); the page is crossed
when base + index lies on another page than base. -/
def page_crossed (m : Mode) (s : Machine) : Bool :=
  match m with
  | .abx =>
    let lo := read_mem s s.pc
    let hi := read_mem lo.2 (u64 (s.pc + 1))
    decide ((hi.1 * 256 + lo.1 + s.rx) / 256 ≠ (hi.1 * 256 + lo.1) / 256)
  | .aby =>
    let lo := read_mem s s.pc
    let hi := read_mem lo.2 (u64 (s.pc + 1))
    decide ((hi.1 * 256 + lo.1 + s.ry) / 256 ≠ (hi.1 * 256 + lo.1) / 256)
  | .iny =>
    let z := read_mem s s.pc
    let lo := read_mem z.2 z.1
    let hi := read_mem lo.2 ((z.1 + 1) % 256)
    decide ((hi.1 * 256 + lo.1 + s.ry) / 256 ≠ (hi.1 * 256 + lo.1) / 256)
  | _ => false

/-- The stores and the read-modify-write instructions: those that write to the
operand address. -/
def writes_operand : Instr → Bool
  | .sta | .stx | .sty | .inc | .dec | .asl | .lsr | .rol | .ror | .isc => true
  | _ => false

/-- The summand of the `cycle_count += ...` statement of instruction `i`, for
`r_cyc = r`, `w_cyc = w` and `acc = (arg == adr_ra)`; `none` for the branches
(billed by `short_jump_if`) and for `i_isc` (which assigns the budget). -/
def billed (i : Instr) (r w : Nat) (acc : Bool) : Option Nat :=
  match i with
  | .lda | .ldx | .ldy | .and | .eor | .ora | .bit | .adc | .sbc | .cmp | .cpx | .cpy
  | .nop | .stx | .sty => some (2 + r)
  | .sta => some (2 + w)
  | .inc | .dec => some (4 + w)
  | .asl | .lsr | .rol | .ror => some (if acc then 2 else 4 + w)
  | .tax | .tay | .txa | .tya | .tsx | .txs | .inx | .dex | .iny | .dey
  | .clc | .sec | .clv | .cld | .sed | .cli | .sei => some 2
  | .pha | .php => some 3
  | .pla | .plp => some 4
  | .jmp => some (1 + r)
  | .jsr => some (4 + r)
  | .rts | .rti => some 6
  | .brk => some 7
  | .bcc | .bcs | .bpl | .bmi | .bne | .beq | .bvc | .bvs | .isc => none

/-- The value addressing mode `m` leaves in `r_cyc`, `carry` being the carry of
the index addition. -/
def mode_r_cyc (m : Mode) (carry : Bool) : Nat :=
  match m with
  | .imp | .acc | .imm | .rel => 0
  | .zpg => 1
  | .zpx | .zpy | .abs => 2
  | .abx | .aby => 2 + carry.toNat
  | .ind | .inx => 4
  | .iny => 3 + carry.toNat

/-- The value addressing mode `m` leaves in `w_cyc`, which was `w` before
(`m_ind` does not assign it). -/
def mode_w_cyc (m : Mode) (w : Nat) : Nat :=
  match m with
  | .imp | .acc | .imm | .rel => 0
  | .zpg => 1
  | .zpx | .zpy | .abs => 2
  | .abx | .aby => 3
  | .ind => w
  | .inx | .iny => 4

/-- Row `e` of the documented table against the code: the opcode decodes to the
row's addressing mode, and what the instruction bills after that mode is the
row's cost, for either value of the index carry. -/
def timing_ok (e : Nat × Mode × Nat × Bool) : Bool :=
  match decode e.1 with
  | none => false
  | some (m, i) =>
    m == e.2.1 && decide (e.2.2.1 ≤ 7) && m != Mode.rel &&
    (m != Mode.imm || !writes_operand i) &&
    [false, true].all (fun carry =>
      billed i (mode_r_cyc m carry) (mode_w_cyc m 0) (m == Mode.acc)
        == some (e.2.2.1 + (if e.2.2.2 && carry then 1 else 0))) &&
    (m != Mode.ind || i == Instr.jmp)

end machine

/-! ## Concrete scenarios -/

namespace machine

/-- A machine after `init` with the reset already served: RAM holds `prog` from
address 0 on, PC = 0, no interrupt pending. -/
def scenario (prog : List Nat) : Machine :=
  { init (start (fun _ => 0) 0x8000 (fun _ => 0)) with
    reset_flag := false, memory := fun i => prog.getD i 0 }

/-- Scenario 2 of the spec: `LDA $12FF,X` at PC with X = 1 and 0x77 at 0x1300 (the
RAM cell 0x0300 mirrored). -/
def lda_scenario : Machine :=
  { scenario [] with
    rx := 1, memory := upd (upd (upd (upd (fun _ => 0) 0 0xbd) 1 0xff) 2 0x12) 0x300 0x77 }

/-- Scenario 1 of the spec: A = 0x50, carry clear, `ADC #$50` at PC. -/
def adc_scenario : Machine := { scenario [0x69, 0x50] with ra := 0x50 }

/-- A = 0x50, carry clear, `SBC #$F0` at PC. -/
def sbc_scenario : Machine := { scenario [0xe9, 0xf0] with ra := 0x50 }

/-- A cartridge whose NMI, RESET and IRQ vectors are 0x9000, 0x8000 and 0xA000. -/
def vector_rom : Nat → Nat :=
  upd (upd (upd (upd (upd (upd (fun _ => 0) 0x7ffa 0x00) 0x7ffb 0x90) 0x7ffc 0x00) 0x7ffd 0x80)
    0x7ffe 0x00) 0x7fff 0xa0

/-- Scenario 3 of the spec: the NMI line raised, PC = 0x1234, S = 0xFF. -/
def nmi_scenario : Machine :=
  { scenario [] with nmi_flag := true, pc := 0x1234, prg_rom := vector_rom }

/-- P = 0x24 (bit 5 set, bit 4 clear), `PHP` at PC and `PLP` after it. -/
def php_plp_scenario : Machine := { scenario [0x08, 0x28] with rp := 0x24 }

/-- S = 0x00, `JSR $0010` at PC = 0 and `RTS` at 0x0010: the two pushes go to
0x0100 and, wrapping, to 0x01FF. -/
def jsr_rts_scenario : Machine :=
  { scenario [0x20, 0x10, 0x00, 0, 0, 0, 0, 0, 0, 0, 0, 0, 0, 0, 0, 0, 0x60] with sp := 0x00 }

/-- The three bytes of `JSR $0010` placed from the bus address `p` on in PRG ROM
(for `p` = 0xFFFE the third byte falls outside the ROM and the bus), `RTS` at
0x0010 in RAM, A = 0 and S = 0xFF. -/
def jsr_top_scenario (p : Nat) : Machine :=
  { scenario [] with
    pc := p,
    prg_rom := upd (upd (upd (fun _ => 0) (p - 0x8000) 0x20) (p - 0x7fff) 0x10) (p - 0x7ffe) 0x00,
    memory := upd (fun _ => 0) 0x10 0x60 }

/-- Zero flag clear, `BNE *+7` at PC = 0x00FD: the instruction after the branch
is at 0x00FF, the target at 0x0104 on the next page. -/
def branch_scenario : Machine :=
  { scenario [] with pc := 0xfd, memory := upd (upd (fun _ => 0) 0xfd 0xd0) 0xfe 0x05 }

/-- The state `machine::init()` leaves (RESET pending) with the NMI line raised
by `machine::set_nmi_flag(true)` before the first cycle. -/
def nmi_reset_scenario : Machine :=
  set_nmi_flag (init (start vector_rom 0x8000 (fun _ => 0))) true

end machine

/-! ## PPU rendering and timing (`gfx.cpp`, continued) -/

namespace misc

/-- Modelled from the spec: `misc.hpp` is not among the sources. The call
`bin_num({b0, b1, ...})`, the `assemble_from_bits` of section 4.A: the unsigned
integer with `b0` the least significant bit. -/
def bin_num : List Nat → Nat
  | [] => 0
  | b :: bs => b + 2 * bin_num bs

end misc

namespace gfx

def transparent_pixel : Nat := 0xff
def scanline_length : Nat := 341
def scanline_count : Nat := 262
def prerender_line : Nat := scanline_count - 1
def sprite_width : Nat := 8
def sprite_height : Nat := 8

def get_nmi_output_flag (g : Gfx) : Bool := get_bit g.control_reg 7 == 1

def pixel_is_opaque (pixel : Nat) : Bool := pixel != transparent_pixel

def get_palette_entry (g : Gfx) (idx : Nat) : Nat := read_mem g (u32 (0x3f00 + idx))

def get_background_pattern_table_entry (g : Gfx) (idx : Nat) : Nat :=
  if get_bit g.control_reg 4 = 1 then read_mem g (u32 (0x1000 + idx)) else read_mem g idx

def get_sprite_pattern_table_entry (g : Gfx) (idx : Nat) : Nat :=
  if get_bit g.control_reg 3 = 1 then read_mem g (u32 (0x1000 + idx)) else read_mem g idx

end gfx

namespace t_sprite

def get_y (spr : t_sprite) : Nat := spr.sy

def get_x (spr : t_sprite) : Nat := spr.sx

def get_tile_index (spr : t_sprite) : Nat := spr.tile_index

def get_priority (spr : t_sprite) : Nat := get_bit spr.attr 5

def contains (spr : t_sprite) (x y : Nat) : Bool :=
  in_range x spr.sx (u32 (spr.sx + gfx.sprite_width)) &&
  in_range y spr.sy (u32 (spr.sy + gfx.sprite_height))

/-- The method `t_sprite::get_pixel(unsigned x, unsigned y)`; it reads the PPU
globals through `get_sprite_pattern_table_entry` and `get_palette_entry`. -/
def get_pixel (spr : t_sprite) (g : Gfx) (x y : Nat) : Nat :=
  let x := if get_bit spr.attr 6 = 1 then u32 (7 + 4294967296 - x) else x
  let y := if get_bit spr.attr 7 = 1 then u32 (7 + 4294967296 - y) else y
  let pt_idx := u32 (spr.tile_index * 16 + y)
  let x := u32 (7 + 4294967296 - x)
  let b0 := get_bit (gfx.get_sprite_pattern_table_entry g pt_idx) x
  let b1 := get_bit (gfx.get_sprite_pattern_table_entry g (u32 (pt_idx + 8))) x
  let b2 := get_bit spr.attr 0
  let b3 := get_bit spr.attr 1
  if b0 = 0 ∧ b1 = 0 then gfx.transparent_pixel
  else gfx.get_palette_entry g (bin_num [b0, b1, b2, b3, 1])

end t_sprite

namespace gfx

/-- The loop of `evaluate_sprites(y)` over `sprite_list`: `n` sprites left to
visit, the next one at index `i`. A cached matrix has 64 cells. -/
def evaluate_sprites_loop (y : Nat) : Nat → Nat → Gfx → Gfx
  | 0, _, g => g
  | n + 1, i, g =>
    let spr := g.sprite_list i
    let sy := spr.get_y
    if in_range y sy (u32 (sy + sprite_height)) then
      let sd : Nat → Nat := fun k =>
        if k < sprite_height * sprite_width then
          spr.get_pixel g (k % sprite_width) (k / sprite_width)
        else 0
      let g := { g with line_sprite_list := g.line_sprite_list ++ [spr],
                        line_sprite_data_list := g.line_sprite_data_list ++ [sd] }
      if g.line_sprite_list.length ≥ 8 then g else evaluate_sprites_loop y n (i + 1) g
    else evaluate_sprites_loop y n (i + 1) g

def evaluate_sprites (g : Gfx) (y : Nat) : Gfx :=
  evaluate_sprites_loop y 64 0 { g with line_sprite_list := [], line_sprite_data_list := [] }

/-- The three-argument `background_get_pixel(unsigned x, unsigned y, unsigned n)`. -/
def background_get_pixel (g : Gfx) (x y n : Nat) : Nat :=
  let bh := x % 8
  let bv := y % 8
  let abx := x % 32
  let aby := y % 32
  let adr := [0x2000, 0x2400, 0x2800, 0x2c00].getD n 0
  let pt_idx := read_mem g (u32 (adr + ((y / 8) * 32 + x / 8)))
  let atr := read_mem g (u32 (adr + 0x03c0 + (y / 32) * 8 + x / 32))
  let pt_idx := u32 (pt_idx * 16 + bv)
  let bh := u32 (7 + 4294967296 - bh)
  let b0 := get_bit (get_background_pattern_table_entry g pt_idx) bh
  let b1 := get_bit (get_background_pattern_table_entry g (u32 (pt_idx + 8))) bh
  let abx := abx / 16
  let aby := aby / 16
  let bb := u32 ((abx + aby * 2) * 2)
  let b2 := get_bit atr bb
  let b3 := get_bit atr (u32 (bb + 1))
  if b0 = 0 ∧ b1 = 0 then transparent_pixel
  else get_palette_entry g (bin_num [b0, b1, b2, b3])

/-- The function `background_fetch_pixel()`: the pixel and the state left, with
the live scroll advanced. -/
def background_fetch_pixel (g : Gfx) : Nat × Gfx :=
  let res := background_get_pixel g g.scroll_x g.scroll_y g.scroll_nametable
  let g := { g with scroll_x := (g.scroll_x + 1) % 256 }
  let g :=
    if g.scroll_x = g.scroll_x_start then
      let g := { g with scroll_y := (g.scroll_y + 1) % 256 }
      let g :=
        if g.scroll_y = 240 then
          { g with scroll_y := 0, scroll_nametable := flip_bit g.scroll_nametable 1 }
        else g
      if g.scroll_x_start ≠ 0 then
        { g with scroll_nametable := flip_bit g.scroll_nametable 0 }
      else g
    else if g.scroll_x = 0 then
      { g with scroll_nametable := flip_bit g.scroll_nametable 0 }
    else g
  (res, g)

/-- The function `gfx::load_pattern_table`: the 0x2000 bytes `data` of the file go
to the pattern table. -/
def load_pattern_table (g : Gfx) (data : Nat → Nat) : Gfx :=
  { g with pattern_table := fun i => if i < 0x2000 then data i % 256 else g.pattern_table i }

/-- The function `gfx::set_with_delay(unsigned adr, char val)`; `cycle_counter` is
what `machine::get_cycle_counter()` returns. -/
def set_with_delay (g : Gfx) (adr val cycle_counter : Nat) : Gfx :=
  { g with set_adr := adr, set_val := val % 256,
           set_delay := u64 (3 * cycle_counter + 18446744073709551616 - 2),
           set_delay_active := true }

/-- The function `gfx::init()`, without the call of `sdl::init()`. -/
def init (g : Gfx) : Gfx :=
  { g with started := false, hor_cnt := 0, ver_cnt := 0, in_vblank := false, frame_idx := 0,
           set_delay_active := false, oam_address := 0, control_reg := 0, sprite_0_hit := false,
           scroll_x_start := 0, scroll_y_start := 0, scroll_nametable_start := 0,
           scroll_x := 0, scroll_y := 0, scroll_nametable := 0, mirroring := false }

def set_mirroring (g : Gfx) (val : Bool) : Gfx := { g with mirroring := val }

/-- What one call of `gfx::cycle()` hands to the other modules: the calls of
`sdl::begin_drawing()`, `sdl::send_pixel(pixel)` and `sdl::render()` it makes, and
whether `gen_nmi` calls `machine::set_nmi_flag()`. -/
structure Output where
  begin_drawing : Bool
  pixel : Option Nat
  render : Bool
  nmi : Bool

/-- The sprite walk of `gfx::cycle` at column `x` of line `y`, over the rest of
`line_sprite_list` and of `line_sprite_data_list`; `acc` is `spr_pixel` and
`pixel_priority` so far. -/
def sprite_walk (x y : Nat) : List t_sprite → List (Nat → Nat) → Nat × Nat → Nat × Nat
  | [], _, acc => acc
  | spr :: l, ds, acc =>
    let spr_dat := ds.headD (fun _ => 0)
    let x0 := spr.get_x
    let y0 := spr.get_y
    if in_range x x0 (u32 (x0 + sprite_width)) then
      let sx := u32 (x + 4294967296 - x0)
      let sy := u32 (y + 4294967296 - y0)
      let idx := u32 (sy * sprite_width + sx)
      let spr_pixel := spr_dat idx % 256
      let pixel_priority := spr.get_priority
      if pixel_is_opaque spr_pixel then (spr_pixel, pixel_priority)
      else sprite_walk x y l ds.tail (spr_pixel, pixel_priority)
    else sprite_walk x y l ds.tail acc

/-- The block `if (not started and frame_idx == 2)` of `gfx::cycle`. -/
def cycle_start (g : Gfx) : Gfx × Bool :=
  if !g.started && g.frame_idx == 2 then ({ g with started := true, frame_idx := 0 }, true)
  else (g, false)

/-- The branch `else if (hor_cnt < 257)` of `gfx::cycle`: one pixel. -/
def cycle_pixel (g : Gfx) : Gfx × Nat × Bool :=
  let x := u32 (g.hor_cnt + 4294967296 - 1)
  let y := g.ver_cnt
  let w := sprite_walk x y g.line_sprite_list g.line_sprite_data_list (transparent_pixel, 0)
  let spr_pixel := w.1
  let pixel_priority := w.2
  let b := background_fetch_pixel g
  let background_pixel := b.1
  let g := b.2
  let s0 := g.sprite_list 0
  let s0x := s0.get_x
  let s0y := s0.get_y
  let sprite_0_pixel :=
    if in_range x s0x (u32 (s0x + sprite_width)) && in_range y s0y (u32 (s0y + sprite_height)) then
      s0.get_pixel g (u32 (x + 4294967296 - s0x)) (u32 (y + 4294967296 - s0y))
    else transparent_pixel
  let g :=
    if pixel_is_opaque background_pixel && pixel_is_opaque sprite_0_pixel then
      { g with sprite_0_hit := true }
    else g
  let pixel := background_pixel
  let pixel := if background_pixel = transparent_pixel then spr_pixel else pixel
  let pixel := if pixel_is_opaque spr_pixel && pixel_priority == 0 then spr_pixel else pixel
  let pixel := if pixel = transparent_pixel then get_palette_entry g 0 else pixel
  (g, pixel, g.hor_cnt == 256 && g.ver_cnt == 239)

/-- The block `if (ver_cnt < 240)` of `gfx::cycle`: the state left, the pixel sent
and whether the frame is rendered. -/
def cycle_visible (g : Gfx) : Gfx × Option Nat × Bool :=
  if g.ver_cnt < 240 then
    let g := if g.ver_cnt = 0 ∧ g.hor_cnt = 0 then { g with scroll_y := g.scroll_y_start } else g
    if g.hor_cnt = 0 then (evaluate_sprites g g.ver_cnt, none, false)
    else if g.hor_cnt < 257 then
      let r := cycle_pixel g
      (r.1, some r.2.1, r.2.2)
    else (g, none, false)
  else (g, none, false)

/-- The blocks `if (ver_cnt == prerender_line)` and `if (ver_cnt == 241)` of
`gfx::cycle`, with `gen_nmi`: the state left and whether the NMI flag is raised. -/
def cycle_flags (g : Gfx) : Gfx × Bool :=
  let g := if g.ver_cnt = prerender_line ∧ g.hor_cnt = 1 then { g with sprite_0_hit := false } else g
  if g.ver_cnt = 241 ∧ g.hor_cnt = 1 then
    let g := { g with in_vblank := true }
    (g, g.in_vblank && get_nmi_output_flag g)
  else (g, false)

/-- The advance of the dot and scanline counters in `gfx::cycle`. -/
def cycle_advance (g : Gfx) : Gfx :=
  let g :=
    if g.frame_idx % 2 = 1 ∧ g.ver_cnt = 261 ∧ g.hor_cnt = 339 then
      { g with hor_cnt := u32 (g.hor_cnt + 2) }
    else { g with hor_cnt := u32 (g.hor_cnt + 1) }
  if g.hor_cnt = scanline_length then
    let g := { g with hor_cnt := 0, ver_cnt := u32 (g.ver_cnt + 1) }
    if g.ver_cnt = scanline_count then
      { g with ver_cnt := 0, frame_idx := u64 (g.frame_idx + 1), in_vblank := false }
    else g
  else g

/-- The block `if (set_delay_active)` of `gfx::cycle`. -/
def cycle_delayed_set (g : Gfx) : Gfx :=
  if g.set_delay_active then
    if g.set_delay = 0 then { set g g.set_adr g.set_val with set_delay_active := false }
    else { g with set_delay := g.set_delay - 1 }
  else g

/-- The function `gfx::cycle()`: the state left and what the tick hands out. -/
def cycle (g : Gfx) : Gfx × Output :=
  let a := cycle_start g
  let v := cycle_visible a.1
  let f := cycle_flags v.1
  let g := cycle_delayed_set (cycle_advance f.1)
  (g, { begin_drawing := a.2, pixel := v.2.1, render := v.2.2, nmi := f.2 })

end gfx

/-! ## Reachable PPU states -/

/-- The PPU states the program can be in: the zero-initialised globals after
`gfx::init()`, closed under the state-changing functions that `gfx.hpp` exports. -/
inductive gfx.Reachable : Gfx → Prop
  | start : gfx.Reachable (gfx.init gfx.start)
  | init (g : Gfx) : gfx.Reachable g → gfx.Reachable (gfx.init g)
  | load_pattern_table (g : Gfx) (data : Nat → Nat) :
      gfx.Reachable g → gfx.Reachable (gfx.load_pattern_table g data)
  | set (g : Gfx) (adr val : Nat) : gfx.Reachable g → gfx.Reachable (gfx.set g adr val)
  | set_with_delay (g : Gfx) (adr val cycle_counter : Nat) :
      gfx.Reachable g → gfx.Reachable (gfx.set_with_delay g adr val cycle_counter)
  | get (g : Gfx) (adr : Nat) : gfx.Reachable g → gfx.Reachable (gfx.get g adr).2
  | cycle (g : Gfx) : gfx.Reachable g → gfx.Reachable (gfx.cycle g).1
  | oam_write (g : Gfx) (val : Nat) : gfx.Reachable g → gfx.Reachable (gfx.oam_write g val)
  | set_mirroring (g : Gfx) (val : Bool) :
      gfx.Reachable g → gfx.Reachable (gfx.set_mirroring g val)

/-! ## Notions used to state the properties of the program counter, of decoding
and of OAM DMA -/

/-- Successive calls `gfx::oam_write(b)`, one for each byte `b` of a list, in
the order of the list. -/
def gfx.oam_writes (g : Gfx) (bytes : List Nat) : Gfx := bytes.foldl gfx.oam_write g

/-- The palette entries 0x00/0x10, 0x04/0x14, 0x08/0x18 and 0x0C/0x1C are
pairwise equal. -/
def gfx.palette_twins (g : Gfx) : Prop :=
  g.palette 0x00 = g.palette 0x10 ∧ g.palette 0x04 = g.palette 0x14 ∧
  g.palette 0x08 = g.palette 0x18 ∧ g.palette 0x0c = g.palette 0x1c

/-- The register protocol that sets the VRAM address to `a`: a STATUS read, then
the high byte and the low byte of `a` written to ADDR. -/
def gfx.set_address (g : Gfx) (a : Nat) : Gfx :=
  gfx.set (gfx.set (gfx.get g 0x2002).2 0x2006 (a / 256)) 0x2006 (a % 256)

/-- A cartridge whose CHR holds 0x55 at 0x0000 and 0x11 at 0x0001 is loaded after
`gfx::init()`; the program sets the VRAM address to 0x0001 and reads DATA once,
which leaves 0x11 in the read buffer, and then sets the VRAM address to 0x4000. -/
def data_read_scenario : Gfx :=
  let g := gfx.load_pattern_table (gfx.init gfx.start) (upd (upd (fun _ => 0) 0 0x55) 1 0x11)
  let g := gfx.set_address g 0x0001
  let g := (gfx.get g 0x2007).2
  gfx.set_address g 0x4000

namespace machine

/-- The number of operand bytes addressing mode `m` steps PC over: the `n` of its
`set_arg(adr, n)`. -/
def operand_bytes : Mode → Nat
  | .imp | .acc => 0
  | .imm | .rel | .zpg | .zpx | .zpy | .inx | .iny => 1
  | .abs | .abx | .aby | .ind => 2

/-- The instructions whose function assigns `pc`: the jumps, the returns, BRK and
the eight branches (through `short_jump_if`). -/
def assigns_pc : Instr → Bool
  | .jmp | .jsr | .rts | .rti | .brk
  | .bcc | .bcs | .bpl | .bmi | .bne | .beq | .bvc | .bvs => true
  | _ => false

/-- The 151 official 6502 opcodes: the 143 of the documented timing table and
the eight branches. -/
def official_opcodes : List Nat := documented_timing.map (fun e => e.1) ++ branch_opcodes

/-- The two undocumented opcodes the program also decodes: 0x04 (a zero-page NOP)
and 0xE7 (ISC zero page). -/
def extra_opcodes : List Nat := [0x04, 0xe7]

/-- An opcode outside the `switch` of `step`: 0x02 at PC = 0, A = 0x11, X = 0x22,
Y = 0x33, the budget at 5. -/
def bad_opcode_scenario : Machine :=
  { scenario [0x02] with ra := 0x11, rx := 0x22, ry := 0x33, cycle_count := 5 }

/-- The byte at offset `i` of the CPU page `v * 0x100`, for a page that lies in
RAM (`v < 0x20`): the RAM byte at the mirrored index. -/
def page_byte (s : Machine) (v i : Nat) : Nat := s.memory ((v * 0x100 + i) % 0x0800) % 256

/-- Scenario 6 of the spec: the RAM page 0x0200 holds the bytes 0, 1, ..., 255
(byte `i` at 0x0200 + `i`), `odd_cycle` is true, OAM_ADDR is 0, and the CPU is
about to write 0x02 to 0x4014. -/
def dma_scenario : Machine :=
  { scenario [] with
    memory := fun a => if 0x200 ≤ a ∧ a < 0x300 then a - 0x200 else 0,
    odd_cycle := true }

/-- `NOP` in the last byte of the address space: PC = 0xFFFF and 0xEA in the last
byte of a 32 KiB PRG ROM. -/
def nop_scenario : Machine :=
  { scenario [] with pc := 0xffff, prg_rom := upd (fun _ => 0) 0x7fff 0xea }

end machine

/-! ## Cartridge loading (`machine.cpp`, continued) -/

namespace misc

/-- Modelled from the spec: `misc.hpp` is not among the sources. The call
`get_bits(x, lo, n)`, the `bits(x,lo,width)` of section 4.A: the `n` bits of `x`
from bit `lo` upwards, as a number. -/
def get_bits (x lo n : Nat) : Nat := x / 2 ^ lo % 2 ^ n

/-- Modelled from the spec: `misc.hpp` is not among the sources. The call
`set_bits(x, lo, n, v)`: `x` with its `n` bits from bit `lo` upwards replaced by
the low `n` bits of `v` (the second flags byte gives "mapper high nibble"). -/
def set_bits (x lo n v : Nat) : Nat :=
  x - get_bits x lo n * 2 ^ lo + (v % 2 ^ n) * 2 ^ lo

end misc

namespace machine

/-- Modelled from the spec: `machine.hpp` is not among the sources. The two
return codes `success` and `failure` of `machine::load_program`; section 7 has
one "invalid cartridge" status for every rejection. -/
inductive Status where
  | success
  | failure
  deriving DecidableEq, Repr

/-- The local `mapper` of `machine::load_program` as the two assignments to it
leave it: the high nibble of header byte 6, then bits 4 to 7 replaced by the high
nibble of header byte 7. No statement of the function reads it. -/
def load_program_mapper (is : Nat → Nat) : Nat :=
  set_bits (get_bits (is 6 % 256) 4 4 % 256) 4 4 (get_bits (is 7 % 256) 4 4) % 256

/-- The function `machine::load_program(file)`. The file is `none` when the stream
is not good once opened, and else its bytes by offset; the file is taken to hold
every byte that is read. The vector `prg_rom` reads 0 past its size. -/
def load_program (s : Machine) (file : Option (Nat → Nat)) : Status × Machine :=
  match file with
  | none => (Status.failure, s)
  | some is =>
    let buf := [is 0 % 256, is 1 % 256, is 2 % 256, is 3 % 256]
    if buf ≠ [0x4e, 0x45, 0x53, 0x1a] then (Status.failure, s)
    else
      let prg_sz := is 4 % 256
      let chr_sz := is 5 % 256
      let flags := is 6 % 256
      if get_bit flags 1 = 1 ∨ get_bit flags 2 = 1 ∨ get_bit flags 3 = 1 then (Status.failure, s)
      else
        let s := { s with gfx := gfx.set_mirroring s.gfx (get_bit flags 0 == 1) }
        let flags := is 7 % 256
        if get_bit flags 0 = 1 ∨ get_bit flags 1 = 1 then (Status.failure, s)
        else if ¬ ((prg_sz = 1 ∨ prg_sz = 2) ∧ (chr_sz = 0 ∨ chr_sz = 1)) then (Status.failure, s)
        else
          let size := u32 (prg_sz * 0x4000)
          let s := { s with prg_rom := fun i => if i < size then is (16 + i) % 256 else 0,
                            prg_size := size }
          if chr_sz = 1 then
            (Status.success,
             { s with gfx := gfx.load_pattern_table s.gfx (fun i => is (16 + size + i)) })
          else (Status.success, s)

end machine

/-! ## Notions used to state the properties of PPU timing -/

namespace gfx

/-- The state after `n` successive calls of `gfx::cycle()`. -/
def ticks : Nat → Gfx → Gfx
  | 0, g => g
  | n + 1, g => ticks n (cycle g).1

/-- The number of dots between dot 0 of scanline 0 and the position of `g`. -/
def dots (g : Gfx) : Nat := g.ver_cnt * scanline_length + g.hor_cnt

/-- A cartridge whose CHR has bit 7 of byte 0 set is loaded after `gfx::init()`:
with OAM and the nametables still zero, the background and sprite 0 are both
opaque at the first pixel of the frame. -/
def hit_scenario : Gfx := load_pattern_table (init start) (upd (fun _ => 0) 0 0x80)

/-- The PPU at scanline 241, dot 1 with bit 7 of CTRL set. -/
def vblank_scenario : Gfx := { init start with ver_cnt := 241, hor_cnt := 1, control_reg := 0x80 }

/-- The program writes the byte 0xC0 to palette cell 0 through the registers (VRAM
address 0x3F00, then DATA) after `gfx::init()`, and the PPU runs one tick, which
brings it to dot 1 of scanline 0. -/
def palette_scenario : Gfx := (cycle (set (set_address (init start) 0x3f00) 0x2007 0xc0)).1

/-- Every byte of palette RAM is below 64. -/
def palette_six_bit (g : Gfx) : Prop := ∀ i, g.palette i < 64

/-- Every cell of every cached sprite matrix is the transparent marker or below 64. -/
def cache_six_bit (g : Gfx) : Prop :=
  ∀ sd ∈ g.line_sprite_data_list, ∀ k, sd k % 256 = transparent_pixel ∨ sd k % 256 < 64

/-- The PPU after `gfx::init()` and one tick: at dot 1 of scanline 0, with the
shortlist of scanline 0 built. -/
def first_pixel_scenario : Gfx := (cycle (init start)).1

/-- The 64 sprites of OAM, in OAM order. -/
def oam (g : Gfx) : List t_sprite := (List.range 64).map g.sprite_list

/-- The Y range `[sy, sy + 8)` of the sprite contains the scanline `y`. -/
def covers (y : Nat) (spr : t_sprite) : Bool := decide (spr.sy ≤ y ∧ y < spr.sy + 8)

/-- The program writes the four bytes 0x20, 0, 0, 0 to OAM after `gfx::init()`:
sprite 0 goes to Y = 0x21 and the other 63 sprites stay at Y = 0. -/
def shortlist_scenario : Gfx := oam_writes (init start) [0x20, 0, 0, 0]

end gfx

/-! ## Notions used to state the properties of cartridge loading -/

namespace machine

/-- A cartridge image from its 16 header bytes; every byte after the header is 0. -/
def image (header : List Nat) : Nat → Nat := fun i => header.getD i 0

/-- An image with the magic, one PRG bank, no CHR, 0x10 in byte 6 (mapper low
nibble 1) and a zero byte 7. -/
def mapper_image : Nat → Nat :=
  image [0x4e, 0x45, 0x53, 0x1a, 1, 0, 0x10, 0, 0, 0, 0, 0, 0, 0, 0, 0]

/-- An image with the magic, one PRG bank, no CHR, 0x01 in byte 6 (vertical
mirroring) and 0x01 in byte 7 (a bit that must be 0). -/
def rejected_image : Nat → Nat :=
  image [0x4e, 0x45, 0x53, 0x1a, 1, 0, 0x01, 0x01, 0, 0, 0, 0, 0, 0, 0, 0]

/-- The header of the image is accepted by every test that `load_program` makes:
the magic, bits 1 to 3 of byte 6 clear, bits 0 and 1 of byte 7 clear, a PRG size
of 1 or 2 and a CHR size of 0 or 1. -/
def header_ok (is : Nat → Nat) : Prop :=
  [is 0 % 256, is 1 % 256, is 2 % 256, is 3 % 256] = [0x4e, 0x45, 0x53, 0x1a] ∧
  (get_bit (is 6 % 256) 1 = 0 ∧ get_bit (is 6 % 256) 2 = 0 ∧ get_bit (is 6 % 256) 3 = 0) ∧
  (get_bit (is 7 % 256) 0 = 0 ∧ get_bit (is 7 % 256) 1 = 0) ∧
  (is 4 % 256 = 1 ∨ is 4 % 256 = 2) ∧ (is 5 % 256 = 0 ∨ is 5 % 256 = 1)

/-- The globals at program start with no cartridge loaded yet: an empty `prg_rom`
vector, and the mirroring flag clear. -/
def unloaded : Machine := start (fun _ => 0) 0 (fun _ => 0)

end machine

/-! ## Notions used to state the properties of the sprite walk and of compositing -/

namespace gfx

/-- The cell of the cached matrix `dat` of the shortlisted sprite `spr` that the
walk of `gfx::cycle` reads at column `x` of line `y`. -/
def cached_pixel (x y : Nat) (spr : t_sprite) (dat : Nat → Nat) : Nat :=
  dat (u32 (u32 (y + 4294967296 - spr.get_y) * sprite_width + u32 (x + 4294967296 - spr.get_x)))
    % 256

/-- The cached pixel and the priority bit of every shortlisted sprite whose X
range `[sx, sx + 8)` contains the column `x`, in list order; the k-th sprite of
the shortlist goes with the k-th cached matrix. -/
def covering (x y : Nat) (l : List t_sprite) (ds : List (Nat → Nat)) : List (Nat × Nat) :=
  ((l.zip ds).filter (fun e => in_range x e.1.get_x (u32 (e.1.get_x + sprite_width)))).map
    (fun e => (cached_pixel x y e.1 e.2, e.1.get_priority))

/-- A cartridge whose CHR tile 1 has its first pixel opaque is loaded after
`gfx::init()`; the program writes 0x2A to palette cell 0x11 and gives sprite 1
(OAM bytes 5 to 7) tile 1, attributes 0x20 (priority bit set) and X = 0; sprite 0
keeps tile 0, whose pixels are transparent. The PPU then runs one tick, which
builds the shortlist of scanline 0 and brings it to dot 1. -/
def walk_scenario : Gfx :=
  let g := load_pattern_table (init start) (upd (fun _ => 0) 16 0x80)
  let g := set (set_address g 0x3f11) 0x2007 0x2a
  let g := set g 0x2003 5
  let g := set (set (set g 0x2004 1) 0x2004 0x20) 0x2004 0
  (cycle g).1

end gfx

namespace gfx

/-- The program reads STATUS and writes 0x10 to SCROLL after `gfx::init()`, which
sets the X scroll and its frame-start value to 0x10; the PPU then runs one tick,
which brings it to dot 1 of scanline 0. -/
def scroll_scenario : Gfx := (cycle (set (get (init start) 0x2002).2 0x2005 0x10)).1

end gfx

/-! ## Notions used to state the properties of the zero-page pointer and of the
cycle budget -/

namespace machine

/-- The RAM for the two pointer scenarios: 0x00 at 0x00FF, 0x02 at 0x0000, 0x03 at
0x0100, 0xAA at 0x0200, 0xBB at 0x0300, and a two-byte instruction with operand
0xFF and opcode `op` at 0x0010. -/
def pointer_ram (op : Nat) : Nat → Nat :=
  upd (upd (upd (upd (upd (upd (upd (fun _ => 0) 0x10 op) 0x11 0xff) 0xff 0x00) 0x00 0x02)
    0x100 0x03) 0x200 0xaa) 0x300 0xbb

/-- The instruction `LDA ($FF,X)` at PC = 0x0010 with X = 0, on `pointer_ram`. -/
def inx_scenario : Machine := { scenario [] with pc := 0x10, memory := pointer_ram 0xa1 }

/-- The instruction `LDA ($FF),Y` at PC = 0x0010 with Y = 0, on `pointer_ram`. -/
def iny_scenario : Machine := { scenario [] with pc := 0x10, memory := pointer_ram 0xb1 }

/-- The instruction `ISC $10` (opcode 0xE7, zero page) at PC = 0, with a zero
cycle budget and no interrupt pending. -/
def isc_scenario : Machine := scenario [0xe7, 0x10]

end machine

/-! ## Bit lemmas -/

namespace misc

theorem get_bit_lt_two (x n : Nat) : get_bit x n < 2 := by
  unfold get_bit; omega

set_option maxHeartbeats 4000000 in
/-- Within a byte, `set_bit` changes the bit it names and no other. -/
theorem get_bit_set_bit (x n m : Nat) (v : Bool) (hn : n < 8) (hm : m < 8) :
    get_bit (set_bit x n v) m = if m = n then v.toNat else get_bit x m := by
  interval_cases n <;> interval_cases m <;> cases v <;>
    simp only [get_bit, set_bit, Nat.reducePow, Bool.toNat_true, Bool.toNat_false, if_true,
      if_false, Nat.reduceEqDiff, Bool.false_eq_true] <;> omega

theorem set_bit_lt (x n : Nat) (v : Bool) (hx : x < 256) (hn : n < 8) : set_bit x n v < 256 := by
  interval_cases n <;> cases v <;>
    simp only [get_bit, set_bit, Nat.reducePow, if_true, if_false, Bool.false_eq_true] <;> omega

end misc

/-! ## Array stores -/

theorem upd_same {α : Type} (f : Nat → α) (i : Nat) (v : α) : upd f i v i = v := by
  unfold upd; rw [if_pos rfl]

theorem upd_ne {α : Type} (f : Nat → α) (i j : Nat) (v : α) (h : j ≠ i) : upd f i v j = f j := by
  unfold upd; rw [if_neg h]

/-! ## Frame lemmas for the CPU bus -/

namespace machine

/-- A CPU-side read leaves everything but the PPU and the controller port as it was. -/
theorem read_mem_snd (s : Machine) (a : Nat) :
    (read_mem s a).2 = { s with gfx := (read_mem s a).2.gfx, input := (read_mem s a).2.input } := by
  unfold read_mem
  by_cases h1 : a < 0x2000
  · rw [if_pos h1]
  rw [if_neg h1]
  by_cases h2 : a < 0x4000
  · rw [if_pos h2]
  rw [if_neg h2]
  by_cases h3 : a = 0x4016
  · rw [if_pos h3]
  rw [if_neg h3]
  by_cases h4 : a < 0x8000
  · rw [if_pos h4]
  rw [if_neg h4]
  by_cases h5 : a < 0x10000
  · rw [if_pos h5]
  rw [if_neg h5]
  by_cases h6 : a = adr_ra
  · rw [if_pos h6]
  rw [if_neg h6]
  by_cases h7 : a = adr_rx
  · rw [if_pos h7]
  rw [if_neg h7]
  by_cases h8 : a = adr_ry
  · rw [if_pos h8]
  rw [if_neg h8]
  by_cases h9 : a = adr_rp
  · rw [if_pos h9]
  rw [if_neg h9]
  by_cases h10 : a = adr_sp
  · rw [if_pos h10]
  rw [if_neg h10]

@[simp] theorem read_mem_reset_flag (s : Machine) (a : Nat) : (read_mem s a).2.reset_flag = s.reset_flag := by
  rw [read_mem_snd]

@[simp] theorem read_mem_nmi_flag (s : Machine) (a : Nat) : (read_mem s a).2.nmi_flag = s.nmi_flag := by
  rw [read_mem_snd]

@[simp] theorem read_mem_irq_flag (s : Machine) (a : Nat) : (read_mem s a).2.irq_flag = s.irq_flag := by
  rw [read_mem_snd]

@[simp] theorem read_mem_ready (s : Machine) (a : Nat) : (read_mem s a).2.ready = s.ready := by
  rw [read_mem_snd]

@[simp] theorem read_mem_memory (s : Machine) (a : Nat) : (read_mem s a).2.memory = s.memory := by
  rw [read_mem_snd]

@[simp] theorem read_mem_prg_rom (s : Machine) (a : Nat) : (read_mem s a).2.prg_rom = s.prg_rom := by
  rw [read_mem_snd]

@[simp] theorem read_mem_prg_size (s : Machine) (a : Nat) : (read_mem s a).2.prg_size = s.prg_size := by
  rw [read_mem_snd]

@[simp] theorem read_mem_arg (s : Machine) (a : Nat) : (read_mem s a).2.arg = s.arg := by
  rw [read_mem_snd]

@[simp] theorem read_mem_r_cyc (s : Machine) (a : Nat) : (read_mem s a).2.r_cyc = s.r_cyc := by
  rw [read_mem_snd]

@[simp] theorem read_mem_w_cyc (s : Machine) (a : Nat) : (read_mem s a).2.w_cyc = s.w_cyc := by
  rw [read_mem_snd]

@[simp] theorem read_mem_step_count (s : Machine) (a : Nat) : (read_mem s a).2.step_count = s.step_count := by
  rw [read_mem_snd]

@[simp] theorem read_mem_cycle_count (s : Machine) (a : Nat) : (read_mem s a).2.cycle_count = s.cycle_count := by
  rw [read_mem_snd]

@[simp] theorem read_mem_odd_cycle (s : Machine) (a : Nat) : (read_mem s a).2.odd_cycle = s.odd_cycle := by
  rw [read_mem_snd]

@[simp] theorem read_mem_cur_opcode (s : Machine) (a : Nat) : (read_mem s a).2.cur_opcode = s.cur_opcode := by
  rw [read_mem_snd]

@[simp] theorem read_mem_pc (s : Machine) (a : Nat) : (read_mem s a).2.pc = s.pc := by
  rw [read_mem_snd]

@[simp] theorem read_mem_sp (s : Machine) (a : Nat) : (read_mem s a).2.sp = s.sp := by
  rw [read_mem_snd]

@[simp] theorem read_mem_ra (s : Machine) (a : Nat) : (read_mem s a).2.ra = s.ra := by
  rw [read_mem_snd]

@[simp] theorem read_mem_rx (s : Machine) (a : Nat) : (read_mem s a).2.rx = s.rx := by
  rw [read_mem_snd]

@[simp] theorem read_mem_ry (s : Machine) (a : Nat) : (read_mem s a).2.ry = s.ry := by
  rw [read_mem_snd]

@[simp] theorem read_mem_rp (s : Machine) (a : Nat) : (read_mem s a).2.rp = s.rp := by
  rw [read_mem_snd]

/-- A read of RAM returns the byte of the mirrored cell and changes nothing. -/
theorem read_mem_ram (s : Machine) (a : Nat) (h : a < 0x2000) :
    read_mem s a = (s.memory (a % 0x0800) % 256, s) := by
  unfold read_mem
  rw [if_pos h]

/-- A read of PRG ROM returns the byte of the (mirrored) ROM cell and changes nothing. -/
theorem read_mem_rom (s : Machine) (a : Nat) (h1 : 0x8000 ≤ a) (h2 : a < 0x10000) :
    read_mem s a
      = (s.prg_rom (if s.prg_size = 0x4000 then (a - 0x8000) % 0x4000 else a - 0x8000) % 256, s) := by
  unfold read_mem
  rw [if_neg (by omega), if_neg (by omega), if_neg (by omega), if_neg (by omega), if_pos h2]

/-- A byte read from a bus address (not a register pseudo-address) is a byte. -/
theorem read_mem_fst_lt (s : Machine) (a : Nat) (h : a < 0x10000) : (read_mem s a).1 < 256 := by
  unfold read_mem
  by_cases h1 : a < 0x2000
  · rw [if_pos h1]; exact Nat.mod_lt _ (by decide)
  rw [if_neg h1]
  by_cases h2 : a < 0x4000
  · rw [if_pos h2]; exact Nat.mod_lt _ (by decide)
  rw [if_neg h2]
  by_cases h3 : a = 0x4016
  · rw [if_pos h3]; exact Nat.mod_lt _ (by decide)
  rw [if_neg h3]
  by_cases h4 : a < 0x8000
  · rw [if_pos h4]; exact (by decide : (0 : Nat) < 256)
  rw [if_neg h4, if_pos h]; exact Nat.mod_lt _ (by decide)

/-- A byte read from anywhere is a byte when the registers hold bytes. -/
theorem read_mem_fst_lt_of_wf (s : Machine) (a : Nat) (h : regs_wf s) : (read_mem s a).1 < 256 := by
  by_cases h5 : a < 0x10000
  · exact read_mem_fst_lt s a h5
  obtain ⟨ha, hx, hy, hp, hs⟩ := h
  unfold read_mem
  rw [if_neg (by omega), if_neg (by omega), if_neg (by omega), if_neg (by omega), if_neg h5]
  by_cases h6 : a = adr_ra
  · rw [if_pos h6]; exact ha
  rw [if_neg h6]
  by_cases h7 : a = adr_rx
  · rw [if_pos h7]; exact hx
  rw [if_neg h7]
  by_cases h8 : a = adr_ry
  · rw [if_pos h8]; exact hy
  rw [if_neg h8]
  by_cases h9 : a = adr_rp
  · rw [if_pos h9]; exact hp
  rw [if_neg h9]
  by_cases h10 : a = adr_sp
  · rw [if_pos h10]; exact hs
  rw [if_neg h10]; exact (by decide : (0 : Nat) < 256)

/-- The byte a read returns and what it does to the PPU and the controller port
depend on the RAM, the ROM, the registers, the PPU and the port only. -/
theorem read_mem_congr (s t : Machine) (a : Nat)
    (hm : t.memory = s.memory) (hg : t.gfx = s.gfx) (hi : t.input = s.input)
    (hr : t.prg_rom = s.prg_rom) (hz : t.prg_size = s.prg_size)
    (h1 : t.ra = s.ra) (h2 : t.rx = s.rx) (h3 : t.ry = s.ry) (h4 : t.rp = s.rp)
    (h5 : t.sp = s.sp) :
    (read_mem t a).1 = (read_mem s a).1 ∧ (read_mem t a).2.gfx = (read_mem s a).2.gfx ∧
    (read_mem t a).2.input = (read_mem s a).2.input := by
  unfold read_mem
  rw [hm, hg, hi, hr, hz, h1, h2, h3, h4, h5]
  by_cases c1 : a < 0x2000
  · rw [if_pos c1, if_pos c1]; exact ⟨rfl, hg, hi⟩
  rw [if_neg c1, if_neg c1]
  by_cases c2 : a < 0x4000
  · rw [if_pos c2, if_pos c2]; exact ⟨rfl, rfl, rfl⟩
  rw [if_neg c2, if_neg c2]
  by_cases c3 : a = 0x4016
  · rw [if_pos c3, if_pos c3]; exact ⟨rfl, rfl, rfl⟩
  rw [if_neg c3, if_neg c3]
  by_cases c4 : a < 0x8000
  · rw [if_pos c4, if_pos c4]; exact ⟨rfl, hg, hi⟩
  rw [if_neg c4, if_neg c4]
  by_cases c5 : a < 0x10000
  · rw [if_pos c5, if_pos c5]; exact ⟨rfl, hg, hi⟩
  rw [if_neg c5, if_neg c5]
  by_cases c6 : a = adr_ra
  · rw [if_pos c6, if_pos c6]; exact ⟨rfl, hg, hi⟩
  rw [if_neg c6, if_neg c6]
  by_cases c7 : a = adr_rx
  · rw [if_pos c7, if_pos c7]; exact ⟨rfl, hg, hi⟩
  rw [if_neg c7, if_neg c7]
  by_cases c8 : a = adr_ry
  · rw [if_pos c8, if_pos c8]; exact ⟨rfl, hg, hi⟩
  rw [if_neg c8, if_neg c8]
  by_cases c9 : a = adr_rp
  · rw [if_pos c9, if_pos c9]; exact ⟨rfl, hg, hi⟩
  rw [if_neg c9, if_neg c9]
  by_cases c10 : a = adr_sp
  · rw [if_pos c10, if_pos c10]; exact ⟨rfl, hg, hi⟩
  rw [if_neg c10, if_neg c10]; exact ⟨rfl, hg, hi⟩
/-- A write to RAM stores the byte in the mirrored cell and changes nothing else. -/
theorem write_mem_ram (s : Machine) (a v : Nat) (h : a < 0x2000) :
    write_mem s a v = { s with memory := upd s.memory (a % 0x0800) (v % 256) } := by
  unfold write_mem
  rw [if_pos h]

theorem write_mem_adr_ra (s : Machine) (v : Nat) :
    write_mem s adr_ra v = { s with ra := v % 256 } := by
  rfl

theorem write_mem_adr_rx (s : Machine) (v : Nat) :
    write_mem s adr_rx v = { s with rx := v % 256 } := by
  rfl

theorem write_mem_adr_ry (s : Machine) (v : Nat) :
    write_mem s adr_ry v = { s with ry := v % 256 } := by
  rfl

/-- A write anywhere but to the DMA trigger 0x4014 leaves the cycle budget, the
decode variables and the flags of the interrupt lines as they were. -/
theorem write_mem_eq (s : Machine) (a v : Nat) (h : a ≠ 0x4014) :
    write_mem s a v = { s with memory := (write_mem s a v).memory, gfx := (write_mem s a v).gfx,
                               input := (write_mem s a v).input, ra := (write_mem s a v).ra,
                               rx := (write_mem s a v).rx, ry := (write_mem s a v).ry,
                               rp := (write_mem s a v).rp, sp := (write_mem s a v).sp } := by
  unfold write_mem
  by_cases h1 : a < 0x2000
  · rw [if_pos h1]
  rw [if_neg h1]
  by_cases h2 : a < 0x4000
  · rw [if_pos h2]
  rw [if_neg h2, if_neg h]
  by_cases h3 : a = 0x4016
  · rw [if_pos h3]
  rw [if_neg h3]
  by_cases h4 : a < 0x8000
  · rw [if_pos h4]
  rw [if_neg h4]
  by_cases h5 : a < 0x10000
  · rw [if_pos h5]
  rw [if_neg h5]
  by_cases h6 : a = adr_ra
  · rw [if_pos h6]
  rw [if_neg h6]
  by_cases h7 : a = adr_rx
  · rw [if_pos h7]
  rw [if_neg h7]
  by_cases h8 : a = adr_ry
  · rw [if_pos h8]
  rw [if_neg h8]
  by_cases h9 : a = adr_rp
  · rw [if_pos h9]
  rw [if_neg h9]
  by_cases h10 : a = adr_sp
  · rw [if_pos h10]
  rw [if_neg h10]

theorem write_mem_reset_flag (s : Machine) (a v : Nat) (h : a ≠ 0x4014) :
    (write_mem s a v).reset_flag = s.reset_flag := by
  rw [write_mem_eq s a v h]

theorem write_mem_nmi_flag (s : Machine) (a v : Nat) (h : a ≠ 0x4014) :
    (write_mem s a v).nmi_flag = s.nmi_flag := by
  rw [write_mem_eq s a v h]

theorem write_mem_irq_flag (s : Machine) (a v : Nat) (h : a ≠ 0x4014) :
    (write_mem s a v).irq_flag = s.irq_flag := by
  rw [write_mem_eq s a v h]

theorem write_mem_ready (s : Machine) (a v : Nat) (h : a ≠ 0x4014) :
    (write_mem s a v).ready = s.ready := by
  rw [write_mem_eq s a v h]

theorem write_mem_prg_rom (s : Machine) (a v : Nat) (h : a ≠ 0x4014) :
    (write_mem s a v).prg_rom = s.prg_rom := by
  rw [write_mem_eq s a v h]

theorem write_mem_prg_size (s : Machine) (a v : Nat) (h : a ≠ 0x4014) :
    (write_mem s a v).prg_size = s.prg_size := by
  rw [write_mem_eq s a v h]

theorem write_mem_arg (s : Machine) (a v : Nat) (h : a ≠ 0x4014) :
    (write_mem s a v).arg = s.arg := by
  rw [write_mem_eq s a v h]

theorem write_mem_r_cyc (s : Machine) (a v : Nat) (h : a ≠ 0x4014) :
    (write_mem s a v).r_cyc = s.r_cyc := by
  rw [write_mem_eq s a v h]

theorem write_mem_w_cyc (s : Machine) (a v : Nat) (h : a ≠ 0x4014) :
    (write_mem s a v).w_cyc = s.w_cyc := by
  rw [write_mem_eq s a v h]

theorem write_mem_step_count (s : Machine) (a v : Nat) (h : a ≠ 0x4014) :
    (write_mem s a v).step_count = s.step_count := by
  rw [write_mem_eq s a v h]

theorem write_mem_cycle_count (s : Machine) (a v : Nat) (h : a ≠ 0x4014) :
    (write_mem s a v).cycle_count = s.cycle_count := by
  rw [write_mem_eq s a v h]

theorem write_mem_odd_cycle (s : Machine) (a v : Nat) (h : a ≠ 0x4014) :
    (write_mem s a v).odd_cycle = s.odd_cycle := by
  rw [write_mem_eq s a v h]

theorem write_mem_cur_opcode (s : Machine) (a v : Nat) (h : a ≠ 0x4014) :
    (write_mem s a v).cur_opcode = s.cur_opcode := by
  rw [write_mem_eq s a v h]

theorem write_mem_pc (s : Machine) (a v : Nat) (h : a ≠ 0x4014) :
    (write_mem s a v).pc = s.pc := by
  rw [write_mem_eq s a v h]

/-! From here on the two bus functions are used through the lemmas above only. -/

section general

seal read_mem write_mem

/-! ## ADC and SBC -/

theorem i_adc_ra (s : Machine) :
    (i_adc s).ra = u32 (s.ra + u32 ((read_mem s s.arg).1 + (get_carry_flag s).toNat)) % 256 := by
  unfold i_adc
  simp only [set_with_flags, write_mem_adr_ra, add_cycles, set_carry_flag, set_overflow_flag,
    set_zero_flag, set_negative_flag, get_carry_flag, read_mem_ra, read_mem_rp, apply_ite Machine.ra,
    ite_self, Nat.mod_mod]

theorem i_adc_rp (s : Machine) :
    (i_adc s).rp =
      set_bit (set_bit (set_bit (set_bit s.rp 1 ((i_adc s).ra == 0)) 7 (get_bit (i_adc s).ra 7 == 1)) 6
        (adc_overflow s.ra (read_mem s s.arg).1 (get_carry_flag s))) 0
        (decide (u32 (s.ra + u32 ((read_mem s s.arg).1 + (get_carry_flag s).toNat)) ≥ 0x100)) := by
  rw [i_adc_ra]
  unfold i_adc adc_overflow
  simp only [set_with_flags, write_mem_adr_ra, add_cycles, set_carry_flag, set_overflow_flag,
    set_zero_flag, set_negative_flag, get_carry_flag, read_mem_ra, read_mem_rp, apply_ite Machine.rp,
    apply_ite (set_bit _ 6), Nat.mod_mod]


theorem adc_arith (A M : Nat) (C : Bool) (hA8 : A < 256) (hM8 : M < 256) :
    adc_overflow A M C
      = decide (signed8 A + signed8 M + (C.toNat : Int) < -128
                ∨ 127 < signed8 A + signed8 M + (C.toNat : Int)) := by
  unfold adc_overflow signed8 u32 get_bit
  rw [Bool.eq_iff_iff]
  cases C <;> simp only [Bool.toNat_true, Bool.toNat_false, Nat.reducePow, Bool.false_eq_true,
    false_and, true_and, if_false, Nat.add_zero, decide_eq_true_eq, Bool.and_eq_true, beq_iff_eq,
    bne_iff_ne, ne_eq, Nat.cast_zero, Nat.cast_one, add_zero]
  · split_ifs <;> omega
  · split_ifs <;> simp only [beq_iff_eq, Bool.and_eq_true, bne_iff_ne, ne_eq] <;> omega

theorem toNat_beq_one (b : Bool) : (b.toNat == 1) = b := by cases b <;> rfl

/-- C2: for every accumulator value A, operand byte M and carry-in C (and every value
of the Decimal flag), ADC leaves A' = (A + M + C) mod 256, Carry = (A + M + C >= 256),
Overflow = (the sum of A and M read as signed 8-bit values, plus C, lies outside
[-128, 127]), Zero = (A' = 0) and Negative = bit 7 of A'. -/
theorem adc_spec (s : Machine) (A M : Nat) (C : Bool)
    (hA : s.ra = A) (hA8 : A < 256)
    (hM : (read_mem s s.arg).1 = M) (hM8 : M < 256)
    (hC : get_carry_flag s = C) :
    (i_adc s).ra = (A + M + C.toNat) % 256 ∧
    get_carry_flag (i_adc s) = decide (A + M + C.toNat ≥ 256) ∧
    get_overflow_flag (i_adc s)
      = decide (signed8 A + signed8 M + (C.toNat : Int) < -128
                ∨ 127 < signed8 A + signed8 M + (C.toNat : Int)) ∧
    get_zero_flag (i_adc s) = decide ((i_adc s).ra = 0) ∧
    get_negative_flag (i_adc s) = decide (get_bit (i_adc s).ra 7 = 1) := by
  have hra := i_adc_ra s
  have hrp := i_adc_rp s
  rw [hA, hM, hC] at hra hrp
  have hC2 : C.toNat < 2 := by cases C <;> decide
  refine ⟨?_, ?_, ?_, ?_, ?_⟩
  · rw [hra]; unfold u32; omega
  · unfold get_carry_flag
    rw [hrp, get_bit_set_bit _ _ _ _ (by decide) (by decide), if_pos rfl, toNat_beq_one]
    unfold u32
    congr 1
    apply propext
    constructor <;> intro h <;> omega
  · unfold get_overflow_flag
    rw [hrp, get_bit_set_bit _ _ _ _ (by decide) (by decide),
      if_neg (by decide), get_bit_set_bit _ _ _ _ (by decide) (by decide), if_pos rfl,
      ← adc_arith A M C hA8 hM8, toNat_beq_one]
  · unfold get_zero_flag
    rw [hrp, get_bit_set_bit _ _ _ _ (by decide) (by decide),
      if_neg (by decide), get_bit_set_bit _ _ _ _ (by decide) (by decide), if_neg (by decide),
      get_bit_set_bit _ _ _ _ (by decide) (by decide), if_neg (by decide),
      get_bit_set_bit _ _ _ _ (by decide) (by decide), if_pos rfl, toNat_beq_one]
    rw [Bool.eq_iff_iff]; simp
  · unfold get_negative_flag
    rw [hrp, get_bit_set_bit _ _ _ _ (by decide) (by decide),
      if_neg (by decide), get_bit_set_bit _ _ _ _ (by decide) (by decide), if_neg (by decide),
      get_bit_set_bit _ _ _ _ (by decide) (by decide), if_pos rfl, toNat_beq_one]
    rw [Bool.eq_iff_iff]; simp

theorem i_sbc_ra (s : Machine) :
    (i_sbc s).ra
      = u32 (s.ra + 4294967296 - u32 ((read_mem s s.arg).1 + (!get_carry_flag s).toNat)) % 256 := by
  unfold i_sbc
  simp only [set_with_flags, write_mem_adr_ra, add_cycles, set_carry_flag, set_overflow_flag,
    set_zero_flag, set_negative_flag, get_carry_flag, read_mem_ra, read_mem_rp, apply_ite Machine.ra,
    ite_self, Nat.mod_mod]

theorem i_sbc_rp (s : Machine) :
    (i_sbc s).rp =
      set_bit (set_bit (set_bit (set_bit s.rp 1 ((i_sbc s).ra == 0)) 7 (get_bit (i_sbc s).ra 7 == 1)) 6
        (sbc_overflow s.ra (read_mem s s.arg).1 (get_carry_flag s))) 0
        (decide (u32 (s.ra + 4294967296
                  - u32 ((read_mem s s.arg).1 + (!get_carry_flag s).toNat)) < 0x100)) := by
  rw [i_sbc_ra]
  unfold i_sbc sbc_overflow
  simp only [set_with_flags, write_mem_adr_ra, add_cycles, set_carry_flag, set_overflow_flag,
    set_zero_flag, set_negative_flag, get_carry_flag, read_mem_ra, read_mem_rp, apply_ite Machine.rp,
    apply_ite (set_bit _ 6), Nat.mod_mod]

theorem sbc_arith (A M : Nat) (C : Bool) (hA8 : A < 256) (hM8 : M < 256) :
    sbc_overflow A M C
      = decide (signed8 A - signed8 M - (1 - (C.toNat : Int)) < -128
                ∨ 127 < signed8 A - signed8 M - (1 - (C.toNat : Int))) := by
  unfold sbc_overflow signed8 u32 get_bit
  rw [Bool.eq_iff_iff]
  cases C <;> simp only [Bool.toNat_true, Bool.toNat_false, Nat.reducePow, Bool.false_eq_true,
    false_and, true_and, if_false, Nat.add_zero, decide_eq_true_eq, Bool.and_eq_true, beq_iff_eq,
    bne_iff_ne, ne_eq, Nat.cast_zero, Nat.cast_one, add_zero, Bool.not_true, Bool.not_false]
  · split_ifs <;>
      first | omega | (simp only [beq_iff_eq, Bool.and_eq_true, bne_iff_ne, ne_eq]; omega)
  · split_ifs <;> omega

/-- C3: for every accumulator value A, operand byte M and carry-in C (and every value
of the Decimal flag), SBC leaves A' = (A - M - (1 - C)) mod 256, Carry = 1 exactly
when A >= M + (1 - C), Overflow = (the difference of A and M read as signed 8-bit
values, minus (1 - C), lies outside [-128, 127]), Zero = (A' = 0) and Negative =
bit 7 of A'. -/
theorem sbc_spec (s : Machine) (A M : Nat) (C : Bool)
    (hA : s.ra = A) (hA8 : A < 256)
    (hM : (read_mem s s.arg).1 = M) (hM8 : M < 256)
    (hC : get_carry_flag s = C) :
    ((i_sbc s).ra : Int) = ((A : Int) - M - (1 - (C.toNat : Int))) % 256 ∧
    get_carry_flag (i_sbc s) = decide (A ≥ M + (1 - C.toNat)) ∧
    get_overflow_flag (i_sbc s)
      = decide (signed8 A - signed8 M - (1 - (C.toNat : Int)) < -128
                ∨ 127 < signed8 A - signed8 M - (1 - (C.toNat : Int))) ∧
    get_zero_flag (i_sbc s) = decide ((i_sbc s).ra = 0) ∧
    get_negative_flag (i_sbc s) = decide (get_bit (i_sbc s).ra 7 = 1) := by
  have hra := i_sbc_ra s
  have hrp := i_sbc_rp s
  rw [hA, hM, hC] at hra hrp
  refine ⟨?_, ?_, ?_, ?_, ?_⟩
  · rw [hra]; unfold u32; cases C <;> simp only [Bool.not_true, Bool.not_false, Bool.toNat_true, Bool.toNat_false] <;> omega
  · unfold get_carry_flag
    rw [hrp, get_bit_set_bit _ _ _ _ (by decide) (by decide), if_pos rfl, toNat_beq_one]
    unfold u32
    congr 1
    apply propext
    cases C <;> simp only [Bool.not_true, Bool.not_false, Bool.toNat_true, Bool.toNat_false] <;>
      constructor <;> intro h <;> omega
  · unfold get_overflow_flag
    rw [hrp, get_bit_set_bit _ _ _ _ (by decide) (by decide),
      if_neg (by decide), get_bit_set_bit _ _ _ _ (by decide) (by decide), if_pos rfl,
      ← sbc_arith A M C hA8 hM8, toNat_beq_one]
  · unfold get_zero_flag
    rw [hrp, get_bit_set_bit _ _ _ _ (by decide) (by decide),
      if_neg (by decide), get_bit_set_bit _ _ _ _ (by decide) (by decide), if_neg (by decide),
      get_bit_set_bit _ _ _ _ (by decide) (by decide), if_neg (by decide),
      get_bit_set_bit _ _ _ _ (by decide) (by decide), if_pos rfl, toNat_beq_one]
    rw [Bool.eq_iff_iff]; simp
  · unfold get_negative_flag
    rw [hrp, get_bit_set_bit _ _ _ _ (by decide) (by decide),
      if_neg (by decide), get_bit_set_bit _ _ _ _ (by decide) (by decide), if_neg (by decide),
      get_bit_set_bit _ _ _ _ (by decide) (by decide), if_pos rfl, toNat_beq_one]
    rw [Bool.eq_iff_iff]; simp
/-! ## Stack -/

theorem push_eq (s : Machine) (v : Nat) (h : s.sp < 256) :
    push s v = { s with memory := upd s.memory (0x100 + s.sp) (v % 256),
                        sp := (s.sp + 255) % 256 } := by
  unfold push
  rw [write_mem_ram s _ v (by omega), Nat.mod_eq_of_lt (show 0x100 + s.sp < 0x0800 by omega)]

theorem push_adr_eq (s : Machine) (adr : Nat) (h : s.sp < 256) :
    push_adr s adr
      = { s with memory := upd (upd s.memory (0x100 + s.sp) ((adr >>> 8) % 256))
                             (0x100 + (s.sp + 255) % 256) (adr % 256),
                 sp := ((s.sp + 255) % 256 + 255) % 256 } := by
  unfold push_adr
  rw [push_eq s _ h, push_eq _ _ (Nat.mod_lt _ (by decide))]

theorem pull_eq (s : Machine) :
    pull s = (s.memory (0x100 + (s.sp + 1) % 256) % 256, { s with sp := (s.sp + 1) % 256 }) := by
  unfold pull
  have h2 : (s.sp + 1) % 256 < 256 := Nat.mod_lt _ (by decide)
  rw [read_mem_ram _ _ (show 0x100 + (s.sp + 1) % 256 < 0x2000 by omega),
    Nat.mod_eq_of_lt (show 0x100 + (s.sp + 1) % 256 < 0x0800 by omega)]

theorem pull_adr_eq (s : Machine) :
    pull_adr s
      = (make_adr (s.memory (0x100 + ((s.sp + 1) % 256 + 1) % 256) % 256)
                  (s.memory (0x100 + (s.sp + 1) % 256) % 256),
         { s with sp := ((s.sp + 1) % 256 + 1) % 256 }) := by
  unfold pull_adr
  simp only [pull_eq s]
  rw [pull_eq]

/-- The address `make_adr` builds from two bytes is `hi * 256 + lo`. -/
theorem make_adr_eq (hi lo : Nat) : make_adr hi lo = (hi % 256) * 256 + lo % 256 := by
  unfold make_adr
  rw [Nat.shiftLeft_eq, Nat.mul_comm,
    ← Nat.mul_add_lt_is_or (show lo % 256 < 2 ^ 8 from Nat.mod_lt _ (by decide))]

theorem make_adr_lt (hi lo : Nat) : make_adr hi lo < 0x10000 := by
  rw [make_adr_eq]; omega

/-! ## Fetch and step -/

theorem fetch_eq (s : Machine) :
    fetch s = { s with gfx := (read_mem s s.pc).2.gfx, input := (read_mem s s.pc).2.input,
                       cur_opcode := (read_mem s s.pc).1, pc := u64 (s.pc + 1) } := by
  unfold fetch
  simp only [read_mem_pc]
  rw [read_mem_snd]

/-- With no interrupt pending, `step` fetches, runs the decoded addressing mode
and instruction, and counts the step. -/
theorem step_exec (s : Machine) (m : Mode) (i : Instr) (hint : interrupt_pending s = false)
    (hdec : decode (read_mem s s.pc).1 = some (m, i)) :
    step s = (0, { run_instr i (run_mode m (fetch s)) with
                   step_count := u64 ((run_instr i (run_mode m (fetch s))).step_count + 1) }) := by
  have hop : (fetch s).cur_opcode = (read_mem s s.pc).1 := by rw [fetch_eq]
  unfold step
  rw [hint]
  simp only [Bool.false_eq_true, if_false, hop, hdec]

/-- With an interrupt pending, `step` runs `process_interrupt` and sets the budget to 6. -/
theorem step_interrupt (s : Machine) (hint : interrupt_pending s = true) :
    step s = (0, { process_interrupt s with cycle_count := 6 }) := by
  unfold step
  rw [hint]
  simp only [if_true]

/-! ## Interrupts -/

/-- A two-byte read from PRG ROM returns the little-endian word and changes nothing. -/
theorem read_mem_2_rom (s : Machine) (a : Nat) (h1 : 0x8000 ≤ a) (h2 : a + 1 < 0x10000) :
    read_mem_2 s a = (make_adr (read_mem s (a + 1)).1 (read_mem s a).1, s) := by
  unfold read_mem_2
  have e : u64 (a + 1) = a + 1 := by unfold u64; omega
  simp only [e]
  rw [read_mem_rom s a h1 (by omega), read_mem_rom s (a + 1) (by omega) h2]

/-- The value of a PRG ROM read does not depend on the rest of the state. -/
theorem read_mem_rom_congr (s t : Machine) (a : Nat) (h1 : 0x8000 ≤ a) (h2 : a < 0x10000)
    (hr : t.prg_rom = s.prg_rom) (hs : t.prg_size = s.prg_size) :
    (read_mem t a).1 = (read_mem s a).1 := by
  rw [read_mem_rom s a h1 h2, read_mem_rom t a h1 h2, hr, hs]

/-- What `process_interrupt` does when only the NMI flag is pending. -/
theorem process_interrupt_nmi_only (s : Machine) (hn : s.nmi_flag = true) (hr : s.reset_flag = false)
    (hi : s.irq_flag = false) (hsp : s.sp < 256) :
    process_interrupt s
      = { s with nmi_flag := false,
                 memory := upd (upd (upd s.memory (0x100 + s.sp) ((s.pc >>> 8) % 256))
                             (0x100 + (s.sp + 255) % 256) (s.pc % 256))
                             (0x100 + (s.sp + 254) % 256)
                             (set_bit (set_bit s.rp 5 true) 4 false % 256),
                 sp := (s.sp + 253) % 256,
                 rp := set_bit s.rp 2 true,
                 pc := make_adr (read_mem s 0xfffb).1 (read_mem s 0xfffa).1 } := by
  unfold process_interrupt
  rw [if_pos hn]
  simp only []
  rw [push_adr_eq _ _ (show ({ s with nmi_flag := false } : Machine).sp < 256 from hsp)]
  simp only []
  rw [push_eq _ _ (Nat.mod_lt _ (by decide))]
  simp only [set_interrupt_disable_flag]
  rw [read_mem_2_rom _ _ (by decide) (by decide)]
  simp only [hr, hi, Bool.false_eq_true, if_false]
  have e1 : ((s.sp + 255) % 256 + 255) % 256 = (s.sp + 254) % 256 := by omega
  have e2 : ((s.sp + 254) % 256 + 255) % 256 = (s.sp + 253) % 256 := by omega
  simp only [e1, e2, Nat.reduceAdd,
    fun t => read_mem_rom t 0xfffa (by decide) (by decide),
    fun t => read_mem_rom t 0xfffb (by decide) (by decide)]


theorem interrupt_pending_of_nmi (s : Machine) (hn : s.nmi_flag = true) :
    interrupt_pending s = true := by
  unfold interrupt_pending; rw [hn]; rfl

/-- C9: entered with only the NMI flag pending, `step` executes no opcode (returns 0,
leaves `cur_opcode` and the step counter alone), writes PC high, PC low and P with
bit 5 set and bit 4 clear to the three stack cells from 0x100+S downwards (wrapping
inside page 1) and to no other RAM cell, decreases S by 3 modulo 256, sets
InterruptDisable and nothing else in P, loads PC from the little-endian vector at
0xFFFA/0xFFFB, clears the NMI flag, sets the cycle budget to 6 and leaves A, X, Y. -/
theorem step_nmi (s : Machine) (hn : s.nmi_flag = true) (hr : s.reset_flag = false)
    (hi : s.irq_flag = false) (hsp : s.sp < 256) (hrp : s.rp < 256) :
    (step s).1 = 0 ∧
    (step s).2.cur_opcode = s.cur_opcode ∧ (step s).2.step_count = s.step_count ∧
    (step s).2.memory (0x100 + s.sp) = (s.pc >>> 8) % 256 ∧
    (step s).2.memory (0x100 + (s.sp + 255) % 256) = s.pc % 256 ∧
    (step s).2.memory (0x100 + (s.sp + 254) % 256) = set_bit (set_bit s.rp 5 true) 4 false ∧
    (∀ a, a ≠ 0x100 + s.sp → a ≠ 0x100 + (s.sp + 255) % 256 → a ≠ 0x100 + (s.sp + 254) % 256 →
      (step s).2.memory a = s.memory a) ∧
    (step s).2.sp = (s.sp + 253) % 256 ∧
    (step s).2.rp = set_bit s.rp 2 true ∧
    get_interrupt_disable_flag (step s).2 = true ∧
    (step s).2.pc = (read_mem s 0xfffb).1 * 256 + (read_mem s 0xfffa).1 ∧
    (step s).2.nmi_flag = false ∧
    (step s).2.cycle_count = 6 ∧
    (step s).2.ra = s.ra ∧ (step s).2.rx = s.rx ∧ (step s).2.ry = s.ry := by
  rw [step_interrupt s (interrupt_pending_of_nmi s hn), process_interrupt_nmi_only s hn hr hi hsp]
  have h1 : (s.sp + 255) % 256 ≠ s.sp := by omega
  have h2 : (s.sp + 254) % 256 ≠ s.sp := by omega
  have h3 : (s.sp + 254) % 256 ≠ (s.sp + 255) % 256 := by omega
  have hp : set_bit (set_bit s.rp 5 true) 4 false < 256 :=
    set_bit_lt _ _ _ (set_bit_lt _ _ _ hrp (by decide)) (by decide)
  refine ⟨rfl, rfl, rfl, ?_, ?_, ?_, ?_, rfl, rfl, ?_, ?_, rfl, rfl, rfl, rfl, rfl⟩
  · simp only []
    rw [upd_ne _ _ _ _ (by omega), upd_ne _ _ _ _ (by omega), upd_same]
  · simp only []
    rw [upd_ne _ _ _ _ (by omega), upd_same]
  · simp only []
    rw [upd_same, Nat.mod_eq_of_lt hp]
  · intro a ha1 ha2 ha3
    simp only []
    rw [upd_ne _ _ _ _ ha3, upd_ne _ _ _ _ ha2, upd_ne _ _ _ _ ha1]
  · simp only [get_interrupt_disable_flag]
    rw [get_bit_set_bit _ _ _ _ (by decide) (by decide)]; rfl
  · simp only []
    rw [make_adr_eq, Nat.mod_eq_of_lt (read_mem_fst_lt s _ (by decide)),
      Nat.mod_eq_of_lt (read_mem_fst_lt s _ (by decide))]
theorem process_interrupt_eq (s : Machine) :
    process_interrupt s
      = reset_or_irq (if s.nmi_flag then service { s with nmi_flag := false } 0xfffa else s) := rfl

theorem service_eq (s : Machine) (vec : Nat) (hsp : s.sp < 256) (h1 : 0x8000 ≤ vec)
    (h2 : vec + 1 < 0x10000) :
    service s vec
      = { s with memory := upd (upd (upd s.memory (0x100 + s.sp) ((s.pc >>> 8) % 256))
                             (0x100 + (s.sp + 255) % 256) (s.pc % 256))
                             (0x100 + (s.sp + 254) % 256)
                             (set_bit (set_bit s.rp 5 true) 4 false % 256),
                 sp := (s.sp + 253) % 256,
                 rp := set_bit s.rp 2 true,
                 pc := make_adr (read_mem s (vec + 1)).1 (read_mem s vec).1 } := by
  unfold service
  simp only []
  rw [push_adr_eq _ _ hsp]
  simp only []
  rw [push_eq _ _ (Nat.mod_lt _ (by decide))]
  simp only [set_interrupt_disable_flag]
  rw [read_mem_2_rom _ _ h1 h2]
  have e1 : ((s.sp + 255) % 256 + 255) % 256 = (s.sp + 254) % 256 := by omega
  have e2 : ((s.sp + 254) % 256 + 255) % 256 = (s.sp + 253) % 256 := by omega
  simp only [e1, e2,
    fun t => read_mem_rom t vec h1 (by omega),
    fun t => read_mem_rom t (vec + 1) (by omega) h2]

theorem reset_or_irq_memory_cell (s : Machine) (a : Nat) (hsp : s.sp < 256)
    (h1 : a ≠ 0x100 + s.sp) (h2 : a ≠ 0x100 + (s.sp + 255) % 256)
    (h3 : a ≠ 0x100 + (s.sp + 254) % 256) :
    (reset_or_irq s).memory a = s.memory a := by
  unfold reset_or_irq
  by_cases hr : s.reset_flag = true
  · rw [if_pos hr]
    simp only [set_interrupt_disable_flag]
    rw [read_mem_2_rom _ _ (by decide) (by decide)]
  · rw [if_neg hr]
    by_cases hi : s.irq_flag = true
    · rw [if_pos hi, service_eq _ _ (show ({ s with irq_flag := false } : Machine).sp < 256 from hsp)
        (by decide) (by decide)]
      simp only []
      rw [upd_ne _ _ _ _ h3, upd_ne _ _ _ _ h2, upd_ne _ _ _ _ h1]
    · rw [if_neg hi]

/-! ## Status pushes -/

theorem i_php_eq (s : Machine) (hsp : s.sp < 256) :
    i_php s = { s with memory := upd s.memory (0x100 + s.sp)
                                   (set_bit (set_bit s.rp 5 true) 4 true % 256),
                       sp := (s.sp + 255) % 256,
                       cycle_count := u64 (s.cycle_count + u32 3) } := by
  unfold i_php
  simp only []
  rw [push_eq _ _ hsp]
  simp only [add_cycles]

theorem i_brk_memory (s : Machine) (hsp : s.sp < 256) :
    (i_brk s).memory
      = upd (upd (upd s.memory (0x100 + s.sp) ((u64 (s.pc + 1) >>> 8) % 256))
               (0x100 + (s.sp + 255) % 256) (u64 (s.pc + 1) % 256))
               (0x100 + ((s.sp + 255) % 256 + 255) % 256)
               (set_bit (set_bit s.rp 5 true) 4 true % 256) := by
  unfold i_brk
  simp only []
  rw [push_adr_eq _ _ hsp]
  simp only []
  rw [push_eq _ _ (Nat.mod_lt _ (by decide))]
  simp only [add_cycles, set_interrupt_disable_flag, set_break_flag]
  rw [read_mem_2_rom _ _ (by decide) (by decide)]

/-- The two status bytes differ from `P` in bits 5 and 4 only. -/
theorem status_bits (p : Nat) (b : Bool) :
    get_bit (set_bit (set_bit p 5 true) 4 b) 5 = 1 ∧
    get_bit (set_bit (set_bit p 5 true) 4 b) 4 = b.toNat ∧
    ∀ k, k < 8 → k ≠ 5 → k ≠ 4 →
      get_bit (set_bit (set_bit p 5 true) 4 b) k = get_bit p k := by
  refine ⟨?_, ?_, ?_⟩
  · rw [get_bit_set_bit _ _ _ _ (by decide) (by decide), if_neg (by decide),
      get_bit_set_bit _ _ _ _ (by decide) (by decide), if_pos rfl]; rfl
  · rw [get_bit_set_bit _ _ _ _ (by decide) (by decide), if_pos rfl]
  · intro k hk h5 h4
    rw [get_bit_set_bit _ _ _ _ (by decide) hk, if_neg h4,
      get_bit_set_bit _ _ _ _ (by decide) hk, if_neg h5]

/-- C6: for every P (and every S), the status byte written to the stack by PHP and
by BRK is P with bits 5 and 4 set, the one written by the NMI acknowledgement and
by the IRQ acknowledgement is P with bit 5 set and bit 4 clear; bits 0-3, 6 and 7
of the byte are those of P. -/
theorem status_pushes (s : Machine) (hsp : s.sp < 256) (hrp : s.rp < 256) :
    (i_php s).memory (0x100 + s.sp) = set_bit (set_bit s.rp 5 true) 4 true ∧
    (i_brk s).memory (0x100 + (s.sp + 254) % 256) = set_bit (set_bit s.rp 5 true) 4 true ∧
    (process_interrupt { s with nmi_flag := true }).memory (0x100 + (s.sp + 254) % 256)
      = set_bit (set_bit s.rp 5 true) 4 false ∧
    (process_interrupt { s with nmi_flag := false, reset_flag := false, irq_flag := true }).memory
        (0x100 + (s.sp + 254) % 256)
      = set_bit (set_bit s.rp 5 true) 4 false ∧
    (∀ b : Bool,
      get_bit (set_bit (set_bit s.rp 5 true) 4 b) 5 = 1 ∧
      get_bit (set_bit (set_bit s.rp 5 true) 4 b) 4 = b.toNat ∧
      ∀ k, k < 8 → k ≠ 5 → k ≠ 4 →
        get_bit (set_bit (set_bit s.rp 5 true) 4 b) k = get_bit s.rp k) := by
  have hp : ∀ b, set_bit (set_bit s.rp 5 true) 4 b < 256 := fun b =>
    set_bit_lt _ _ _ (set_bit_lt _ _ _ hrp (by decide)) (by decide)
  have e1 : ((s.sp + 255) % 256 + 255) % 256 = (s.sp + 254) % 256 := by omega
  refine ⟨?_, ?_, ?_, ?_, fun b => status_bits s.rp b⟩
  · rw [i_php_eq s hsp]
    simp only []
    rw [upd_same, Nat.mod_eq_of_lt (hp true)]
  · rw [i_brk_memory s hsp, e1, upd_same, Nat.mod_eq_of_lt (hp true)]
  · rw [process_interrupt_eq]
    simp only [if_true]
    rw [service_eq _ _ (show ({ s with nmi_flag := false } : Machine).sp < 256 from hsp)
      (by decide) (by decide)]
    rw [reset_or_irq_memory_cell _ _ (Nat.mod_lt _ (by decide))
      (by simp only []; omega) (by simp only []; omega) (by simp only []; omega)]
    simp only []
    rw [upd_same, Nat.mod_eq_of_lt (hp false)]
  · rw [process_interrupt_eq]
    simp only [Bool.false_eq_true, if_false]
    unfold reset_or_irq
    simp only [Bool.false_eq_true, if_false, if_true]
    rw [service_eq _ _ (show ({ s with nmi_flag := false, reset_flag := false, irq_flag := false } : Machine).sp < 256 from hsp)
      (by decide) (by decide)]
    simp only []
    rw [upd_same, Nat.mod_eq_of_lt (hp false)]
/-! ## PHP then PLP -/

theorem decode_php : decode 0x08 = some (Mode.imp, Instr.php) := by decide
theorem decode_plp : decode 0x28 = some (Mode.imp, Instr.plp) := by decide

theorem m_imp_eq (s : Machine) : m_imp s = { s with r_cyc := 0, w_cyc := 0, arg := 0 } := rfl

theorem i_plp_eq (s : Machine) :
    i_plp s = { s with sp := (s.sp + 1) % 256,
                       rp := s.memory (0x100 + (s.sp + 1) % 256) % 256,
                       cycle_count := u64 (s.cycle_count + u32 4) } := by
  unfold i_plp
  simp only []
  rw [pull_eq]
  simp only [add_cycles]

/-- The state PHP leaves. -/
theorem step_php (s : Machine) (hint : interrupt_pending s = false) (hsp : s.sp < 256)
    (h1 : (read_mem s s.pc).1 = 0x08) :
    (step s).2 = { s with gfx := (read_mem s s.pc).2.gfx, input := (read_mem s s.pc).2.input,
                          cur_opcode := 0x08, pc := u64 (s.pc + 1), r_cyc := 0, w_cyc := 0, arg := 0,
                          memory := upd s.memory (0x100 + s.sp)
                                      (set_bit (set_bit s.rp 5 true) 4 true % 256),
                          sp := (s.sp + 255) % 256,
                          cycle_count := u64 (s.cycle_count + u32 3),
                          step_count := u64 (s.step_count + 1) } := by
  rw [step_exec s Mode.imp Instr.php hint (by rw [h1]; exact decode_php)]
  simp only [run_mode, run_instr]
  rw [m_imp_eq, fetch_eq, h1, i_php_eq]
  exact hsp

/-- C7 (amended): for every P and S, executing PHP immediately followed by PLP leaves
P equal to its value before the PHP with bits 5 and 4 set, and leaves S unchanged. -/
theorem php_plp (s : Machine) (hint : interrupt_pending s = false)
    (hsp : s.sp < 256) (hrp : s.rp < 256)
    (h1 : (read_mem s s.pc).1 = 0x08)
    (h2 : (read_mem (step s).2 (step s).2.pc).1 = 0x28) :
    (step (step s).2).2.rp = set_bit (set_bit s.rp 5 true) 4 true ∧
    (step (step s).2).2.sp = s.sp := by
  have hp : set_bit (set_bit s.rp 5 true) 4 true < 256 :=
    set_bit_lt _ _ _ (set_bit_lt _ _ _ hrp (by decide)) (by decide)
  have hint2 : interrupt_pending (step s).2 = false := by
    rw [step_php s hint hsp h1]; exact hint
  rw [step_exec (step s).2 Mode.imp Instr.plp hint2 (by rw [h2]; exact decode_plp)]
  simp only [run_mode, run_instr]
  rw [m_imp_eq, fetch_eq, i_plp_eq]
  simp only []
  rw [step_php s hint hsp h1]
  simp only []
  have e : ((s.sp + 255) % 256 + 1) % 256 = s.sp := by omega
  rw [e, upd_same, Nat.mod_mod, Nat.mod_eq_of_lt hp]
  exact ⟨rfl, rfl⟩
/-! ## JSR then RTS -/

theorem decode_jsr : decode 0x20 = some (Mode.abs, Instr.jsr) := by decide
theorem decode_rts : decode 0x60 = some (Mode.imp, Instr.rts) := by decide

/-- A two-byte read leaves everything but the PPU and the controller port as it was. -/
theorem read_mem_2_snd (s : Machine) (a : Nat) :
    (read_mem_2 s a).2
      = { s with gfx := (read_mem_2 s a).2.gfx, input := (read_mem_2 s a).2.input } := by
  unfold read_mem_2
  simp only []
  rw [read_mem_snd (read_mem s a).2, read_mem_snd s a]

theorem read_mem_2_fst_lt (s : Machine) (a : Nat) : (read_mem_2 s a).1 < 0x10000 := by
  unfold read_mem_2
  exact make_adr_lt _ _

theorem m_abs_eq (s : Machine) :
    m_abs s = { s with r_cyc := 2, w_cyc := 2,
                       gfx := (read_mem_2 { s with r_cyc := 2, w_cyc := 2 } s.pc).2.gfx,
                       input := (read_mem_2 { s with r_cyc := 2, w_cyc := 2 } s.pc).2.input,
                       arg := (read_mem_2 { s with r_cyc := 2, w_cyc := 2 } s.pc).1,
                       pc := u64 (u64 (s.pc + 1) + 1) } := by
  unfold m_abs
  simp only []
  rw [read_mem_2_snd]
  rfl

theorem i_jsr_eq (s : Machine) (hsp : s.sp < 256) :
    i_jsr s = { s with memory := upd (upd s.memory (0x100 + s.sp)
                                   ((u64 (s.pc + 18446744073709551616 - 1) >>> 8) % 256))
                                   (0x100 + (s.sp + 255) % 256)
                                   (u64 (s.pc + 18446744073709551616 - 1) % 256),
                       sp := ((s.sp + 255) % 256 + 255) % 256,
                       pc := s.arg,
                       cycle_count := u64 (s.cycle_count + u32 (4 + s.r_cyc)) } := by
  unfold i_jsr
  simp only []
  rw [push_adr_eq _ _ hsp]
  simp only [add_cycles]

theorem i_rts_eq (s : Machine) :
    i_rts s = { s with sp := ((s.sp + 1) % 256 + 1) % 256,
                       pc := u64 (make_adr (s.memory (0x100 + ((s.sp + 1) % 256 + 1) % 256) % 256)
                                    (s.memory (0x100 + (s.sp + 1) % 256) % 256) + 1),
                       cycle_count := u64 (s.cycle_count + u32 6) } := by
  unfold i_rts
  simp only []
  rw [pull_adr_eq]
  simp only [add_cycles]

/-- The state JSR leaves. -/
theorem step_jsr (s : Machine) (hint : interrupt_pending s = false) (hsp : s.sp < 256)
    (hpc : s.pc < 0x10000) (h1 : (read_mem s s.pc).1 = 0x20) :
    (step s).2 = { s with gfx := (m_abs (fetch s)).gfx, input := (m_abs (fetch s)).input,
                          cur_opcode := 0x20, r_cyc := 2, w_cyc := 2,
                          arg := (m_abs (fetch s)).arg,
                          pc := (m_abs (fetch s)).arg,
                          memory := upd (upd s.memory (0x100 + s.sp) ((s.pc + 2) / 256 % 256))
                                      (0x100 + (s.sp + 255) % 256) ((s.pc + 2) % 256),
                          sp := (s.sp + 254) % 256,
                          cycle_count := u64 (s.cycle_count + u32 (4 + 2)),
                          step_count := u64 (s.step_count + 1) } := by
  rw [step_exec s Mode.abs Instr.jsr hint (by rw [h1]; exact decode_jsr)]
  simp only [run_mode, run_instr]
  rw [i_jsr_eq _ (by rw [m_abs_eq, fetch_eq]; exact hsp)]
  rw [m_abs_eq, fetch_eq, h1]
  simp only []
  have e1 : u64 (u64 (u64 (u64 (s.pc + 1) + 1) + 1) + 18446744073709551616 - 1) = s.pc + 2 := by
    unfold u64; omega
  have e2 : ((s.sp + 255) % 256 + 255) % 256 = (s.sp + 254) % 256 := by omega
  have e3 : (s.pc + 2) >>> 8 % 256 = (s.pc + 2) / 256 % 256 := by
    rw [Nat.shiftRight_eq_div_pow]
  rw [e1, e2, e3]

/-- C8 (amended): for every state with a 16-bit PC = p and any S (wrapping through 0x00
included) in which a JSR at p targets a subroutine whose first instruction is RTS,
the opcode byte not being one of the two stack cells written, the JSR pushes the
high then the low byte of p + 2 and jumps to the target, and the RTS then leaves S
as it was before the JSR and PC = ((p + 2) mod 0x10000) + 1, which is p + 3, the
instruction after the JSR, for every JSR whose three bytes lie inside the 64 KiB
address space. -/
theorem jsr_rts (s : Machine) (hint : interrupt_pending s = false) (hsp : s.sp < 256)
    (hpc : s.pc < 0x10000) (h1 : (read_mem s s.pc).1 = 0x20)
    (h2 : rts_at s (m_abs (fetch s)).arg) :
    (step s).2.memory (0x100 + s.sp) = (s.pc + 2) / 256 % 256 ∧
    (step s).2.memory (0x100 + (s.sp + 255) % 256) = (s.pc + 2) % 256 ∧
    (step s).2.pc = (m_abs (fetch s)).arg ∧
    (step (step s).2).2.pc = (s.pc + 2) % 0x10000 + 1 ∧
    (s.pc + 2 < 0x10000 → (step (step s).2).2.pc = s.pc + 3) ∧
    (step (step s).2).2.sp = s.sp := by
  have hs := step_jsr s hint hsp hpc h1
  have hne : (s.sp + 255) % 256 ≠ s.sp := by omega
  have hint2 : interrupt_pending (step s).2 = false := by
    rw [hs]; exact hint
  have hop : (read_mem (step s).2 (step s).2.pc).1 = 0x60 := by
    rw [hs]
    simp only []
    rcases h2 with ⟨ht, hm, hc1, hc2⟩ | ⟨ht1, ht2, hm⟩
    · rw [read_mem_ram _ _ ht]
      simp only []
      rw [upd_ne _ _ _ _ hc2, upd_ne _ _ _ _ hc1]
      exact hm
    · rw [read_mem_rom _ _ ht1 ht2]
      exact hm
  have hret : (step (step s).2).2.pc = (s.pc + 2) % 0x10000 + 1 := by
    rw [step_exec (step s).2 Mode.imp Instr.rts hint2 (by rw [hop]; exact decode_rts)]
    simp only [run_mode, run_instr]
    rw [m_imp_eq, fetch_eq, i_rts_eq]
    simp only []
    rw [hs]
    simp only []
    have e1 : ((s.sp + 254) % 256 + 1) % 256 = (s.sp + 255) % 256 := by omega
    have e2 : ((s.sp + 255) % 256 + 1) % 256 = s.sp := by omega
    rw [e1, e2, upd_same, upd_ne _ _ _ _ (by omega), upd_same, make_adr_eq]
    unfold u64
    omega
  refine ⟨?_, ?_, ?_, hret, ?_, ?_⟩
  · rw [hs]; simp only []
    rw [upd_ne _ _ _ _ (by omega), upd_same]
  · rw [hs]; simp only []
    rw [upd_same]
  · rw [hs]
  · intro h
    rw [hret]
    omega
  · rw [step_exec (step s).2 Mode.imp Instr.rts hint2 (by rw [hop]; exact decode_rts)]
    simp only [run_mode, run_instr]
    rw [m_imp_eq, fetch_eq, i_rts_eq]
    simp only []
    rw [hs]
    simp only []
    omega

/-! ## Branches -/

theorem m_rel_eq (s : Machine) :
    m_rel s = { s with arg := s.pc, pc := u64 (s.pc + 1), r_cyc := 0, w_cyc := 0 } := rfl

theorem short_jump_if_false (s : Machine) :
    short_jump_if s false = { s with cycle_count := u64 (s.cycle_count + 2) } := rfl

theorem short_jump_if_true (s : Machine) :
    short_jump_if s true
      = { s with gfx := (read_mem s s.arg).2.gfx, input := (read_mem s s.arg).2.input,
                 pc := add_signed_offset s.pc (read_mem s s.arg).1,
                 cycle_count :=
                   if (add_signed_offset s.pc (read_mem s s.arg).1 >>> 8) % 256
                       ≠ (s.pc >>> 8) % 256
                   then u64 (u64 (u64 (s.cycle_count + 2) + 1) + 1)
                   else u64 (u64 (s.cycle_count + 2) + 1) } := by
  have h := read_mem_congr s { s with cycle_count := u64 (u64 (s.cycle_count + 2) + 1) } s.arg
    rfl rfl rfl rfl rfl rfl rfl rfl rfl rfl
  unfold short_jump_if
  simp only [if_true, read_mem_pc, read_mem_cycle_count]
  rw [read_mem_snd]
  simp only []
  rw [h.1, h.2.1, h.2.2]
  split_ifs <;> rfl

/-- The page test of `short_jump_if` agrees with the comparison of the pages of
the two addresses. -/
theorem page_test (next b : Nat) (hn : next < 18446744073709551616) (hb : b < 256) :
    ((add_signed_offset next b >>> 8) % 256 ≠ (next >>> 8) % 256)
      ↔ add_signed_offset next b / 256 ≠ next / 256 := by
  rw [Nat.shiftRight_eq_div_pow, Nat.shiftRight_eq_div_pow]
  unfold add_signed_offset u64 u32
  simp only [Nat.mod_eq_of_lt hb]
  split_ifs <;> omega

/-- What `step` does on a branch instruction whose condition evaluates to `c`. -/
theorem step_short_jump (s : Machine) (i : Instr) (c : Bool) (hint : interrupt_pending s = false)
    (hdec : decode (read_mem s s.pc).1 = some (Mode.rel, i))
    (hrun : run_instr i (m_rel (fetch s)) = short_jump_if (m_rel (fetch s)) c)
    (hwf : regs_wf s) (hcyc : s.cycle_count + 4 < 18446744073709551616) :
    (step s).1 = 0 ∧
    (c = false → (step s).2.cycle_count = s.cycle_count + 2 ∧
      (step s).2.pc = u64 (u64 (s.pc + 1) + 1)) ∧
    (c = true →
      (step s).2.pc = add_signed_offset (u64 (u64 (s.pc + 1) + 1))
                        (read_mem (m_rel (fetch s)) (m_rel (fetch s)).arg).1 ∧
      ((step s).2.pc / 256 = u64 (u64 (s.pc + 1) + 1) / 256 →
        (step s).2.cycle_count = s.cycle_count + 3) ∧
      ((step s).2.pc / 256 ≠ u64 (u64 (s.pc + 1) + 1) / 256 →
        (step s).2.cycle_count = s.cycle_count + 4)) := by
  rw [step_exec s Mode.rel i hint hdec]
  simp only [run_mode]
  rw [hrun]
  have hnext : u64 (u64 (s.pc + 1) + 1) < 18446744073709551616 := by unfold u64; omega
  refine ⟨trivial, ?_, ?_⟩
  · intro hc
    rw [hc, short_jump_if_false, m_rel_eq, fetch_eq]
    simp only []
    refine ⟨?_, trivial⟩
    unfold u64; omega
  · intro hc
    rw [hc, short_jump_if_true]
    have harg : (m_rel (fetch s)).arg = u64 (s.pc + 1) := by rw [m_rel_eq, fetch_eq]
    have hpc2 : (m_rel (fetch s)).pc = u64 (u64 (s.pc + 1) + 1) := by rw [m_rel_eq, fetch_eq]
    have hcc : (m_rel (fetch s)).cycle_count = s.cycle_count := by rw [m_rel_eq, fetch_eq]
    have hb : (read_mem (m_rel (fetch s)) (m_rel (fetch s)).arg).1 < 256 := by
      apply read_mem_fst_lt_of_wf
      rw [m_rel_eq, fetch_eq]
      exact hwf
    simp only []
    rw [hpc2, hcc]
    have hpt := page_test _ _ hnext hb
    refine ⟨rfl, ?_, ?_⟩
    · intro hpg
      rw [if_neg (by rw [hpt]; exact not_not.mpr hpg)]
      unfold u64; omega
    · intro hpg
      rw [if_pos (hpt.mpr hpg)]
      unfold u64; omega

theorem bit_beq_false (x n : Nat) : ((get_bit x n == 1) == false) = (get_bit x n == 0) := by
  have h := get_bit_lt_two x n
  generalize get_bit x n = g at h
  interval_cases g <;> rfl

theorem bit_beq_true (x n : Nat) : ((get_bit x n == 1) == true) = (get_bit x n == 1) := by
  have h := get_bit_lt_two x n
  generalize get_bit x n = g at h
  interval_cases g <;> rfl

theorem m_rel_fetch_rp (s : Machine) : (m_rel (fetch s)).rp = s.rp := by
  rw [m_rel_eq, fetch_eq]

/-- Each branch opcode decodes to the relative mode and an instruction that calls
`short_jump_if` with the documented condition. -/
theorem branch_decode (s : Machine) (op : Nat) (hbr : op ∈ branch_opcodes) :
    ∃ i, decode op = some (Mode.rel, i) ∧
      run_instr i (m_rel (fetch s)) = short_jump_if (m_rel (fetch s)) (branch_taken op s) := by
  unfold branch_opcodes at hbr
  simp only [List.mem_cons, List.mem_singleton, List.not_mem_nil, or_false] at hbr
  rcases hbr with rfl | rfl | rfl | rfl | rfl | rfl | rfl | rfl
  · refine ⟨Instr.bpl, by decide, ?_⟩
    simp only [run_instr, i_bpl, get_negative_flag, m_rel_fetch_rp, bit_beq_false]; rfl
  · refine ⟨Instr.bmi, by decide, ?_⟩
    simp only [run_instr, i_bmi, get_negative_flag, m_rel_fetch_rp, bit_beq_true]; rfl
  · refine ⟨Instr.bvc, by decide, ?_⟩
    simp only [run_instr, i_bvc, get_overflow_flag, m_rel_fetch_rp, bit_beq_false]; rfl
  · refine ⟨Instr.bvs, by decide, ?_⟩
    simp only [run_instr, i_bvs, get_overflow_flag, m_rel_fetch_rp, bit_beq_true]; rfl
  · refine ⟨Instr.bcc, by decide, ?_⟩
    simp only [run_instr, i_bcc, get_carry_flag, m_rel_fetch_rp, bit_beq_false]; rfl
  · refine ⟨Instr.bcs, by decide, ?_⟩
    simp only [run_instr, i_bcs, get_carry_flag, m_rel_fetch_rp, bit_beq_true]; rfl
  · refine ⟨Instr.bne, by decide, ?_⟩
    simp only [run_instr, i_bne, get_zero_flag, m_rel_fetch_rp, bit_beq_false]; rfl
  · refine ⟨Instr.beq, by decide, ?_⟩
    simp only [run_instr, i_beq, get_zero_flag, m_rel_fetch_rp, bit_beq_true]; rfl

/-- C4: each of the eight branch opcodes bills 2 cycles when the branch is not
taken, 3 when it is taken and the target lies on the page of the address of the
instruction following the branch, and 4 when it is taken and the target lies on
another page. -/
theorem branch_cycles (s : Machine) (op : Nat) (hint : interrupt_pending s = false)
    (hop : (read_mem s s.pc).1 = op) (hbr : op ∈ branch_opcodes)
    (hwf : regs_wf s) (hcyc : s.cycle_count + 4 < 18446744073709551616) :
    (step s).1 = 0 ∧
    (branch_taken op s = false → (step s).2.cycle_count = s.cycle_count + 2) ∧
    (branch_taken op s = true → (step s).2.pc / 256 = u64 (u64 (s.pc + 1) + 1) / 256 →
      (step s).2.cycle_count = s.cycle_count + 3) ∧
    (branch_taken op s = true → (step s).2.pc / 256 ≠ u64 (u64 (s.pc + 1) + 1) / 256 →
      (step s).2.cycle_count = s.cycle_count + 4) := by
  obtain ⟨i, hdec, hrun⟩ := branch_decode s op hbr
  have h := step_short_jump s i (branch_taken op s) hint (by rw [hop]; exact hdec) hrun hwf hcyc
  exact ⟨h.1, fun hc => (h.2.1 hc).1, fun hc => (h.2.2 hc).2.1, fun hc => (h.2.2 hc).2.2⟩

/-- C5 (amended): for every 16-bit address a and byte b, `add_signed_offset(a, b)` is
a + s reduced modulo 2^64 (the width of `unsigned long`), not modulo 0x10000, where
s in [-128, 127] is b read as a signed 8-bit displacement; it is the 16-bit address
a + s whenever 0 <= a + s < 0x10000; and a taken branch sets PC to exactly this
value computed from the address of the instruction following the branch. -/
theorem add_signed_offset_spec (a b : Nat) (ha : a < 0x10000) (hb : b < 256)
    (s : Machine) (op : Nat) (hint : interrupt_pending s = false)
    (hop : (read_mem s s.pc).1 = op) (hbr : op ∈ branch_opcodes) (hwf : regs_wf s)
    (hcyc : s.cycle_count + 4 < 18446744073709551616) (ht : branch_taken op s = true) :
    (add_signed_offset a b : Int) = ((a : Int) + signed8 b) % 18446744073709551616 ∧
    (0 ≤ (a : Int) + signed8 b → (a : Int) + signed8 b < 0x10000 →
      (add_signed_offset a b : Int) = (a : Int) + signed8 b) ∧
    (step s).2.pc = add_signed_offset (u64 (u64 (s.pc + 1) + 1))
                      (read_mem (m_rel (fetch s)) (u64 (s.pc + 1))).1 := by
  refine ⟨?_, ?_, ?_⟩
  · unfold add_signed_offset signed8 u64 u32
    simp only [Nat.mod_eq_of_lt hb]
    split_ifs <;> omega
  · intro h0 h1
    unfold add_signed_offset u64 u32
    unfold signed8 at h0 h1 ⊢
    simp only [Nat.mod_eq_of_lt hb]
    split_ifs at h0 h1 ⊢ <;> omega
  · obtain ⟨i, hdec, hrun⟩ := branch_decode s op hbr
    have h := step_short_jump s i (branch_taken op s) hint (by rw [hop]; exact hdec) hrun hwf hcyc
    have harg : (m_rel (fetch s)).arg = u64 (s.pc + 1) := by rw [m_rel_eq, fetch_eq]
    have h2 := (h.2.2 ht).1
    rw [harg] at h2
    exact h2

/-! ## Cycle accounting -/

theorem set_arg_zero (s : Machine) (a : Nat) : set_arg s a 0 = { s with arg := a } := rfl

theorem set_arg_one (s : Machine) (a : Nat) :
    set_arg s a 1 = { s with arg := a, pc := u64 (s.pc + 1) } := rfl

theorem set_arg_two (s : Machine) (a : Nat) :
    set_arg s a 2 = { s with arg := a, pc := u64 (u64 (s.pc + 1) + 1) } := rfl

theorem beq_adr_ra_of_lt (a : Nat) (h : a < 0x10000) : (a == adr_ra) = false := by
  unfold adr_ra
  rw [beq_eq_false_iff_ne]
  omega

theorem carry_eq_crossed (hi lo x : Nat) (hlo : lo < 256) (hx : x < 256) :
    (add_with_carry lo x).2 = decide ((hi * 256 + lo + x) / 256 ≠ (hi * 256 + lo) / 256) := by
  unfold add_with_carry u32
  simp only []
  rw [decide_eq_decide]
  omega

/-- What each addressing mode leaves in the timing variables. -/
theorem run_mode_frame (m : Mode) (s : Machine) (hwf : regs_wf s) :
    (run_mode m s).cycle_count = s.cycle_count ∧ (run_mode m s).sp = s.sp ∧
    (run_mode m s).r_cyc = mode_r_cyc m (page_crossed m s) ∧
    (run_mode m s).w_cyc = mode_w_cyc m s.w_cyc ∧
    (m ≠ Mode.imm → m ≠ Mode.rel → ((run_mode m s).arg == adr_ra) = (m == Mode.acc)) := by
  obtain ⟨hra, hrx, hry, hrp, hsp⟩ := hwf
  cases m
  case imp => exact ⟨rfl, rfl, rfl, rfl, fun _ _ => rfl⟩
  case acc => exact ⟨rfl, rfl, rfl, rfl, fun _ _ => rfl⟩
  case imm => exact ⟨rfl, rfl, rfl, rfl, fun h _ => absurd rfl h⟩
  case rel => exact ⟨rfl, rfl, rfl, rfl, fun _ h => absurd rfl h⟩
  case zpg =>
    simp only [run_mode, m_zpg, set_arg_one, read_mem_cycle_count, read_mem_sp, read_mem_r_cyc,
      read_mem_w_cyc, mode_r_cyc, mode_w_cyc]
    refine ⟨trivial, trivial, trivial, trivial, fun _ _ => ?_⟩
    exact beq_adr_ra_of_lt _ (by have := read_mem_fst_lt_of_wf { s with r_cyc := 1, w_cyc := 1 } s.pc ⟨hra, hrx, hry, hrp, hsp⟩; omega)
  case zpx =>
    simp only [run_mode, m_zpx, set_arg_one, read_mem_cycle_count, read_mem_sp, read_mem_r_cyc,
      read_mem_w_cyc, mode_r_cyc, mode_w_cyc]
    refine ⟨trivial, trivial, trivial, trivial, fun _ _ => ?_⟩
    exact beq_adr_ra_of_lt _ (by omega)
  case zpy =>
    simp only [run_mode, m_zpy, set_arg_one, read_mem_cycle_count, read_mem_sp, read_mem_r_cyc,
      read_mem_w_cyc, mode_r_cyc, mode_w_cyc]
    refine ⟨trivial, trivial, trivial, trivial, fun _ _ => ?_⟩
    exact beq_adr_ra_of_lt _ (by omega)
  case abs =>
    rw [run_mode, m_abs_eq]
    simp only [mode_r_cyc, mode_w_cyc]
    refine ⟨trivial, trivial, trivial, trivial, fun _ _ => ?_⟩
    exact beq_adr_ra_of_lt _ (read_mem_2_fst_lt _ _)
  case abx =>
    have hlo := read_mem_fst_lt_of_wf s s.pc ⟨hra, hrx, hry, hrp, hsp⟩
    simp only [run_mode, m_abx, set_arg_two, read_mem_cycle_count, read_mem_sp, read_mem_r_cyc,
      read_mem_w_cyc, read_mem_rx, read_mem_pc, mode_r_cyc, mode_w_cyc, page_crossed]
    refine ⟨trivial, trivial, ?_, trivial, fun _ _ => ?_⟩
    · rw [carry_eq_crossed _ _ _ hlo hrx]
    · exact beq_adr_ra_of_lt _ (make_adr_lt _ _)
  case aby =>
    have hlo := read_mem_fst_lt_of_wf s s.pc ⟨hra, hrx, hry, hrp, hsp⟩
    simp only [run_mode, m_aby, set_arg_two, read_mem_cycle_count, read_mem_sp, read_mem_r_cyc,
      read_mem_w_cyc, read_mem_ry, read_mem_pc, mode_r_cyc, mode_w_cyc, page_crossed]
    refine ⟨trivial, trivial, ?_, trivial, fun _ _ => ?_⟩
    · rw [carry_eq_crossed _ _ _ hlo hry]
    · exact beq_adr_ra_of_lt _ (make_adr_lt _ _)
  case ind =>
    simp only [run_mode, m_ind, set_arg_two, mode_r_cyc, mode_w_cyc]
    rw [read_mem_2_snd, read_mem_2_snd s]
    refine ⟨rfl, rfl, trivial, rfl, fun _ _ => ?_⟩
    exact beq_adr_ra_of_lt _ (read_mem_2_fst_lt _ _)
  case inx =>
    simp only [run_mode, m_inx, set_arg_one, mode_r_cyc, mode_w_cyc]
    rw [read_mem_2_snd]
    simp only [read_mem_cycle_count, read_mem_sp, read_mem_r_cyc, read_mem_w_cyc]
    refine ⟨trivial, trivial, trivial, trivial, fun _ _ => ?_⟩
    exact beq_adr_ra_of_lt _ (read_mem_2_fst_lt _ _)
  case iny =>
    have hz : (read_mem (read_mem s s.pc).2 (read_mem s s.pc).1).1 < 256 :=
      read_mem_fst_lt_of_wf _ _ (by rw [read_mem_snd]; exact ⟨hra, hrx, hry, hrp, hsp⟩)
    simp only [run_mode, m_iny, set_arg_one, read_mem_cycle_count, read_mem_sp, read_mem_r_cyc,
      read_mem_w_cyc, read_mem_ry, read_mem_pc, mode_r_cyc, mode_w_cyc, page_crossed]
    refine ⟨trivial, trivial, ?_, trivial, fun _ _ => ?_⟩
    · rw [carry_eq_crossed _ _ _ hz hry]
    · exact beq_adr_ra_of_lt _ (make_adr_lt _ _)

theorem set_with_flags_eq (s : Machine) (a v : Nat) :
    set_with_flags s a v
      = { write_mem s a (v % 256) with
          rp := set_bit (set_bit (write_mem s a (v % 256)).rp 1 (v % 256 == 0)) 7
                  (get_bit (v % 256) 7 == 1) } := rfl

theorem set_with_flags_cycle_count (s : Machine) (a v : Nat) (h : a ≠ 0x4014) :
    (set_with_flags s a v).cycle_count = s.cycle_count := by
  rw [set_with_flags_eq]
  exact write_mem_cycle_count s a _ h

theorem set_with_flags_r_cyc (s : Machine) (a v : Nat) (h : a ≠ 0x4014) :
    (set_with_flags s a v).r_cyc = s.r_cyc := by
  rw [set_with_flags_eq]
  exact write_mem_r_cyc s a _ h

theorem set_with_flags_w_cyc (s : Machine) (a v : Nat) (h : a ≠ 0x4014) :
    (set_with_flags s a v).w_cyc = s.w_cyc := by
  rw [set_with_flags_eq]
  exact write_mem_w_cyc s a _ h

theorem set_with_flags_arg (s : Machine) (a v : Nat) (h : a ≠ 0x4014) :
    (set_with_flags s a v).arg = s.arg := by
  rw [set_with_flags_eq]
  exact write_mem_arg s a _ h


theorem i_lda_cycles (s : Machine) :
    (i_lda s).cycle_count = u64 (s.cycle_count + u32 (2 + s.r_cyc)) := by
  unfold i_lda
  simp only [add_cycles]
  rw [set_with_flags_cycle_count _ _ _ (by decide), set_with_flags_r_cyc _ _ _ (by decide),
    read_mem_cycle_count, read_mem_r_cyc]

theorem i_ldx_cycles (s : Machine) :
    (i_ldx s).cycle_count = u64 (s.cycle_count + u32 (2 + s.r_cyc)) := by
  unfold i_ldx
  simp only [add_cycles]
  rw [set_with_flags_cycle_count _ _ _ (by decide), set_with_flags_r_cyc _ _ _ (by decide),
    read_mem_cycle_count, read_mem_r_cyc]

theorem i_ldy_cycles (s : Machine) :
    (i_ldy s).cycle_count = u64 (s.cycle_count + u32 (2 + s.r_cyc)) := by
  unfold i_ldy
  simp only [add_cycles]
  rw [set_with_flags_cycle_count _ _ _ (by decide), set_with_flags_r_cyc _ _ _ (by decide),
    read_mem_cycle_count, read_mem_r_cyc]

theorem i_and_cycles (s : Machine) :
    (i_and s).cycle_count = u64 (s.cycle_count + u32 (2 + s.r_cyc)) := by
  unfold i_and
  simp only [add_cycles]
  rw [set_with_flags_cycle_count _ _ _ (by decide), set_with_flags_r_cyc _ _ _ (by decide),
    read_mem_cycle_count, read_mem_r_cyc]

theorem i_eor_cycles (s : Machine) :
    (i_eor s).cycle_count = u64 (s.cycle_count + u32 (2 + s.r_cyc)) := by
  unfold i_eor
  simp only [add_cycles]
  rw [set_with_flags_cycle_count _ _ _ (by decide), set_with_flags_r_cyc _ _ _ (by decide),
    read_mem_cycle_count, read_mem_r_cyc]

theorem i_ora_cycles (s : Machine) :
    (i_ora s).cycle_count = u64 (s.cycle_count + u32 (2 + s.r_cyc)) := by
  unfold i_ora
  simp only [add_cycles]
  rw [set_with_flags_cycle_count _ _ _ (by decide), set_with_flags_r_cyc _ _ _ (by decide),
    read_mem_cycle_count, read_mem_r_cyc]

theorem i_bit_cycles (s : Machine) :
    (i_bit s).cycle_count = u64 (s.cycle_count + u32 (2 + s.r_cyc)) := by
  unfold i_bit
  simp only [add_cycles, set_zero_flag, set_negative_flag, set_carry_flag, set_overflow_flag, set_break_flag, set_interrupt_disable_flag, read_mem_cycle_count, read_mem_r_cyc]

theorem i_cmp_cycles (s : Machine) :
    (i_cmp s).cycle_count = u64 (s.cycle_count + u32 (2 + s.r_cyc)) := by
  unfold i_cmp
  simp only [add_cycles, set_zero_flag, set_negative_flag, set_carry_flag, set_overflow_flag, set_break_flag, set_interrupt_disable_flag, read_mem_cycle_count, read_mem_r_cyc]

theorem i_cpx_cycles (s : Machine) :
    (i_cpx s).cycle_count = u64 (s.cycle_count + u32 (2 + s.r_cyc)) := by
  unfold i_cpx
  simp only [add_cycles, set_zero_flag, set_negative_flag, set_carry_flag, set_overflow_flag, set_break_flag, set_interrupt_disable_flag, read_mem_cycle_count, read_mem_r_cyc]

theorem i_cpy_cycles (s : Machine) :
    (i_cpy s).cycle_count = u64 (s.cycle_count + u32 (2 + s.r_cyc)) := by
  unfold i_cpy
  simp only [add_cycles, set_zero_flag, set_negative_flag, set_carry_flag, set_overflow_flag, set_break_flag, set_interrupt_disable_flag, read_mem_cycle_count, read_mem_r_cyc]

theorem i_adc_cycles (s : Machine) :
    (i_adc s).cycle_count = u64 (s.cycle_count + u32 (2 + s.r_cyc)) := by
  unfold i_adc
  simp only [add_cycles, set_zero_flag, set_negative_flag, set_carry_flag, set_overflow_flag, set_break_flag, set_interrupt_disable_flag, apply_ite Machine.cycle_count, apply_ite Machine.r_cyc,
    apply_ite Machine.rp, ite_self]
  rw [set_with_flags_cycle_count _ _ _ (by decide), set_with_flags_r_cyc _ _ _ (by decide),
    read_mem_cycle_count, read_mem_r_cyc]

theorem i_sbc_cycles (s : Machine) :
    (i_sbc s).cycle_count = u64 (s.cycle_count + u32 (2 + s.r_cyc)) := by
  unfold i_sbc
  simp only [add_cycles, set_zero_flag, set_negative_flag, set_carry_flag, set_overflow_flag, set_break_flag, set_interrupt_disable_flag, apply_ite Machine.cycle_count, apply_ite Machine.r_cyc,
    apply_ite Machine.rp, ite_self]
  rw [set_with_flags_cycle_count _ _ _ (by decide), set_with_flags_r_cyc _ _ _ (by decide),
    read_mem_cycle_count, read_mem_r_cyc]

theorem i_tax_cycles (s : Machine) :
    (i_tax s).cycle_count = u64 (s.cycle_count + u32 (2)) := by
  unfold i_tax
  simp only [add_cycles]
  rw [set_with_flags_cycle_count _ _ _ (by decide)]

theorem i_tay_cycles (s : Machine) :
    (i_tay s).cycle_count = u64 (s.cycle_count + u32 (2)) := by
  unfold i_tay
  simp only [add_cycles]
  rw [set_with_flags_cycle_count _ _ _ (by decide)]

theorem i_txa_cycles (s : Machine) :
    (i_txa s).cycle_count = u64 (s.cycle_count + u32 (2)) := by
  unfold i_txa
  simp only [add_cycles]
  rw [set_with_flags_cycle_count _ _ _ (by decide)]

theorem i_tya_cycles (s : Machine) :
    (i_tya s).cycle_count = u64 (s.cycle_count + u32 (2)) := by
  unfold i_tya
  simp only [add_cycles]
  rw [set_with_flags_cycle_count _ _ _ (by decide)]

theorem i_tsx_cycles (s : Machine) :
    (i_tsx s).cycle_count = u64 (s.cycle_count + u32 (2)) := by
  unfold i_tsx
  simp only [add_cycles]
  rw [set_with_flags_cycle_count _ _ _ (by decide)]

theorem i_inx_cycles (s : Machine) :
    (i_inx s).cycle_count = u64 (s.cycle_count + u32 (2)) := by
  unfold i_inx
  simp only [add_cycles]
  rw [set_with_flags_cycle_count _ _ _ (by decide)]

theorem i_dex_cycles (s : Machine) :
    (i_dex s).cycle_count = u64 (s.cycle_count + u32 (2)) := by
  unfold i_dex
  simp only [add_cycles]
  rw [set_with_flags_cycle_count _ _ _ (by decide)]

theorem i_iny_cycles (s : Machine) :
    (i_iny s).cycle_count = u64 (s.cycle_count + u32 (2)) := by
  unfold i_iny
  simp only [add_cycles]
  rw [set_with_flags_cycle_count _ _ _ (by decide)]

theorem i_dey_cycles (s : Machine) :
    (i_dey s).cycle_count = u64 (s.cycle_count + u32 (2)) := by
  unfold i_dey
  simp only [add_cycles]
  rw [set_with_flags_cycle_count _ _ _ (by decide)]

theorem i_txs_cycles (s : Machine) :
    (i_txs s).cycle_count = u64 (s.cycle_count + u32 (2)) := by
  rfl

theorem i_clc_cycles (s : Machine) :
    (i_clc s).cycle_count = u64 (s.cycle_count + u32 (2)) := by
  rfl

theorem i_sec_cycles (s : Machine) :
    (i_sec s).cycle_count = u64 (s.cycle_count + u32 (2)) := by
  rfl

theorem i_clv_cycles (s : Machine) :
    (i_clv s).cycle_count = u64 (s.cycle_count + u32 (2)) := by
  rfl

theorem i_cld_cycles (s : Machine) :
    (i_cld s).cycle_count = u64 (s.cycle_count + u32 (2)) := by
  rfl

theorem i_sed_cycles (s : Machine) :
    (i_sed s).cycle_count = u64 (s.cycle_count + u32 (2)) := by
  rfl

theorem i_cli_cycles (s : Machine) :
    (i_cli s).cycle_count = u64 (s.cycle_count + u32 (2)) := by
  rfl

theorem i_sei_cycles (s : Machine) :
    (i_sei s).cycle_count = u64 (s.cycle_count + u32 (2)) := by
  rfl

theorem i_nop_cycles (s : Machine) :
    (i_nop s).cycle_count = u64 (s.cycle_count + u32 (2 + s.r_cyc)) := by
  rfl

theorem i_jmp_cycles (s : Machine) :
    (i_jmp s).cycle_count = u64 (s.cycle_count + u32 (1 + s.r_cyc)) := by
  rfl

theorem i_sta_cycles (s : Machine) (h : s.arg ≠ 0x4014) :
    (i_sta s).cycle_count = u64 (s.cycle_count + u32 (2 + s.w_cyc)) := by
  unfold i_sta
  simp only [add_cycles]
  rw [write_mem_cycle_count _ _ _ h]

theorem i_stx_cycles (s : Machine) (h : s.arg ≠ 0x4014) :
    (i_stx s).cycle_count = u64 (s.cycle_count + u32 (2 + s.r_cyc)) := by
  unfold i_stx
  simp only [add_cycles]
  rw [write_mem_cycle_count _ _ _ h]

theorem i_sty_cycles (s : Machine) (h : s.arg ≠ 0x4014) :
    (i_sty s).cycle_count = u64 (s.cycle_count + u32 (2 + s.r_cyc)) := by
  unfold i_sty
  simp only [add_cycles]
  rw [write_mem_cycle_count _ _ _ h]

theorem i_inc_cycles (s : Machine) (h : s.arg ≠ 0x4014) :
    (i_inc s).cycle_count = u64 (s.cycle_count + u32 (4 + s.w_cyc)) := by
  unfold i_inc
  simp only [add_cycles, read_mem_arg]
  rw [set_with_flags_cycle_count _ _ _ h, set_with_flags_w_cyc _ _ _ h,
    read_mem_cycle_count, read_mem_w_cyc]

theorem i_dec_cycles (s : Machine) (h : s.arg ≠ 0x4014) :
    (i_dec s).cycle_count = u64 (s.cycle_count + u32 (4 + s.w_cyc)) := by
  unfold i_dec
  simp only [add_cycles, read_mem_arg]
  rw [set_with_flags_cycle_count _ _ _ h, set_with_flags_w_cyc _ _ _ h,
    read_mem_cycle_count, read_mem_w_cyc]

theorem i_asl_cycles (s : Machine) (h : s.arg ≠ 0x4014) :
    (i_asl s).cycle_count = u64 (s.cycle_count + u32 (if s.arg = adr_ra then 2 else 4 + s.w_cyc)) := by
  unfold i_asl
  simp only [add_cycles, set_carry_flag, read_mem_arg]
  rw [set_with_flags_cycle_count _ _ _ h, set_with_flags_w_cyc _ _ _ h,
    set_with_flags_arg _ _ _ h]
  simp only [read_mem_cycle_count, read_mem_w_cyc, read_mem_arg]

theorem i_lsr_cycles (s : Machine) (h : s.arg ≠ 0x4014) :
    (i_lsr s).cycle_count = u64 (s.cycle_count + u32 (if s.arg = adr_ra then 2 else 4 + s.w_cyc)) := by
  unfold i_lsr
  simp only [add_cycles, set_carry_flag, read_mem_arg]
  rw [set_with_flags_cycle_count _ _ _ h, set_with_flags_w_cyc _ _ _ h,
    set_with_flags_arg _ _ _ h]
  simp only [read_mem_cycle_count, read_mem_w_cyc, read_mem_arg]

theorem i_rol_cycles (s : Machine) (h : s.arg ≠ 0x4014) :
    (i_rol s).cycle_count = u64 (s.cycle_count + u32 (if s.arg = adr_ra then 2 else 4 + s.w_cyc)) := by
  unfold i_rol
  simp only [add_cycles, set_carry_flag, read_mem_arg]
  rw [set_with_flags_cycle_count _ _ _ h, set_with_flags_w_cyc _ _ _ h,
    set_with_flags_arg _ _ _ h]
  simp only [read_mem_cycle_count, read_mem_w_cyc, read_mem_arg]

theorem i_ror_cycles (s : Machine) (h : s.arg ≠ 0x4014) :
    (i_ror s).cycle_count = u64 (s.cycle_count + u32 (if s.arg = adr_ra then 2 else 4 + s.w_cyc)) := by
  unfold i_ror
  simp only [add_cycles, set_carry_flag, read_mem_arg]
  rw [set_with_flags_cycle_count _ _ _ h, set_with_flags_w_cyc _ _ _ h,
    set_with_flags_arg _ _ _ h]
  simp only [read_mem_cycle_count, read_mem_w_cyc, read_mem_arg]

theorem i_pha_cycles (s : Machine) (h : s.sp < 256) :
    (i_pha s).cycle_count = u64 (s.cycle_count + u32 (3)) := by
  unfold i_pha
  rw [push_eq _ _ h]
  rfl

theorem i_php_cycles (s : Machine) (h : s.sp < 256) :
    (i_php s).cycle_count = u64 (s.cycle_count + u32 (3)) := by
  rw [i_php_eq _ h]

theorem i_plp_cycles (s : Machine) :
    (i_plp s).cycle_count = u64 (s.cycle_count + u32 (4)) := by
  rw [i_plp_eq]

theorem i_pla_cycles (s : Machine) :
    (i_pla s).cycle_count = u64 (s.cycle_count + u32 (4)) := by
  unfold i_pla
  rw [pull_eq]
  simp only [add_cycles]
  rw [set_with_flags_cycle_count _ _ _ (by decide)]

theorem i_jsr_cycles (s : Machine) (h : s.sp < 256) :
    (i_jsr s).cycle_count = u64 (s.cycle_count + u32 (4 + s.r_cyc)) := by
  rw [i_jsr_eq _ h]

theorem i_rts_cycles (s : Machine) :
    (i_rts s).cycle_count = u64 (s.cycle_count + u32 (6)) := by
  rw [i_rts_eq]

theorem i_rti_cycles (s : Machine) :
    (i_rti s).cycle_count = u64 (s.cycle_count + u32 (6)) := by
  unfold i_rti
  rw [pull_eq]
  simp only []
  rw [pull_adr_eq]
  simp only [add_cycles]

theorem i_brk_cycles (s : Machine) (h : s.sp < 256) :
    (i_brk s).cycle_count = u64 (s.cycle_count + u32 (7)) := by
  unfold i_brk
  simp only []
  rw [push_adr_eq _ _ h]
  simp only []
  rw [push_eq _ _ (Nat.mod_lt _ (by decide))]
  simp only [add_cycles, set_zero_flag, set_negative_flag, set_carry_flag, set_overflow_flag, set_break_flag, set_interrupt_disable_flag]
  rw [read_mem_2_snd]


/-- Every instruction other than the branches and ISC adds its `billed` amount to
the cycle budget, provided a store or read-modify-write does not hit 0x4014. -/
theorem run_instr_cycles (i : Instr) (s : Machine) (k : Nat)
    (hb : billed i s.r_cyc s.w_cyc (s.arg == adr_ra) = some k) (hsp : s.sp < 256)
    (hdma : writes_operand i = true → s.arg ≠ 0x4014) :
    (run_instr i s).cycle_count = u64 (s.cycle_count + u32 k) := by
  cases i
  case lda => cases hb; exact i_lda_cycles s
  case ldx => cases hb; exact i_ldx_cycles s
  case ldy => cases hb; exact i_ldy_cycles s
  case and => cases hb; exact i_and_cycles s
  case eor => cases hb; exact i_eor_cycles s
  case ora => cases hb; exact i_ora_cycles s
  case bit => cases hb; exact i_bit_cycles s
  case cmp => cases hb; exact i_cmp_cycles s
  case cpx => cases hb; exact i_cpx_cycles s
  case cpy => cases hb; exact i_cpy_cycles s
  case adc => cases hb; exact i_adc_cycles s
  case sbc => cases hb; exact i_sbc_cycles s
  case tax => cases hb; exact i_tax_cycles s
  case tay => cases hb; exact i_tay_cycles s
  case txa => cases hb; exact i_txa_cycles s
  case tya => cases hb; exact i_tya_cycles s
  case tsx => cases hb; exact i_tsx_cycles s
  case inx => cases hb; exact i_inx_cycles s
  case dex => cases hb; exact i_dex_cycles s
  case iny => cases hb; exact i_iny_cycles s
  case dey => cases hb; exact i_dey_cycles s
  case txs => cases hb; exact i_txs_cycles s
  case clc => cases hb; exact i_clc_cycles s
  case sec => cases hb; exact i_sec_cycles s
  case clv => cases hb; exact i_clv_cycles s
  case cld => cases hb; exact i_cld_cycles s
  case sed => cases hb; exact i_sed_cycles s
  case cli => cases hb; exact i_cli_cycles s
  case sei => cases hb; exact i_sei_cycles s
  case nop => cases hb; exact i_nop_cycles s
  case jmp => cases hb; exact i_jmp_cycles s
  case plp => cases hb; exact i_plp_cycles s
  case pla => cases hb; exact i_pla_cycles s
  case rts => cases hb; exact i_rts_cycles s
  case rti => cases hb; exact i_rti_cycles s
  case sta => cases hb; exact i_sta_cycles s (hdma rfl)
  case stx => cases hb; exact i_stx_cycles s (hdma rfl)
  case sty => cases hb; exact i_sty_cycles s (hdma rfl)
  case inc => cases hb; exact i_inc_cycles s (hdma rfl)
  case dec => cases hb; exact i_dec_cycles s (hdma rfl)
  case asl =>
    cases hb
    rw [show run_instr Instr.asl = i_asl from rfl, i_asl_cycles s (hdma rfl)]
    by_cases ha : s.arg = adr_ra
    · rw [if_pos ha, ha]; rfl
    · rw [if_neg ha, beq_eq_false_iff_ne.mpr ha]; rfl
  case lsr =>
    cases hb
    rw [show run_instr Instr.lsr = i_lsr from rfl, i_lsr_cycles s (hdma rfl)]
    by_cases ha : s.arg = adr_ra
    · rw [if_pos ha, ha]; rfl
    · rw [if_neg ha, beq_eq_false_iff_ne.mpr ha]; rfl
  case rol =>
    cases hb
    rw [show run_instr Instr.rol = i_rol from rfl, i_rol_cycles s (hdma rfl)]
    by_cases ha : s.arg = adr_ra
    · rw [if_pos ha, ha]; rfl
    · rw [if_neg ha, beq_eq_false_iff_ne.mpr ha]; rfl
  case ror =>
    cases hb
    rw [show run_instr Instr.ror = i_ror from rfl, i_ror_cycles s (hdma rfl)]
    by_cases ha : s.arg = adr_ra
    · rw [if_pos ha, ha]; rfl
    · rw [if_neg ha, beq_eq_false_iff_ne.mpr ha]; rfl
  case pha => cases hb; exact i_pha_cycles s hsp
  case php => cases hb; exact i_php_cycles s hsp
  case jsr => cases hb; exact i_jsr_cycles s hsp
  case brk => cases hb; exact i_brk_cycles s hsp
  case bcc => cases hb
  case bcs => cases hb
  case bpl => cases hb
  case bmi => cases hb
  case bne => cases hb
  case beq => cases hb
  case bvc => cases hb
  case bvs => cases hb
  case isc => cases hb

theorem billed_acc_irrelevant (i : Instr) (r w : Nat) (a b : Bool)
    (h : writes_operand i = false) : billed i r w a = billed i r w b := by
  cases i <;> first | rfl | cases h

theorem billed_jmp (r w w2 : Nat) (a : Bool) :
    billed Instr.jmp r w a = billed Instr.jmp r w2 a := rfl

theorem documented_timing_ok : documented_timing.all timing_ok = true := by decide

theorem mode_w_cyc_of_ne_ind (m : Mode) (w w2 : Nat) (h : m ≠ Mode.ind) :
    mode_w_cyc m w = mode_w_cyc m w2 := by
  cases m <;> first | rfl | exact absurd rfl h

theorem fetch_wf (s : Machine) (h : regs_wf s) : regs_wf (fetch s) := by
  rw [fetch_eq]; exact h

/-- C1: for every official 6502 opcode other than the eight branches, when `step`
fetches it with a zero cycle budget and no interrupt pending, and a store or
read-modify-write instruction does not write 0x4014, the cycles billed equal the
documented cost for the opcode and addressing mode: the base cost, plus exactly
one cycle when an AbsoluteX, AbsoluteY or IndirectIndexedY read crosses a page;
stores and read-modify-write forms have their fixed cost whether or not a page is
crossed. -/
theorem step_cycles_documented (s : Machine) (op : Nat) (m : Mode) (base : Nat) (pen : Bool)
    (hint : interrupt_pending s = false) (hbudget : s.cycle_count = 0) (hwf : regs_wf s)
    (hop : (read_mem s s.pc).1 = op)
    (hdoc : (op, m, base, pen) ∈ documented_timing)
    (hdma : ∀ i, decode op = some (m, i) → writes_operand i = true →
      (run_mode m (fetch s)).arg ≠ 0x4014) :
    (step s).1 = 0 ∧
    (step s).2.cycle_count
      = base + (if pen = true ∧ page_crossed m (fetch s) = true then 1 else 0) := by
  have hok := List.all_eq_true.mp documented_timing_ok _ hdoc
  unfold timing_ok at hok
  simp only [] at hok
  cases hdec : decode op with
  | none => rw [hdec] at hok; cases hok
  | some mi =>
    obtain ⟨m', i⟩ := mi
    rw [hdec] at hok
    simp only [Bool.and_eq_true, beq_iff_eq, decide_eq_true_eq, bne_iff_ne, ne_eq,
      Bool.or_eq_true, Bool.not_eq_true', List.all_cons, List.all_nil, Bool.and_true,
      Bool.and_false, Bool.false_eq_true, if_false, Nat.add_zero, if_true] at hok
    obtain ⟨⟨⟨⟨⟨hm, hbase⟩, hrel⟩, himm⟩, hb0, hb1⟩, hind⟩ := hok
    subst hm
    have hframe := run_mode_frame m' (fetch s) (fetch_wf s hwf)
    obtain ⟨hcc, hspf, hr, hw, hacc⟩ := hframe
    have hcc0 : (run_mode m' (fetch s)).cycle_count = 0 := by
      rw [hcc, fetch_eq]; exact hbudget
    have hsp : (run_mode m' (fetch s)).sp < 256 := by
      rw [hspf, fetch_eq]; exact hwf.2.2.2.2
    -- the billed amount, for the carry the addressing mode produced
    have hbill : billed i (run_mode m' (fetch s)).r_cyc (run_mode m' (fetch s)).w_cyc
        ((run_mode m' (fetch s)).arg == adr_ra)
        = some (base + if pen = true ∧ page_crossed m' (fetch s) = true then 1 else 0) := by
      rw [hr, hw]
      have hwc : billed i (mode_r_cyc m' (page_crossed m' (fetch s)))
            (mode_w_cyc m' (fetch s).w_cyc) ((run_mode m' (fetch s)).arg == adr_ra)
          = billed i (mode_r_cyc m' (page_crossed m' (fetch s))) (mode_w_cyc m' 0)
              (m' == Mode.acc) := by
        have e1 : billed i (mode_r_cyc m' (page_crossed m' (fetch s)))
              (mode_w_cyc m' (fetch s).w_cyc) ((run_mode m' (fetch s)).arg == adr_ra)
            = billed i (mode_r_cyc m' (page_crossed m' (fetch s)))
                (mode_w_cyc m' (fetch s).w_cyc) (m' == Mode.acc) := by
          by_cases hm : m' = Mode.imm
          · rcases himm with h | h
            · exact absurd hm h
            · exact billed_acc_irrelevant _ _ _ _ _ h
          · rw [hacc hm hrel]
        rw [e1]
        by_cases hm : m' = Mode.ind
        · rcases hind with h | h
          · exact absurd hm h
          · rw [h]; exact billed_jmp _ _ _ _
        · rw [mode_w_cyc_of_ne_ind m' _ 0 hm]
      rw [hwc]
      cases hpc : page_crossed m' (fetch s)
      · rw [hb0]; simp only [and_false, Bool.false_eq_true]
      · rw [hb1]; simp only [and_true]
    have hk : (base + if pen = true ∧ page_crossed m' (fetch s) = true then 1 else 0) ≤ 8 := by
      split_ifs <;> omega
    have hrun := run_instr_cycles i (run_mode m' (fetch s)) _ hbill hsp (hdma i hdec)
    rw [step_exec s m' i hint (by rw [hop]; exact hdec)]
    refine ⟨rfl, ?_⟩
    simp only []
    rw [hrun, hcc0]
    unfold u64 u32
    omega
end general

/-! ## Concrete scenarios -/

/-- Witness of C2: after `ADC #$50` with A = 0x50 and carry clear: A = 0xA0, N = 1, V = 1, C = 0,
Z = 0, in 2 cycles. -/
theorem adc_spec_witness :
    (step adc_scenario).2.ra = 0xa0 ∧ (step adc_scenario).2.cycle_count = 2 ∧
    get_negative_flag (step adc_scenario).2 = true ∧
    get_overflow_flag (step adc_scenario).2 = true ∧
    get_carry_flag (step adc_scenario).2 = false ∧
    get_zero_flag (step adc_scenario).2 = false ∧
    (i_adc (m_imm (fetch adc_scenario))).ra = (0x50 + 0x50 + false.toNat) % 256 ∧
    get_overflow_flag (i_adc (m_imm (fetch adc_scenario))) = true :=
  have h := adc_spec (m_imm (fetch adc_scenario)) 0x50 0x50 false (by decide) (by decide)
    (by decide) (by decide) (by decide)
  ⟨by decide, by decide, by decide, by decide, by decide, by decide, h.1,
    h.2.2.1.trans (by decide)⟩

/-- Witness of C3: after `SBC #$F0` with A = 0x50 and carry clear: A = 0x5F, borrow (C = 0), no overflow. -/
theorem sbc_spec_witness :
    (step sbc_scenario).2.ra = 0x5f ∧
    (((i_sbc (m_imm (fetch sbc_scenario))).ra : Nat) : Int)
      = ((0x50 : Int) - (0xf0 : Nat) - (1 - (false.toNat : Int))) % 256 ∧
    get_carry_flag (i_sbc (m_imm (fetch sbc_scenario))) = false ∧
    get_overflow_flag (i_sbc (m_imm (fetch sbc_scenario))) = false :=
  have h := sbc_spec (m_imm (fetch sbc_scenario)) 0x50 0xf0 false (by decide) (by decide)
    (by decide) (by decide) (by decide)
  ⟨by decide, h.1, h.2.1.trans (by decide), h.2.2.1.trans (by decide)⟩

/-- Witness of C4: a taken `BNE` from 0x00FD to 0x0104 bills 4 cycles. -/
theorem branch_cycles_witness :
    branch_taken 0xd0 branch_scenario = true ∧
    (step branch_scenario).2.pc = 0x104 ∧
    (step branch_scenario).2.cycle_count = 4 :=
  have h := branch_cycles branch_scenario 0xd0 (by decide) (by decide) (by decide) (by decide)
    (by decide)
  ⟨by decide, by decide, (h.2.2.2 (by decide) (by decide)).trans (by decide)⟩

/-- Counterexample to C5 as stated: `add_signed_offset(0xFFFF, 0x01)` is 0x10000, not
the 16-bit address (0xFFFF + 1) mod 0x10000 = 0. -/
theorem add_signed_offset_not_mod_0x10000 :
    (add_signed_offset 0xffff 0x01 : Int) ≠ ((0xffff : Int) + signed8 0x01) % 0x10000 := by
  decide

/-- Witness of C5 (amended): 0x00FF + 5 stays in range, 0xFFFF + 1 is 0x10000, and the
taken branch of the scenario lands on `add_signed_offset(0x00FF, 0x05)`. -/
theorem add_signed_offset_spec_witness :
    (add_signed_offset 0x00ff 0x05 : Int) = (0x00ff : Int) + signed8 0x05 ∧
    (add_signed_offset 0xffff 0x01 : Int) = 0x10000 ∧
    (step branch_scenario).2.pc = add_signed_offset 0xff 0x05 :=
  have h := add_signed_offset_spec 0x00ff 0x05 (by decide) (by decide) branch_scenario 0xd0
    (by decide) (by decide) (by decide) (by decide) (by decide) (by decide)
  have h2 := add_signed_offset_spec 0xffff 0x01 (by decide) (by decide) branch_scenario 0xd0
    (by decide) (by decide) (by decide) (by decide) (by decide) (by decide)
  ⟨h.2.1 (by decide) (by decide), h2.1.trans (by decide), h.2.2.trans (by decide)⟩

/-- Witness of C6: with P = 0x24 and S = 0xFF, PHP and BRK push 0x34, the NMI and
the IRQ acknowledgement push 0x24. -/
theorem status_pushes_witness :
    (i_php php_plp_scenario).memory 0x1ff = 0x34 ∧
    (i_brk php_plp_scenario).memory 0x1fd = 0x34 ∧
    (process_interrupt { php_plp_scenario with nmi_flag := true }).memory 0x1fd = 0x24 ∧
    (process_interrupt { php_plp_scenario with nmi_flag := false, reset_flag := false,
                                               irq_flag := true }).memory 0x1fd = 0x24 :=
  have h := status_pushes php_plp_scenario (by decide) (by decide)
  ⟨h.1.trans (by decide), h.2.1.trans (by decide), h.2.2.1.trans (by decide),
    h.2.2.2.1.trans (by decide)⟩

/-- Counterexample to C7 as stated: with P = 0x24, PHP then PLP leaves P = 0x34. -/
theorem php_plp_changes_p :
    (step (step php_plp_scenario).2).2.rp ≠ php_plp_scenario.rp := by
  decide

/-- Witness of C7 (amended): with P = 0x24 and S = 0xFF, PHP then PLP leaves P = 0x34
(0x24 with bits 5 and 4 set) and S = 0xFF. -/
theorem php_plp_witness :
    php_plp_scenario.rp = 0x24 ∧
    (step (step php_plp_scenario).2).2.rp = 0x34 ∧
    (step (step php_plp_scenario).2).2.sp = 0xff :=
  have h := php_plp php_plp_scenario (by decide) (by decide) (by decide) (by decide) (by decide)
  ⟨by decide, h.1.trans (by decide), h.2.trans (by decide)⟩

/-- C8 (as stated) fails: a JSR at p = 0xFFFE whose target starts with RTS, outside
the stack cells, pushes the two low bytes of p + 2 = 0x10000, which are 0x00 and
0x00, and the RTS leaves PC = 1, not p + 3 = 0x10001, where the program counter
stands after any other three-byte instruction at 0xFFFE; S is restored. A JSR at
0xFFFD returns to 0x10000, outside the 16-bit address space. -/
theorem jsr_rts_top_of_memory :
    interrupt_pending (jsr_top_scenario 0xfffe) = false ∧
    (jsr_top_scenario 0xfffe).sp = 0xff ∧ (jsr_top_scenario 0xfffe).pc = 0xfffe ∧
    (read_mem (jsr_top_scenario 0xfffe) (jsr_top_scenario 0xfffe).pc).1 = 0x20 ∧
    rts_at (jsr_top_scenario 0xfffe) (m_abs (fetch (jsr_top_scenario 0xfffe))).arg ∧
    (step (jsr_top_scenario 0xfffe)).1 = 0 ∧
    (step (jsr_top_scenario 0xfffe)).2.pc = 0x0010 ∧
    (step (jsr_top_scenario 0xfffe)).2.memory 0x1ff = 0x00 ∧
    (step (jsr_top_scenario 0xfffe)).2.memory 0x1fe = 0x00 ∧
    (step (step (jsr_top_scenario 0xfffe)).2).1 = 0 ∧
    (step (step (jsr_top_scenario 0xfffe)).2).2.pc = 1 ∧
    (step (step (jsr_top_scenario 0xfffe)).2).2.pc ≠ 0xfffe + 3 ∧
    (step (step (jsr_top_scenario 0xfffe)).2).2.sp = 0xff ∧
    (step (step (jsr_top_scenario 0xfffd)).2).2.pc = 0x10000 :=
  ⟨by decide, by decide, by decide, by decide,
   Or.inl ⟨by decide, by decide, by decide, by decide⟩,
   by decide, by decide, by decide, by decide, by decide, by decide, by decide, by decide,
   by decide⟩

/-- Witness of C8 (amended): `JSR $0010` at 0x0000 with S = 0x00 pushes 0x00 to 0x0100 and 0x02
to 0x01FF; after the `RTS` PC = 3 and S = 0x00. -/
theorem jsr_rts_witness :
    (step jsr_rts_scenario).2.memory 0x100 = 0x00 ∧
    (step jsr_rts_scenario).2.memory 0x1ff = 0x02 ∧
    (step jsr_rts_scenario).2.pc = 0x10 ∧
    (step jsr_rts_scenario).2.sp = 0xfe ∧
    (step (step jsr_rts_scenario).2).2.pc = 3 ∧
    (step (step jsr_rts_scenario).2).2.sp = 0 :=
  have h := jsr_rts jsr_rts_scenario (by decide) (by decide) (by decide) (by decide)
    (Or.inl ⟨by decide, by decide, by decide, by decide⟩)
  ⟨h.1.trans (by decide), h.2.1.trans (by decide), h.2.2.1.trans (by decide), by decide,
    (h.2.2.2.2.1 (by decide)).trans (by decide), h.2.2.2.2.2.trans (by decide)⟩

/-- Witness of C9: scenario 3 of the spec, PC = 0x1234, P = 0x34, S = 0xFF. -/
theorem step_nmi_witness :
    (step nmi_scenario).2.pc = 0x9000 ∧
    (step nmi_scenario).2.memory 0x1ff = 0x12 ∧
    (step nmi_scenario).2.memory 0x1fe = 0x34 ∧
    (step nmi_scenario).2.memory 0x1fd = 0x24 ∧
    (step nmi_scenario).2.sp = 0xfc ∧
    (step nmi_scenario).2.cycle_count = 6 :=
  have h := step_nmi nmi_scenario (by decide) (by decide) (by decide) (by decide) (by decide)
  ⟨h.2.2.2.2.2.2.2.2.2.2.1.trans (by decide), h.2.2.2.1.trans (by decide),
    h.2.2.2.2.1.trans (by decide), h.2.2.2.2.2.1.trans (by decide),
    h.2.2.2.2.2.2.2.1.trans (by decide), h.2.2.2.2.2.2.2.2.2.2.2.2.1⟩

/-- C10 at its failing input: with NMI and RESET both pending one acknowledgement
services both requests; PC ends at the RESET vector 0x8000 instead of the NMI
vector 0x9000 and the RESET flag is cleared instead of staying set. -/
theorem nmi_and_reset_both_serviced :
    nmi_reset_scenario.nmi_flag = true ∧ nmi_reset_scenario.reset_flag = true ∧
    (step nmi_reset_scenario).2.pc = 0x8000 ∧
    (step nmi_reset_scenario).2.reset_flag = false ∧
    (step nmi_reset_scenario).2.nmi_flag = false ∧
    (step nmi_reset_scenario).2.sp = 0xfc := by
  decide
set_option maxRecDepth 100000 in
/-- The documented table lists 143 distinct opcodes, none of them a branch, and
every opcode the `switch` of `step` decodes is a branch, 0x04, 0xE7 or in the table. -/
theorem documented_timing_complete :
    documented_timing.length = 143 ∧
    (documented_timing.map (fun e => e.1)).Nodup ∧
    (∀ e ∈ documented_timing, e.1 ∉ branch_opcodes) ∧
    (∀ e ∈ opcode_table, e.1 ∈ branch_opcodes ∨ e.1 = 0x04 ∨ e.1 = 0xe7 ∨
      e.1 ∈ documented_timing.map (fun e => e.1)) := by
  decide

/-- Witness of C1: scenario 2 of the spec, `LDA $12FF,X` with X = 1 and 0x77 at 0x1300
crosses a page, bills 5 cycles and leaves A = 0x77. -/
theorem step_cycles_documented_witness :
    page_crossed Mode.abx (fetch lda_scenario) = true ∧
    (step lda_scenario).1 = 0 ∧
    (step lda_scenario).2.cycle_count = 5 ∧
    (step lda_scenario).2.ra = 0x77 :=
  have h := step_cycles_documented lda_scenario 0xbd Mode.abx 4 true (by decide) (by decide)
    (by decide) (by decide) (by decide) (fun _ _ _ => by decide)
  ⟨by decide, h.1, h.2.trans (by decide), by decide⟩

end machine

/-! ## The program counter and the decoder -/

namespace machine

section pc_and_decode

seal read_mem write_mem oam_dma

theorem oam_dma_pc (val n i : Nat) (s : Machine) : (oam_dma val n i s).pc = s.pc := by
  induction n generalizing i s with
  | zero => unfold oam_dma; rfl
  | succ n ih =>
    unfold oam_dma
    simp only []
    rw [ih]
    exact read_mem_pc _ _

/-- No CPU-side write changes PC, the DMA trigger included. -/
theorem write_mem_pc_all (s : Machine) (a v : Nat) : (write_mem s a v).pc = s.pc := by
  by_cases h : a = 0x4014
  · subst h
    unfold write_mem
    rw [if_neg (by decide), if_neg (by decide), if_pos rfl]
    simp only []
    by_cases ho : (oam_dma (v % 256) 0x100 0 s).odd_cycle = true
    · rw [if_pos ho]; simp only []; rw [oam_dma_pc]
    · rw [if_neg ho]; simp only []; rw [oam_dma_pc]
  · exact write_mem_pc s a v h

theorem oam_dma_arg (val n i : Nat) (s : Machine) : (oam_dma val n i s).arg = s.arg := by
  induction n generalizing i s with
  | zero => unfold oam_dma; rfl
  | succ n ih =>
    unfold oam_dma
    simp only []
    rw [ih]
    exact read_mem_arg _ _

theorem write_mem_arg_all (s : Machine) (a v : Nat) : (write_mem s a v).arg = s.arg := by
  by_cases h : a = 0x4014
  · subst h
    unfold write_mem
    rw [if_neg (by decide), if_neg (by decide), if_pos rfl]
    simp only []
    by_cases ho : (oam_dma (v % 256) 0x100 0 s).odd_cycle = true
    · rw [if_pos ho]; simp only []; rw [oam_dma_arg]
    · rw [if_neg ho]; simp only []; rw [oam_dma_arg]
  · exact write_mem_arg s a v h

theorem set_with_flags_pc (s : Machine) (a v : Nat) : (set_with_flags s a v).pc = s.pc := by
  rw [set_with_flags_eq]
  exact write_mem_pc_all s a _

theorem push_pc (s : Machine) (v : Nat) : (push s v).pc = s.pc := by
  unfold push
  exact write_mem_pc_all s _ _

theorem pull_pc (s : Machine) : (pull s).2.pc = s.pc := by
  unfold pull
  exact read_mem_pc _ _

theorem i_sbc_pc (s : Machine) : (i_sbc s).pc = s.pc := by
  unfold i_sbc
  simp only [add_cycles, set_carry_flag, set_overflow_flag]
  split <;> simp only [set_with_flags_pc, read_mem_pc]

theorem i_adc_pc (s : Machine) : (i_adc s).pc = s.pc := by
  unfold i_adc
  simp only [add_cycles, set_carry_flag, set_overflow_flag]
  split <;> simp only [set_with_flags_pc, read_mem_pc]

theorem i_inc_pc (s : Machine) : (i_inc s).pc = s.pc := by
  unfold i_inc
  simp only [add_cycles, set_with_flags_pc, read_mem_pc]

/-- An instruction that is not a jump, a return, BRK or a branch leaves PC alone. -/
theorem run_instr_pc (i : Instr) (s : Machine) (h : assigns_pc i = false) :
    (run_instr i s).pc = s.pc := by
  cases i <;>
    first
    | (cases h; done)
    | exact i_adc_pc s
    | exact i_sbc_pc s
    | exact (i_sbc_pc _).trans (i_inc_pc s)
    | simp only [run_instr, i_lda, i_ldx, i_ldy, i_sta, i_stx, i_sty, i_tax, i_tay, i_txa, i_tya,
        i_tsx, i_txs, i_pha, i_pla, i_php, i_plp, i_and, i_eor, i_ora, i_bit, i_inc, i_dec, i_inx,
        i_dex, i_iny, i_dey, i_clc, i_sec, i_clv, i_cld, i_sed, i_cli, i_sei, i_nop, i_asl, i_lsr,
        i_rol, i_ror, i_cmp, i_cpx, i_cpy, add_cycles, set_carry_flag, set_zero_flag,
        set_overflow_flag, set_negative_flag, set_with_flags_pc, write_mem_pc_all, read_mem_pc,
        push_pc, pull_pc]


theorem run_mode_pc (m : Mode) (s : Machine) (h : s.pc < 0x10001) :
    (run_mode m s).pc = s.pc + operand_bytes m := by
  have e1 : u64 (s.pc + 1) = s.pc + 1 := by unfold u64; omega
  have e2 : u64 (s.pc + 1 + 1) = s.pc + 2 := by unfold u64; omega
  cases m <;>
    simp only [run_mode, m_imp, m_acc, m_imm, m_rel, m_zpg, m_zpx, m_zpy, m_abs, m_abx, m_aby,
      m_ind, m_inx, m_iny, set_arg_zero, set_arg_one, set_arg_two, read_mem_pc, read_mem_2,
      operand_bytes, e1, e2, Nat.add_zero]


theorem lookup_mem {β : Type} (l : List (Nat × β)) (a : Nat) (b : β)
    (h : l.lookup a = some b) : (a, b) ∈ l := by
  induction l with
  | nil => cases h
  | cons e l ih =>
    obtain ⟨k, v⟩ := e
    by_cases hk : a = k
    · subst hk
      rw [List.lookup_cons, beq_self_eq_true] at h
      cases h
      exact List.mem_cons_self _ _
    · rw [List.lookup_cons, beq_false_of_ne hk] at h
      exact List.mem_cons_of_mem _ (ih h)

/-- In the `switch` of `step`, JMP comes with `m_abs` or `m_ind`, JSR with `m_abs`,
and `m_rel` with the branches, the branches with `m_rel`. -/
theorem opcode_table_modes :
    opcode_table.all (fun e =>
      (e.2.2 != Instr.jmp || e.2.1 == Mode.abs || e.2.1 == Mode.ind) &&
      (e.2.2 != Instr.jsr || e.2.1 == Mode.abs) &&
      (e.2.1 != Mode.rel || assigns_pc e.2.2) &&
      (e.2.1 != Mode.rel || (e.2.2 != Instr.jmp && e.2.2 != Instr.jsr && e.2.2 != Instr.rts
        && e.2.2 != Instr.rti && e.2.2 != Instr.brk)) &&
      (!assigns_pc e.2.2 || e.2.2 == Instr.jmp || e.2.2 == Instr.jsr || e.2.2 == Instr.brk
        || e.2.2 == Instr.rti || e.2.2 == Instr.rts || e.2.1 == Mode.rel)) = true := by
  decide

theorem service_pc (s : Machine) (vec : Nat) : (service s vec).pc < 0x10000 := by
  unfold service
  exact read_mem_2_fst_lt _ _

theorem reset_or_irq_pc (s : Machine) (h : s.pc < 0x10000) : (reset_or_irq s).pc < 0x10000 := by
  unfold reset_or_irq
  by_cases hr : s.reset_flag = true
  · rw [if_pos hr]; exact read_mem_2_fst_lt _ _
  rw [if_neg hr]
  by_cases hi : s.irq_flag = true
  · rw [if_pos hi]; exact service_pc _ _
  rw [if_neg hi]; exact h

theorem process_interrupt_pc (s : Machine) (h : s.pc < 0x10000) :
    (process_interrupt s).pc < 0x10000 := by
  rw [process_interrupt_eq]
  apply reset_or_irq_pc
  by_cases hn : s.nmi_flag = true
  · rw [if_pos hn]; exact service_pc _ _
  · rw [if_neg hn]; exact h

theorem i_brk_pc (s : Machine) : (i_brk s).pc < 0x10000 := by
  unfold i_brk
  simp only [add_cycles, set_break_flag, set_interrupt_disable_flag]
  exact read_mem_2_fst_lt _ _

theorem i_rti_pc (s : Machine) : (i_rti s).pc < 0x10000 := by
  unfold i_rti
  simp only [add_cycles, pull_adr]
  exact make_adr_lt _ _

theorem i_rts_pc (s : Machine) : (i_rts s).pc ≤ 0x10000 := by
  unfold i_rts
  simp only [add_cycles, pull_adr]
  have := make_adr_lt (pull (pull s).2).1 (pull s).1
  unfold u64
  omega

theorem push_arg (s : Machine) (v : Nat) : (push s v).arg = s.arg := by
  unfold push
  exact write_mem_arg_all s _ _

theorem i_jsr_pc (s : Machine) : (i_jsr s).pc = s.arg := by
  unfold i_jsr
  simp only [add_cycles, push_adr, push_arg]

theorem run_mode_arg_lt (m : Mode) (s : Machine) (h : m = Mode.abs ∨ m = Mode.ind) :
    (run_mode m s).arg < 0x10000 := by
  rcases h with h | h <;> subst h
  · simp only [run_mode, m_abs, set_arg_two]; exact read_mem_2_fst_lt _ _
  · simp only [run_mode, m_ind, set_arg_two]; exact read_mem_2_fst_lt _ _


theorem branch_run (i : Instr) (s : Machine) (h1 : assigns_pc i = true)
    (h2 : i ≠ Instr.jmp ∧ i ≠ Instr.jsr ∧ i ≠ Instr.rts ∧ i ≠ Instr.rti ∧ i ≠ Instr.brk) :
    ∃ c, run_instr i s = short_jump_if s c := by
  obtain ⟨a, b, c, d, e⟩ := h2
  cases i <;>
    first
    | (cases h1; done)
    | exact absurd rfl a
    | exact absurd rfl b
    | exact absurd rfl c
    | exact absurd rfl d
    | exact absurd rfl e
    | exact ⟨_, rfl⟩

/-- C11 (amended): `pc` is an `unsigned long` that no statement reduces modulo
0x10000. From a state with PC < 0x10000, a successful `step` leaves PC < 0x10000
when it acknowledges an interrupt or executes JMP, JSR, BRK or RTI, and
PC ≤ 0x10000 when it executes RTS; a branch leaves the address after it or
`add_signed_offset` of that address; every other instruction leaves the old PC
plus its length (1, 2 or 3 bytes); and these cases are all there are. -/
theorem step_pc (s : Machine) (hpc : s.pc < 0x10000) :
    (interrupt_pending s = true → (step s).2.pc < 0x10000) ∧
    (∀ m i, interrupt_pending s = false → decode (read_mem s s.pc).1 = some (m, i) →
      (step s).1 = 0 ∧
      (i = Instr.jmp ∨ i = Instr.jsr ∨ i = Instr.brk ∨ i = Instr.rti → (step s).2.pc < 0x10000) ∧
      (i = Instr.rts → (step s).2.pc ≤ 0x10000) ∧
      (m = Mode.rel → (step s).2.pc = s.pc + 2 ∨
        (step s).2.pc
          = add_signed_offset (s.pc + 2) (read_mem (m_rel (fetch s)) (s.pc + 1)).1) ∧
      (assigns_pc i = false → (step s).2.pc = s.pc + 1 + operand_bytes m) ∧
      (assigns_pc i = true → i = Instr.jmp ∨ i = Instr.jsr ∨ i = Instr.brk ∨ i = Instr.rti ∨
        i = Instr.rts ∨ m = Mode.rel)) := by
  refine ⟨fun hint => ?_, fun m i hint hdec => ?_⟩
  · rw [step_interrupt s hint]
    exact process_interrupt_pc s hpc
  have hf : (fetch s).pc = s.pc + 1 := by rw [fetch_eq]; unfold u64; simp only []; omega
  have hmem := lookup_mem _ _ _ hdec
  have htab := List.all_eq_true.mp opcode_table_modes _ hmem
  simp only [Bool.and_eq_true, Bool.or_eq_true, bne_iff_ne, beq_iff_eq, ne_eq,
    Bool.not_eq_true'] at htab
  obtain ⟨⟨⟨⟨hjmp, hjsr⟩, hrel1⟩, hrel2⟩, hbr⟩ := htab
  rw [step_exec s m i hint hdec]
  refine ⟨rfl, ?_, ?_, ?_, ?_, ?_⟩
  rotate_right
  · intro ha
    rw [ha] at hbr
    simpa only [reduceCtorEq, false_or, or_assoc] using hbr
  · rintro (h | h | h | h) <;> subst h
    · show (i_jmp _).pc < 0x10000
      unfold i_jmp
      simp only [add_cycles]
      exact run_mode_arg_lt m _ (by
        rcases hjmp with (h | h) | h
        · exact absurd rfl h
        · exact Or.inl h
        · exact Or.inr h)
    · show (i_jsr _).pc < 0x10000
      rw [i_jsr_pc]
      exact run_mode_arg_lt m _ (by
        rcases hjsr with h | h
        · exact absurd rfl h
        · exact Or.inl h)
    · exact i_brk_pc _
    · exact i_rti_pc _
  · intro h; subst h; exact i_rts_pc _
  · intro h; subst h
    have ha : assigns_pc i = true := by
      rcases hrel1 with h | h
      · exact absurd rfl h
      · exact h
    have hb : i ≠ Instr.jmp ∧ i ≠ Instr.jsr ∧ i ≠ Instr.rts ∧ i ≠ Instr.rti ∧ i ≠ Instr.brk := by
      rcases hrel2 with h | h
      · exact absurd rfl h
      · exact ⟨h.1.1.1.1, h.1.1.1.2, h.1.1.2, h.1.2, h.2⟩
    obtain ⟨c, hc⟩ := branch_run i (m_rel (fetch s)) ha hb
    have hp : (m_rel (fetch s)).pc = s.pc + 2 := by
      rw [m_rel_eq]; simp only []; rw [hf]; unfold u64; omega
    have harg : (m_rel (fetch s)).arg = s.pc + 1 := by rw [m_rel_eq]; exact hf
    have hpc2 : (run_instr i (m_rel (fetch s))).pc = s.pc + 2 ∨
        (run_instr i (m_rel (fetch s))).pc
          = add_signed_offset (s.pc + 2) (read_mem (m_rel (fetch s)) (s.pc + 1)).1 := by
      rw [hc]
      cases c
      · left; rw [short_jump_if_false]; exact hp
      · right; rw [short_jump_if_true]; simp only []; rw [hp, harg]
    exact hpc2
  · intro h
    show (run_instr i (run_mode m (fetch s))).pc = _
    rw [run_instr_pc i _ h, run_mode_pc m _ (by omega), hf]

theorem lookup_none {β : Type} (l : List (Nat × β)) (a : Nat) :
    l.lookup a = none ↔ a ∉ l.map (fun e => e.1) := by
  induction l with
  | nil => simp only [List.lookup_nil, List.map_nil, List.not_mem_nil, not_false_eq_true]
  | cons e l ih =>
    obtain ⟨k, v⟩ := e
    by_cases hk : a = k
    · subst hk
      simp only [List.lookup_cons, beq_self_eq_true, List.map_cons, List.mem_cons, true_or,
        not_true_eq_false, reduceCtorEq]
    · simp only [List.lookup_cons, beq_false_of_ne hk, List.map_cons, List.mem_cons, hk, false_or]
      exact ih

set_option maxRecDepth 100000 in
/-- The opcodes the `switch` of `step` has a `case` for are the official ones and
the two extra ones. -/
theorem opcode_table_keys :
    official_opcodes.length = 151 ∧ official_opcodes.Nodup ∧
    (∀ x ∈ opcode_table.map (fun e => e.1), x ∈ official_opcodes ++ extra_opcodes) ∧
    (∀ x ∈ official_opcodes ++ extra_opcodes, x ∈ opcode_table.map (fun e => e.1)) := by
  decide

theorem decode_none_iff (op : Nat) :
    decode op = none ↔ op ∉ official_opcodes ++ extra_opcodes := by
  unfold decode
  rw [lookup_none]
  exact ⟨fun h hx => h (opcode_table_keys.2.2.2 _ hx), fun h hx => h (opcode_table_keys.2.2.1 _ hx)⟩

theorem step_fail (s : Machine) (hint : interrupt_pending s = false)
    (hdec : decode (read_mem s s.pc).1 = none) : step s = (-1, fetch s) := by
  have hop : (fetch s).cur_opcode = (read_mem s s.pc).1 := by rw [fetch_eq]
  unfold step
  rw [hint]
  simp only [Bool.false_eq_true, if_false, hop, hdec]

/-- C12: with no interrupt pending, `step` returns -1 exactly when the byte
fetched at PC is none of the 151 official opcodes, 0x04 or 0xE7 (and returns 0
otherwise); when it returns -1, A, X, Y, S, P, RAM and the cycle budget are
unchanged. -/
theorem step_fails_iff (s : Machine) (hint : interrupt_pending s = false) :
    ((step s).1 = -1 ↔ (read_mem s s.pc).1 ∉ official_opcodes ++ extra_opcodes) ∧
    ((step s).1 = -1 ∨ (step s).1 = 0) ∧
    ((step s).1 = -1 →
      (step s).2.ra = s.ra ∧ (step s).2.rx = s.rx ∧ (step s).2.ry = s.ry ∧
      (step s).2.sp = s.sp ∧ (step s).2.rp = s.rp ∧ (step s).2.memory = s.memory ∧
      (step s).2.cycle_count = s.cycle_count) := by
  cases hdec : decode (read_mem s s.pc).1 with
  | none =>
    have hn := (decode_none_iff _).mp hdec
    rw [step_fail s hint hdec, fetch_eq]
    exact ⟨⟨fun _ => hn, fun _ => rfl⟩, Or.inl rfl, fun _ => ⟨rfl, rfl, rfl, rfl, rfl, rfl, rfl⟩⟩
  | some mi =>
    obtain ⟨m, i⟩ := mi
    have hn : ¬ ((read_mem s s.pc).1 ∉ official_opcodes ++ extra_opcodes) := by
      rw [← decode_none_iff, hdec]
      exact fun h => Option.noConfusion h
    have h0 : (step s).1 = 0 := by rw [step_exec s m i hint hdec]
    have hne : (step s).1 ≠ -1 := by rw [h0]; decide
    exact ⟨⟨fun h => absurd h hne, fun h => absurd h hn⟩, Or.inr h0, fun h => absurd h hne⟩

end pc_and_decode

/-- C11 (as stated) fails: NOP in the last byte of the address space is a
successful step from PC = 0xFFFF that leaves PC = 0x10000, the pseudo-address
of the accumulator. -/
theorem pc_leaves_16_bits :
    nop_scenario.pc = 0xffff ∧ (step nop_scenario).1 = 0 ∧
    (step nop_scenario).2.pc = adr_ra ∧
    ¬ (∀ s : Machine, s.pc < 0x10000 → (step s).1 = 0 → (step s).2.pc < 0x10000) :=
  ⟨by decide, by decide, by decide,
    fun h => absurd (h nop_scenario (by decide) (by decide)) (by decide)⟩

/-- Witness of C11 (amended): `LDA $12FF,X` at PC = 0 leaves PC = 3. -/
theorem step_pc_witness :
    lda_scenario.pc < 0x10000 ∧ (step lda_scenario).2.pc = 0 + 1 + 2 :=
  ⟨by decide,
    ((step_pc lda_scenario (by decide)).2 Mode.abx Instr.lda (by decide) (by decide)).2.2.2.2.1
      (by decide)⟩

/-- Witness of C12: opcode 0x02 makes `step` fail and leaves A and the budget alone. -/
theorem step_fails_iff_witness :
    (step bad_opcode_scenario).1 = -1 ∧ (step bad_opcode_scenario).2.ra = 0x11 ∧
    (step bad_opcode_scenario).2.cycle_count = 5 :=
  have h := step_fails_iff bad_opcode_scenario (by decide)
  have hf : (step bad_opcode_scenario).1 = -1 := h.1.mpr (by decide)
  ⟨hf, (h.2.2 hf).1, (h.2.2 hf).2.2.2.2.2.2⟩

end machine

/-! ## CPU-side read decode -/

namespace machine

section bus
seal read_mem write_mem oam_dma

/-- A read in [0x4000, 0x8000) other than the controller port returns 0 and
changes nothing. -/
theorem read_mem_open_bus (s : Machine) (a : Nat) (h1 : 0x4000 ≤ a) (h2 : a < 0x8000)
    (h3 : a ≠ 0x4016) : read_mem s a = (0, s) := by
  unfold read_mem
  rw [if_neg (by omega), if_neg (by omega), if_neg h3, if_pos h2]

/-- C13: the CPU-side read decode. Below 0x2000 a read returns the RAM byte at
`a mod 0x0800`; in [0x8000, 0x10000), for a PRG ROM of 0x4000 or 0x8000 bytes, it
returns the PRG byte at `(a - 0x8000) mod rom_size`, an index below `rom_size`; in
[0x4000, 0x8000) except 0x4016 it returns 0; none of these reads changes the
machine state. -/
theorem read_mem_map (s : Machine) (a : Nat) :
    (a < 0x2000 → read_mem s a = (s.memory (a % 0x0800) % 256, s) ∧ a % 0x0800 < 0x0800) ∧
    (0x8000 ≤ a → a < 0x10000 → s.prg_size = 0x4000 ∨ s.prg_size = 0x8000 →
      read_mem s a = (s.prg_rom ((a - 0x8000) % s.prg_size) % 256, s) ∧
      (a - 0x8000) % s.prg_size < s.prg_size) ∧
    (0x4000 ≤ a → a < 0x8000 → a ≠ 0x4016 → read_mem s a = (0, s)) := by
  refine ⟨fun h => ⟨read_mem_ram s a h, by omega⟩, fun h1 h2 hz => ?_,
    fun h1 h2 h3 => read_mem_open_bus s a h1 h2 h3⟩
  rw [read_mem_rom s a h1 h2]
  rcases hz with hz | hz
  · rw [if_pos hz, hz]
    exact ⟨rfl, by omega⟩
  · rw [if_neg (by omega), hz, Nat.mod_eq_of_lt (show a - 0x8000 < 0x8000 by omega)]
    exact ⟨rfl, by omega⟩

end bus

/-- Witness of C13: in the `LDA $12FF,X` scenario the mirror 0x1300 of RAM cell
0x0300 reads 0x77, the DMA port 0x4014 reads 0, and the last byte of a 32 KiB PRG
ROM is read at index 0x7FFF. -/
theorem read_mem_map_witness :
    (read_mem lda_scenario 0x1300).1 = 0x77 ∧
    (read_mem lda_scenario 0x4014).1 = 0 ∧
    (read_mem nop_scenario 0xffff).1 = 0xea :=
  have h := read_mem_map lda_scenario
  have g := read_mem_map nop_scenario 0xffff
  ⟨congrArg Prod.fst ((h 0x1300).1 (by decide)).1,
   congrArg Prod.fst ((h 0x4014).2.2 (by decide) (by decide) (by decide)),
   congrArg Prod.fst (g.2.1 (by decide) (by decide) (Or.inr (by decide))).1⟩

end machine

/-! ## OAM writes and OAM DMA -/

namespace gfx

/-- What one `oam_write` does, for an OAM address that is a byte. -/
theorem oam_write_eq (g : Gfx) (v : Nat) :
    (oam_write g v).oam_address = (g.oam_address + 1) % 256 ∧
    (∀ k, k ≠ g.oam_address / 4 → (oam_write g v).sprite_list k = g.sprite_list k) ∧
    (g.oam_address % 4 = 0 → (oam_write g v).sprite_list (g.oam_address / 4)
        = { g.sprite_list (g.oam_address / 4) with sy := v % 256 + 1 }) ∧
    (g.oam_address % 4 = 1 → (oam_write g v).sprite_list (g.oam_address / 4)
        = { g.sprite_list (g.oam_address / 4) with tile_index := v % 256 }) ∧
    (g.oam_address % 4 = 2 → (oam_write g v).sprite_list (g.oam_address / 4)
        = { g.sprite_list (g.oam_address / 4) with attr := v % 256 }) ∧
    (g.oam_address % 4 = 3 → (oam_write g v).sprite_list (g.oam_address / 4)
        = { g.sprite_list (g.oam_address / 4) with sx := v % 256 }) := by
  unfold oam_write
  simp only []
  refine ⟨trivial, fun k hk => upd_ne _ _ _ _ hk, fun h0 => ?_, fun h1 => ?_, fun h2 => ?_,
    fun h3 => ?_⟩
  · rw [upd_same, if_pos h0]; rfl
  · rw [upd_same, if_neg (by omega), if_pos h1]; rfl
  · rw [upd_same, if_neg (by omega), if_neg (by omega), if_pos h2]; rfl
  · rw [upd_same, if_neg (by omega), if_neg (by omega), if_neg (by omega), if_pos h3]; rfl

theorem oam_writes_snoc (g : Gfx) (l : List Nat) (v : Nat) :
    oam_writes g (l ++ [v]) = oam_write (oam_writes g l) v := by
  unfold oam_writes
  rw [List.foldl_append]
  rfl

theorem oam_writes_cons (g : Gfx) (l : List Nat) (v : Nat) :
    oam_writes g (v :: l) = oam_writes (oam_write g v) l := rfl


/-- A non-empty run of OAM writes advances OAM_ADDR by the number of writes,
modulo 256. -/
theorem oam_writes_address (g : Gfx) (l : List Nat) (h : l ≠ []) :
    (oam_writes g l).oam_address = (g.oam_address + l.length) % 256 := by
  induction l generalizing g with
  | nil => exact absurd rfl h
  | cons v l ih =>
    rw [oam_writes_cons, List.length_cons]
    by_cases hl : l = []
    · subst hl
      exact (oam_write_eq g v).1
    · rw [ih _ hl, (oam_write_eq g v).1]
      omega

/-- The state of OAM after the first `j` of the writes of `b 0, b 1, ...`, started
at OAM address 0: byte `4k` went to `sy` of sprite `k`, plus one, byte `4k + 1` to
its tile index, byte `4k + 2` to its attribute and byte `4k + 3` to `sx`. -/
theorem oam_writes_fill (g : Gfx) (b : Nat → Nat) (hb : ∀ i, b i < 256)
    (h0 : g.oam_address = 0) (j : Nat) (hj : j ≤ 256) :
    (oam_writes g ((List.range j).map b)).oam_address = j % 256 ∧
    ∀ k,
      (4 * k < j → ((oam_writes g ((List.range j).map b)).sprite_list k).sy = b (4 * k) + 1) ∧
      (4 * k + 1 < j →
        ((oam_writes g ((List.range j).map b)).sprite_list k).tile_index = b (4 * k + 1)) ∧
      (4 * k + 2 < j →
        ((oam_writes g ((List.range j).map b)).sprite_list k).attr = b (4 * k + 2)) ∧
      (4 * k + 3 < j →
        ((oam_writes g ((List.range j).map b)).sprite_list k).sx = b (4 * k + 3)) := by
  induction j with
  | zero =>
    exact ⟨h0, fun k => ⟨fun h => absurd h (by omega), fun h => absurd h (by omega),
      fun h => absurd h (by omega), fun h => absurd h (by omega)⟩⟩
  | succ j ih =>
    obtain ⟨ha, hs⟩ := ih (by omega)
    rw [List.range_succ, List.map_append, List.map_singleton, oam_writes_snoc]
    generalize oam_writes g ((List.range j).map b) = G at ha hs
    have hG : G.oam_address = j := by rw [ha]; omega
    obtain ⟨w1, w2, w3, w4, w5, w6⟩ := oam_write_eq G (b j)
    rw [hG] at w1 w2 w3 w4 w5 w6
    have hbj : b j % 256 = b j := Nat.mod_eq_of_lt (hb j)
    rw [hbj] at w3 w4 w5 w6
    refine ⟨w1, fun k => ?_⟩
    obtain ⟨s1, s2, s3, s4⟩ := hs k
    by_cases hk : k = j / 4
    · subst hk
      have hcase : j % 4 = 0 ∨ j % 4 = 1 ∨ j % 4 = 2 ∨ j % 4 = 3 := by omega
      rcases hcase with c | c | c | c
      · rw [w3 c]
        have e : 4 * (j / 4) = j := by omega
        exact ⟨fun _ => by rw [e], fun h => absurd h (by omega), fun h => absurd h (by omega),
          fun h => absurd h (by omega)⟩
      · rw [w4 c]
        have e : 4 * (j / 4) + 1 = j := by omega
        exact ⟨fun _ => s1 (by omega), fun _ => by rw [e], fun h => absurd h (by omega),
          fun h => absurd h (by omega)⟩
      · rw [w5 c]
        have e : 4 * (j / 4) + 2 = j := by omega
        exact ⟨fun _ => s1 (by omega), fun _ => s2 (by omega), fun _ => by rw [e],
          fun h => absurd h (by omega)⟩
      · rw [w6 c]
        have e : 4 * (j / 4) + 3 = j := by omega
        exact ⟨fun _ => s1 (by omega), fun _ => s2 (by omega), fun _ => s3 (by omega),
          fun _ => by rw [e]⟩
    · rw [w2 k hk]
      exact ⟨fun _ => s1 (by omega), fun _ => s2 (by omega), fun _ => s3 (by omega),
        fun _ => s4 (by omega)⟩

/-- A run of OAM writes changes the sprite list and OAM_ADDR only. -/
theorem oam_writes_frame (g : Gfx) (l : List Nat) :
    oam_writes g l = { g with sprite_list := (oam_writes g l).sprite_list,
                              oam_address := (oam_writes g l).oam_address } := by
  induction l generalizing g with
  | nil => rfl
  | cons v l ih =>
    rw [oam_writes_cons, ih]
    rfl

end gfx

namespace machine

section dma
seal read_mem write_mem oam_dma

theorem make_adr_page (v i : Nat) (hv : v < 0x20) (hi : i < 256) :
    make_adr v (i % 256) = v * 0x100 + i := by
  rw [make_adr_eq]; omega

/-- From a page in RAM, the DMA loop is a run of OAM writes of the bytes of the
page and touches nothing but the PPU. -/
theorem oam_dma_ram (v : Nat) (hv : v < 0x20) (n i : Nat) (s : Machine) (h : i + n ≤ 256) :
    oam_dma v n i s
      = { s with gfx := gfx.oam_writes s.gfx ((List.range' i n).map (page_byte s v)) } := by
  induction n generalizing i s with
  | zero => unfold oam_dma; rfl
  | succ n ih =>
    unfold oam_dma
    simp only []
    have hr : read_mem s (make_adr v (i % 256)) = (page_byte s v i, s) := by
      rw [make_adr_page v i hv (by omega), read_mem_ram s _ (by omega)]
      rfl
    rw [hr, ih (i + 1) _ (by omega), List.range'_succ]
    rfl


/-- C14: a CPU write of `v` to 0x4014, for a page `v * 0x100` in RAM, is the run of
the 256 OAM writes of the bytes at offsets 0, 1, ..., 255 of the page, in that
order, and adds 513 to the cycle budget when `odd_cycle` is false and 514 when it
is true; nothing else changes, in the PPU nothing but the sprite list and
OAM_ADDR. OAM_ADDR ends where it started, and when it started at 0 sprite `k`
holds Y = byte 4k plus 1, tile = byte 4k + 1, attribute = byte 4k + 2 and
X = byte 4k + 3. -/
theorem oam_dma_spec (s : Machine) (v : Nat) (hv : v < 0x20) :
    write_mem s 0x4014 v
      = { s with gfx := gfx.oam_writes s.gfx ((List.range 256).map (page_byte s v)),
                 cycle_count := u64 (s.cycle_count + (if s.odd_cycle then 514 else 513)) } ∧
    (write_mem s 0x4014 v).gfx
      = { s.gfx with sprite_list := (write_mem s 0x4014 v).gfx.sprite_list,
                     oam_address := (write_mem s 0x4014 v).gfx.oam_address } ∧
    (s.gfx.oam_address < 256 → (write_mem s 0x4014 v).gfx.oam_address = s.gfx.oam_address) ∧
    (s.gfx.oam_address = 0 → ∀ k, k < 64 →
      (write_mem s 0x4014 v).gfx.sprite_list k
        = { sy := page_byte s v (4 * k) + 1, tile_index := page_byte s v (4 * k + 1),
            attr := page_byte s v (4 * k + 2), sx := page_byte s v (4 * k + 3) }) := by
  have hw : write_mem s 0x4014 v
      = { s with gfx := gfx.oam_writes s.gfx ((List.range 256).map (page_byte s v)),
                 cycle_count := u64 (s.cycle_count + (if s.odd_cycle then 514 else 513)) } := by
    have hd := oam_dma_ram v hv 0x100 0 s (by decide)
    rw [← List.range_eq_range'] at hd
    generalize gfx.oam_writes s.gfx ((List.range 256).map (page_byte s v)) = G at hd ⊢
    unfold write_mem
    rw [if_neg (by decide), if_neg (by decide), if_pos rfl]
    simp only []
    rw [Nat.mod_eq_of_lt (show v < 256 by omega), hd]
    simp only []
    by_cases ho : s.odd_cycle = true
    · rw [if_pos ho, if_pos ho]
      have e : u64 (u64 (s.cycle_count + 513) + 1) = u64 (s.cycle_count + 514) := by
        unfold u64; omega
      rw [e]
    · rw [if_neg ho, if_neg ho]
  rw [hw]
  simp only []
  have hb : ∀ i, page_byte s v i < 256 := fun i => Nat.mod_lt _ (by decide)
  refine ⟨trivial, gfx.oam_writes_frame _ _, fun ha => ?_, fun h0 k hk => ?_⟩
  · have h := gfx.oam_writes_address s.gfx ((List.range 256).map (page_byte s v))
      (fun h => absurd (congrArg List.length h) (by
        rw [List.length_map, List.length_range]; decide))
    rw [List.length_map, List.length_range] at h
    omega
  · obtain ⟨_, hs⟩ := gfx.oam_writes_fill s.gfx (page_byte s v) hb h0 256 (by decide)
    obtain ⟨s1, s2, s3, s4⟩ := hs k
    have e1 := s1 (by omega)
    have e2 := s2 (by omega)
    have e3 := s3 (by omega)
    have e4 := s4 (by omega)
    generalize (gfx.oam_writes s.gfx ((List.range 256).map (page_byte s v))).sprite_list k = spr
      at e1 e2 e3 e4
    cases spr
    simp only [t_sprite.mk.injEq]
    exact ⟨e4, e1, e2, e3⟩

end dma

/-- Witness of C14: scenario 6 of the spec. Writing 0x02 to 0x4014 while
`odd_cycle` is true consumes 514 cycles, leaves OAM_ADDR at 0 and copies page
0x0200: sprite 1 gets the bytes 4, 5, 6, 7 of the page. -/
theorem oam_dma_spec_witness :
    (write_mem dma_scenario 0x4014 0x02).cycle_count = 514 ∧
    (write_mem dma_scenario 0x4014 0x02).gfx.oam_address = 0 ∧
    (write_mem dma_scenario 0x4014 0x02).gfx.sprite_list 1
      = { sy := 4 + 1, tile_index := 5, attr := 6, sx := 7 } :=
  have h := oam_dma_spec dma_scenario 0x02 (by decide)
  ⟨congrArg Machine.cycle_count h.1, h.2.2.1 (by decide), h.2.2.2 rfl 1 (by decide)⟩

end machine

/-! ## The PPU register aperture -/

namespace gfx

/-- C15: a read of STATUS returns the byte with bit 7 = `in_vblank`, bit 6 =
`sprite_0_hit` and every other bit 0; it clears `in_vblank`, puts the address latch
in its reset state (1) and changes nothing else of the PPU. -/
theorem status_read (g : Gfx) :
    (get g 0x2002).1 = (if g.in_vblank then 128 else 0) + (if g.sprite_0_hit then 64 else 0) ∧
    get_bit (get g 0x2002).1 7 = g.in_vblank.toNat ∧
    get_bit (get g 0x2002).1 6 = g.sprite_0_hit.toNat ∧
    (∀ k, k ≠ 7 → k ≠ 6 → get_bit (get g 0x2002).1 k = 0) ∧
    (get g 0x2002).2 = { g with in_vblank := false, address_latch := true } := by
  have hv : (get g 0x2002).1
      = (if g.in_vblank then 128 else 0) + (if g.sprite_0_hit then 64 else 0) := by
    unfold get
    rw [if_pos rfl]
    show set_bit (set_bit 0 6 g.sprite_0_hit) 7 g.in_vblank = _
    cases g.in_vblank <;> cases g.sprite_0_hit <;> rfl
  have hbits : ∀ x : Nat, x = 0 ∨ x = 64 ∨ x = 128 ∨ x = 192 →
      ∀ k, k ≠ 7 → k ≠ 6 → get_bit x k = 0 := by
    intro x hx k h7 h6
    unfold get_bit
    by_cases hk : k < 8
    · interval_cases k <;>
        first
        | exact absurd rfl h7
        | exact absurd rfl h6
        | (rcases hx with h | h | h | h <;> subst h <;> decide)
    · have : x < 2 ^ k := by
        calc x < 2 ^ 8 := by rcases hx with h | h | h | h <;> subst h <;> decide
          _ ≤ 2 ^ k := Nat.pow_le_pow_right (by decide) (by omega)
      rw [Nat.div_eq_of_lt this]
  refine ⟨hv, ?_, ?_, ?_, ?_⟩
  · rw [hv]; cases g.in_vblank <;> cases g.sprite_0_hit <;> rfl
  · rw [hv]; cases g.in_vblank <;> cases g.sprite_0_hit <;> rfl
  · rw [hv]
    apply hbits
    cases g.in_vblank <;> cases g.sprite_0_hit <;> simp
  · unfold get
    rw [if_pos rfl]

theorem get_status_eq (g : Gfx) :
    (get g 0x2002).2 = { g with in_vblank := false, address_latch := true } := by
  unfold get
  rw [if_pos rfl]

theorem set_addr_eq (g : Gfx) (v : Nat) :
    set g 0x2006 v
      = { g with address := u32 (set_octet g.address g.address_latch.toNat (v % 256)),
                 address_latch := !g.address_latch } := by
  unfold set
  rw [if_neg (by decide), if_neg (by decide), if_neg (by decide), if_neg (by decide),
    if_pos rfl]

theorem set_octet_one (x v : Nat) : set_octet x 1 v = x - (x / 256 % 256) * 256 + (v % 256) * 256 := by
  unfold set_octet
  rw [Nat.pow_one]

theorem set_octet_zero (x v : Nat) : set_octet x 0 v = x - x % 256 + v % 256 := by
  unfold set_octet
  rw [Nat.pow_zero, Nat.div_one, Nat.mul_one, Nat.mul_one]

/-- On a 16-bit address register, the register protocol leaves the address asked for. -/
theorem set_address_eq (g : Gfx) (a : Nat) (hg : g.address < 0x10000) (ha : a < 0x10000) :
    set_address g a = { g with in_vblank := false, address_latch := true, address := a } := by
  unfold set_address
  rw [get_status_eq, set_addr_eq, set_addr_eq]
  simp only [Bool.toNat_true, Bool.not_true, Bool.toNat_false, Bool.not_false, Nat.mod_mod]
  rw [set_octet_one, set_octet_zero]
  simp only [Gfx.mk.injEq, true_and, and_true]
  unfold u32
  omega

theorem set_data_eq (g : Gfx) (v : Nat) :
    set g 0x2007 v = increment_address (write_mem g g.address (v % 256)) := by
  unfold set
  rw [if_neg (by decide), if_neg (by decide), if_neg (by decide), if_neg (by decide),
    if_neg (by decide), if_pos rfl]

theorem mask14 (a : Nat) : a &&& 0x3fff = a % 0x4000 :=
  Nat.and_pow_two_sub_one_eq_mod a 14

theorem alias_adr_of_lt (a : Nat) (h : a < 0x3f00) : alias_adr a = a := by
  unfold alias_adr
  rw [if_neg (by omega)]

/-- A PPU-side write in the nametable range stores the byte at the folded index
of the nametable array. -/
theorem write_mem_nametable (g : Gfx) (a v : Nat) (h1 : 0x2000 ≤ a) (h2 : a < 0x3000) :
    write_mem g a v
      = { g with memory := upd g.memory (mirror_adr g.mirroring (a - 0x2000)) (v % 256) } := by
  unfold write_mem
  simp only []
  rw [mask14, Nat.mod_eq_of_lt (show a < 0x4000 by omega), alias_adr_of_lt a (by omega),
    if_neg (by omega), if_pos h2]

/-- A PPU-side read in the nametable range returns the byte at the folded index
of the nametable array. -/
theorem read_mem_nametable (g : Gfx) (a : Nat) (h1 : 0x2000 ≤ a) (h2 : a < 0x3000) :
    read_mem g a = g.memory (mirror_adr g.mirroring (a - 0x2000)) % 256 := by
  unfold read_mem
  simp only []
  rw [mask14, Nat.mod_eq_of_lt (show a < 0x4000 by omega), alias_adr_of_lt a (by omega),
    if_neg (by omega), if_pos h2]

theorem increment_address_one (g : Gfx) (h : get_bit g.control_reg 2 = 0) :
    increment_address g = { g with address := u32 (g.address + 1) } := by
  unfold increment_address
  rw [if_neg (by omega)]

theorem increment_address_32 (g : Gfx) (h : get_bit g.control_reg 2 = 1) :
    increment_address g = { g with address := u32 (g.address + 32) } := by
  unfold increment_address
  rw [if_pos h]

/-- What a DATA read does: the test is on the address register as it stands. -/
theorem get_data_eq (g : Gfx) :
    (g.address < 0x3f00 →
      get g 0x2007 = (g.data_read_buffer % 256,
        increment_address { g with data_read_buffer := read_mem g g.address })) ∧
    (0x3f00 ≤ g.address → get g 0x2007 = (read_mem g g.address, increment_address g)) := by
  unfold get
  rw [if_neg (by decide), if_pos rfl]
  exact ⟨fun h => by rw [if_pos h], fun h => by rw [if_neg (by omega)]⟩

/-- C16: after a STATUS read, whatever the state before it, the next write to ADDR
sets the high byte of the VRAM address and leaves the low byte, and the write
after that sets the low byte and leaves the high byte; a 16-bit address
register then holds the two bytes written. -/
theorem addr_writes_after_status (g : Gfx) (v w : Nat) :
    (set (get g 0x2002).2 0x2006 v).address / 256 % 256 = v % 256 ∧
    (set (get g 0x2002).2 0x2006 v).address % 256 = g.address % 256 ∧
    (set (set (get g 0x2002).2 0x2006 v) 0x2006 w).address % 256 = w % 256 ∧
    (set (set (get g 0x2002).2 0x2006 v) 0x2006 w).address / 256 % 256 = v % 256 ∧
    (g.address < 0x10000 →
      (set (set (get g 0x2002).2 0x2006 v) 0x2006 w).address = (v % 256) * 256 + w % 256) ∧
    (set (set (get g 0x2002).2 0x2006 v) 0x2006 w).address_latch = true := by
  rw [get_status_eq, set_addr_eq, set_addr_eq]
  simp only [Bool.toNat_true, Bool.not_true, Bool.toNat_false, Bool.not_false, Nat.mod_mod]
  rw [set_octet_one, set_octet_zero]
  unfold u32
  refine ⟨?_, ?_, ?_, ?_, ?_, trivial⟩
  · omega
  · omega
  · omega
  · omega
  · intro h; omega

/-- Witness of C16: from the start state, after a STATUS read the writes of 0x21
and 0x08 to ADDR leave the VRAM address 0x2108. -/
theorem addr_writes_after_status_witness :
    (set (set (get start 0x2002).2 0x2006 0x21) 0x2006 0x08).address = 0x2108 :=
  (addr_writes_after_status start 0x21 0x08).2.2.2.2.1 (by decide)

/-- C17: the test of the DATA read is on the address register as it stands, not
on its low 14 bits. In a reachable state with the address register at 0x4000,
which as a 14-bit PPU address is 0x0000, and 0x11 in the read buffer, a DATA read
returns the CHR byte 0x55 at 0x0000 at once and leaves 0x11 in the buffer, where
a buffered read returns 0x11 and refills the buffer with 0x55. -/
theorem data_read_unmasked :
    Reachable data_read_scenario ∧
    data_read_scenario.address = 0x4000 ∧
    data_read_scenario.address &&& 0x3fff < 0x3f00 ∧
    data_read_scenario.data_read_buffer = 0x11 ∧
    read_mem data_read_scenario data_read_scenario.address = 0x55 ∧
    (get data_read_scenario 0x2007).1 = 0x55 ∧
    (get data_read_scenario 0x2007).2.data_read_buffer = 0x11 ∧
    (get data_read_scenario 0x2007).2.address = 0x4001 := by
  refine ⟨?_, by decide, by decide, by decide, by decide, by decide, by decide, by decide⟩
  unfold data_read_scenario set_address
  apply Reachable.set
  apply Reachable.set
  apply Reachable.get
  apply Reachable.get
  apply Reachable.set
  apply Reachable.set
  apply Reachable.get
  apply Reachable.load_pattern_table
  exact Reachable.start

/-- C18 (amended): for a nametable address `a` in [0x2000, 0x3000) and a byte `v`,
with CTRL bit 2 clear and a 16-bit address register: set the VRAM address to `a`,
write `v` to DATA, set the address to `a` again and read DATA twice; the first
read returns the stale content of the read buffer, the second returns `v`. -/
theorem data_write_read (g : Gfx) (a v : Nat) (hctrl : get_bit g.control_reg 2 = 0)
    (ha1 : 0x2000 ≤ a) (ha2 : a < 0x3000) (hv : v < 256) (hg : g.address < 0x10000) :
    (get (set_address (set (set_address g a) 0x2007 v) a) 0x2007).1
      = g.data_read_buffer % 256 ∧
    (get (get (set_address (set (set_address g a) 0x2007 v) a) 0x2007).2 0x2007).1 = v := by
  rw [set_address_eq g a hg (by omega), set_data_eq]
  simp only []
  rw [write_mem_nametable _ a _ ha1 ha2, increment_address_one _ (by exact hctrl)]
  simp only []
  have e1 : u32 (a + 1) = a + 1 := by unfold u32; omega
  rw [e1, set_address_eq _ a (by simp only []; omega) (by omega)]
  simp only []
  rw [(get_data_eq _).1 (by simp only []; omega)]
  simp only []
  rw [increment_address_one _ (by exact hctrl), read_mem_nametable _ a ha1 ha2]
  simp only []
  rw [(get_data_eq _).1 (by simp only []; unfold u32; omega)]
  simp only []
  rw [upd_same]
  exact ⟨trivial, by omega⟩

/-- C18 (as stated) fails in the gap [0x3000, 0x3EFF), where `write_mem` discards
the byte: from the start state, after writing 0x55 at 0x3000 the second DATA read
returns 0. -/
theorem data_write_read_gap :
    get_bit start.control_reg 2 = 0 ∧
    (get (get (set_address (set (set_address start 0x3000) 0x2007 0x55) 0x3000) 0x2007).2
      0x2007).1 = 0 ∧
    ¬ (∀ (g : Gfx) (a v : Nat), get_bit g.control_reg 2 = 0 → a < 0x3f00 → v < 256 →
        (get (get (set_address (set (set_address g a) 0x2007 v) a) 0x2007).2 0x2007).1 = v) :=
  ⟨by decide, by decide,
    fun h => absurd (h start 0x3000 0x55 (by decide) (by decide) (by decide)) (by decide)⟩

/-- Witness of C18 (amended): from the start state, 0x55 written at 0x2005 comes
back on the second DATA read; the first returns the buffer, 0. -/
theorem data_write_read_witness :
    (get (set_address (set (set_address start 0x2005) 0x2007 0x55) 0x2005) 0x2007).1 = 0 ∧
    (get (get (set_address (set (set_address start 0x2005) 0x2007 0x55) 0x2005) 0x2007).2
      0x2007).1 = 0x55 :=
  data_write_read start 0x2005 0x55 (by decide) (by decide) (by decide) (by decide) (by decide)

theorem set_oam_data_eq (g : Gfx) (v : Nat) : set g 0x2004 v = oam_write g (v % 256) := by
  unfold set
  rw [if_neg (by decide), if_neg (by decide), if_pos rfl]

/-- C19: a write of the byte `v` to OAM_DATA with OAM_ADDR = `n` in [0, 256) sets
one field of sprite `n div 4`, selected by `n mod 4` (0: Y := v + 1, not wrapped,
1: tile index := v, 2: attribute := v, 3: X := v), leaves the other fields of that
sprite and every other sprite, sets OAM_ADDR to (n + 1) mod 256 and changes
nothing else of the PPU. -/
theorem oam_data_write (g : Gfx) (n v : Nat) (hn : g.oam_address = n) (hn256 : n < 256)
    (hv : v < 256) :
    n / 4 < 64 ∧
    set g 0x2004 v = { g with sprite_list := (set g 0x2004 v).sprite_list,
                              oam_address := (n + 1) % 256 } ∧
    (∀ k, k ≠ n / 4 → (set g 0x2004 v).sprite_list k = g.sprite_list k) ∧
    (n % 4 = 0 → (set g 0x2004 v).sprite_list (n / 4) = { g.sprite_list (n / 4) with sy := v + 1 }) ∧
    (n % 4 = 1 →
      (set g 0x2004 v).sprite_list (n / 4) = { g.sprite_list (n / 4) with tile_index := v }) ∧
    (n % 4 = 2 → (set g 0x2004 v).sprite_list (n / 4) = { g.sprite_list (n / 4) with attr := v }) ∧
    (n % 4 = 3 → (set g 0x2004 v).sprite_list (n / 4) = { g.sprite_list (n / 4) with sx := v }) := by
  subst hn
  have hvm : v % 256 = v := Nat.mod_eq_of_lt hv
  obtain ⟨w1, w2, w3, w4, w5, w6⟩ := oam_write_eq g v
  rw [hvm] at w3 w4 w5 w6
  rw [set_oam_data_eq, hvm]
  refine ⟨by omega, ?_, w2, w3, w4, w5, w6⟩
  unfold oam_write
  rfl

/-- Witness of C19: from the start state with OAM_ADDR moved to 5, writing 0x42 to
OAM_DATA sets the tile index of sprite 1 and moves OAM_ADDR to 6. -/
theorem oam_data_write_witness :
    (set (set start 0x2003 5) 0x2004 0x42).sprite_list 1
      = { sx := 0, sy := 0, tile_index := 0x42, attr := 0 } ∧
    (set (set start 0x2003 5) 0x2004 0x42).oam_address = 6 :=
  have h := oam_data_write (set start 0x2003 5) 5 0x42 (by decide) (by decide) (by decide)
  ⟨h.2.2.2.2.1 (by decide), congrArg Gfx.oam_address h.2.1⟩

end gfx

/-! ## The palette -/

namespace gfx

set_option maxRecDepth 100000 in
/-- The palette cell a PPU address in the palette range selects. -/
theorem palette_cells :
    ∀ r, r < 256 → r % 4 = 0 →
      0x3eff ≤ alias_adr (0x3f00 + r) ∧
      get_last_bits (alias_adr (0x3f00 + r)) 5 % 256 < 32 ∧
      get_last_bits (get_last_bits (alias_adr (0x3f00 + r)) 5 % 256) 2 = 0 ∧
      flip_bit (get_last_bits (alias_adr (0x3f00 + r)) 5 % 256) 4
        ≠ get_last_bits (alias_adr (0x3f00 + r)) 5 % 256 ∧
      0x3eff ≤ alias_adr (((0x3f00 + r) ^^^ 0x10) &&& 0x3fff) ∧
      get_last_bits (alias_adr (0x3f00 + r)) 5 % 256 = get_last_bits (alias_adr (0x3f00 + r)) 5 ∧
      (get_last_bits (alias_adr (((0x3f00 + r) ^^^ 0x10) &&& 0x3fff)) 5
          = get_last_bits (alias_adr (0x3f00 + r)) 5 % 256 ∨
        get_last_bits (alias_adr (((0x3f00 + r) ^^^ 0x10) &&& 0x3fff)) 5
          = flip_bit (get_last_bits (alias_adr (0x3f00 + r)) 5 % 256) 4) := by
  decide


/-- A PPU-side write at an address that folds into the palette range stores the
byte in the cell of the low five bits and, when the low two bits are zero, in the
cell with bit 4 flipped as well. -/
theorem write_mem_palette (g : Gfx) (a v : Nat) (h : 0x3eff ≤ alias_adr (a &&& 0x3fff)) :
    write_mem g a v
      = { g with
          palette :=
            if get_last_bits (get_last_bits (alias_adr (a &&& 0x3fff)) 5 % 256) 2 = 0 then
              upd (upd g.palette (get_last_bits (alias_adr (a &&& 0x3fff)) 5 % 256) (v % 256))
                (flip_bit (get_last_bits (alias_adr (a &&& 0x3fff)) 5 % 256) 4) (v % 256)
            else upd g.palette (get_last_bits (alias_adr (a &&& 0x3fff)) 5 % 256) (v % 256) } := by
  unfold write_mem
  simp only []
  rw [if_neg (by omega), if_neg (by omega), if_neg (by omega)]
  by_cases hc : get_last_bits (get_last_bits (alias_adr (a &&& 0x3fff)) 5 % 256) 2 = 0
  · rw [if_pos hc, if_pos hc]
  · rw [if_neg hc, if_neg hc]

theorem read_mem_palette (g : Gfx) (a : Nat) (h : 0x3eff ≤ alias_adr (a &&& 0x3fff)) :
    read_mem g a = g.palette (get_last_bits (alias_adr (a &&& 0x3fff)) 5) % 256 := by
  unfold read_mem
  simp only []
  rw [if_neg (by omega), if_neg (by omega), if_neg (by omega)]

/-- A PPU-side write changes the palette, if at all, in one cell, and in its twin
too when the cell is one of the eight twinned ones. -/
theorem write_mem_palette_cases (g : Gfx) (a v : Nat) :
    (write_mem g a v).palette = g.palette ∨
    ∃ c, c < 32 ∧
      (write_mem g a v).palette
        = if get_last_bits c 2 = 0 then upd (upd g.palette c (v % 256)) (flip_bit c 4) (v % 256)
          else upd g.palette c (v % 256) := by
  by_cases h : 0x3eff ≤ alias_adr (a &&& 0x3fff)
  · right
    refine ⟨get_last_bits (alias_adr (a &&& 0x3fff)) 5 % 256, ?_, ?_⟩
    · unfold get_last_bits; omega
    · rw [write_mem_palette g a v h]
  · left
    unfold write_mem
    simp only []
    by_cases h1 : alias_adr (a &&& 0x3fff) < 0x2000
    · rw [if_pos h1]
    rw [if_neg h1]
    by_cases h2 : alias_adr (a &&& 0x3fff) < 0x3000
    · rw [if_pos h2]
    rw [if_neg h2, if_pos (by omega)]

theorem write_mem_twins (g : Gfx) (a v : Nat) (h : palette_twins g) :
    palette_twins (write_mem g a v) := by
  unfold palette_twins at h ⊢
  rcases write_mem_palette_cases g a v with e | ⟨c, hc, e⟩
  · rw [e]; exact h
  · rw [e]
    obtain ⟨h0, h4, h8, hc'⟩ := h
    interval_cases c <;>
      simp [upd, flip_bit, set_bit, get_bit, get_last_bits, h0, h4, h8, hc']


/-! ### The palette in reachable states -/

theorem increment_address_palette (g : Gfx) : (increment_address g).palette = g.palette := by
  unfold increment_address
  split <;> rfl

theorem set_twins (g : Gfx) (adr val : Nat) (h : palette_twins g) :
    palette_twins (set g adr val) := by
  unfold set
  simp only []
  by_cases h0 : adr = 0x2000
  · rw [if_pos h0]; exact h
  rw [if_neg h0]
  by_cases h3 : adr = 0x2003
  · rw [if_pos h3]; exact h
  rw [if_neg h3]
  by_cases h4 : adr = 0x2004
  · rw [if_pos h4]; exact h
  rw [if_neg h4]
  by_cases h5 : adr = 0x2005
  · rw [if_pos h5]
    by_cases hl : g.address_latch = true
    · rw [if_pos hl]; exact h
    · rw [if_neg hl]; exact h
  rw [if_neg h5]
  by_cases h6 : adr = 0x2006
  · rw [if_pos h6]; exact h
  rw [if_neg h6]
  by_cases h7 : adr = 0x2007
  · rw [if_pos h7]
    have := write_mem_twins g g.address (val % 256) h
    unfold palette_twins at this ⊢
    rw [increment_address_palette]
    exact this
  rw [if_neg h7]; exact h

theorem get_palette (g : Gfx) (adr : Nat) : (get g adr).2.palette = g.palette := by
  unfold get
  by_cases h2 : adr = 0x2002
  · rw [if_pos h2]
  rw [if_neg h2]
  by_cases h7 : adr = 0x2007
  · rw [if_pos h7]
    by_cases ha : g.address < 0x3f00
    · rw [if_pos ha]; exact increment_address_palette _
    · rw [if_neg ha]; exact increment_address_palette _
  rw [if_neg h7]

theorem evaluate_sprites_loop_palette (y n i : Nat) (g : Gfx) :
    (evaluate_sprites_loop y n i g).palette = g.palette := by
  induction n generalizing i g with
  | zero => rfl
  | succ n ih =>
    unfold evaluate_sprites_loop
    simp only []
    split
    · split
      · rfl
      · rw [ih]
    · rw [ih]

theorem cycle_visible_palette (g : Gfx) : (cycle_visible g).1.palette = g.palette := by
  unfold cycle_visible
  by_cases hv : g.ver_cnt < 240
  · rw [if_pos hv]
    simp only []
    have e : (if g.ver_cnt = 0 ∧ g.hor_cnt = 0 then { g with scroll_y := g.scroll_y_start }
        else g).palette = g.palette := by split <;> rfl
    generalize (if g.ver_cnt = 0 ∧ g.hor_cnt = 0 then { g with scroll_y := g.scroll_y_start }
        else g) = g1 at e ⊢
    by_cases h0 : g1.hor_cnt = 0
    · rw [if_pos h0]
      unfold evaluate_sprites
      simp only []
      rw [evaluate_sprites_loop_palette]
      exact e
    rw [if_neg h0]
    by_cases h1 : g1.hor_cnt < 257
    · rw [if_pos h1]
      simp only []
      unfold cycle_pixel
      simp only []
      have eb : (background_fetch_pixel g1).2.palette = g1.palette := by
        unfold background_fetch_pixel
        simp only []
        split
        · split <;> split <;> rfl
        · split <;> rfl
      split <;> split <;> exact eb.trans e
    · rw [if_neg h1]; exact e
  · rw [if_neg hv]

theorem cycle_twins (g : Gfx) (h : palette_twins g) : palette_twins (cycle g).1 := by
  unfold cycle
  simp only []
  have e1 : (cycle_start g).1.palette = g.palette := by
    unfold cycle_start; split <;> rfl
  have e2 := cycle_visible_palette (cycle_start g).1
  generalize (cycle_visible (cycle_start g).1).1 = g2 at e2 ⊢
  have e3 : (cycle_flags g2).1.palette = g2.palette := by
    unfold cycle_flags
    simp only []
    split <;> split <;> rfl
  generalize (cycle_flags g2).1 = g3 at e3 ⊢
  have e4 : (cycle_advance g3).palette = g3.palette := by
    unfold cycle_advance
    simp only []
    split <;> split <;> (try split) <;> rfl
  generalize (cycle_advance g3) = g4 at e4 ⊢
  have h4 : palette_twins g4 := by
    unfold palette_twins at h ⊢
    rw [e4, e3, e2, e1]
    exact h
  unfold cycle_delayed_set
  by_cases ha : g4.set_delay_active = true
  · rw [if_pos ha]
    by_cases hd : g4.set_delay = 0
    · rw [if_pos hd]
      exact set_twins g4 _ _ h4
    · rw [if_neg hd]; exact h4
  · rw [if_neg ha]; exact h4

/-- In every reachable PPU state the twinned palette entries are pairwise equal. -/
theorem reachable_twins (g : Gfx) (h : Reachable g) : palette_twins g := by
  induction h with
  | start => exact ⟨rfl, rfl, rfl, rfl⟩
  | init g _ ih => exact ih
  | load_pattern_table g data _ ih => exact ih
  | set g adr val _ ih => exact set_twins g adr val ih
  | set_with_delay g adr val c _ ih => exact ih
  | get g adr _ ih =>
    unfold palette_twins at ih ⊢
    rw [get_palette]
    exact ih
  | cycle g _ ih => exact cycle_twins g ih
  | oam_write g val _ ih => exact ih
  | set_mirroring g val _ ih => exact ih


/-- C20: for a palette address `a` in [0x3F00, 0x4000) with low two bits zero and a
byte `v`, after a PPU-side write of `v` at `a` the PPU-side reads at `a` and at
`a xor 0x10` both return `v`; and in every reachable PPU state the palette
entries 0x00/0x10, 0x04/0x14, 0x08/0x18 and 0x0C/0x1C are pairwise equal. -/
theorem palette_alias (g : Gfx) (a v : Nat) (h1 : 0x3f00 ≤ a) (h2 : a < 0x4000)
    (h3 : a % 4 = 0) (hv : v < 256) :
    read_mem (write_mem g a v) a = v ∧
    read_mem (write_mem g a v) (a ^^^ 0x10) = v ∧
    (Reachable g →
      g.palette 0x00 = g.palette 0x10 ∧ g.palette 0x04 = g.palette 0x14 ∧
      g.palette 0x08 = g.palette 0x18 ∧ g.palette 0x0c = g.palette 0x1c) := by
  obtain ⟨r, rfl⟩ : ∃ r, a = 0x3f00 + r := ⟨a - 0x3f00, by omega⟩
  obtain ⟨c1, c2, c3, c4, c5, c6, c7⟩ := palette_cells r (by omega) (by omega)
  have hm : (0x3f00 + r) &&& 0x3fff = 0x3f00 + r := by
    rw [mask14]; exact Nat.mod_eq_of_lt h2
  have hw := write_mem_palette g (0x3f00 + r) v (by rw [hm]; exact c1)
  rw [hm, if_pos c3, c6] at hw
  rw [c6] at c4 c7
  have hvm : v % 256 = v := Nat.mod_eq_of_lt hv
  refine ⟨?_, ?_, fun hr => reachable_twins g hr⟩
  · rw [read_mem_palette _ _ (by rw [hm]; exact c1), hm, hw]
    simp only []
    rw [upd_ne _ _ _ _ (Ne.symm c4), upd_same, hvm, hvm]
  · rw [read_mem_palette _ _ c5, hw]
    simp only []
    rcases c7 with e | e
    · rw [e, upd_ne _ _ _ _ (Ne.symm c4), upd_same, hvm, hvm]
    · rw [e, upd_same, hvm, hvm]

/-- Witness of C20: scenario 5 of the spec. After 0x3F is written at 0x3F10 a read
at 0x3F00 returns 0x3F. -/
theorem palette_alias_witness :
    read_mem (write_mem start 0x3f10 0x3f) 0x3f10 = 0x3f ∧
    read_mem (write_mem start 0x3f10 0x3f) 0x3f00 = 0x3f :=
  have h := palette_alias start 0x3f10 0x3f (by decide) (by decide) (by decide) (by decide)
  ⟨h.1, h.2.1⟩

end gfx

/-! ## The PPU-side memory map -/

namespace gfx

theorem mirror_adr_lt (m : Bool) (x : Nat) (h : x < 0x1000) : mirror_adr m x < 0x800 := by
  unfold mirror_adr in_range
  cases m <;> simp only [Bool.false_eq_true, if_true, if_false, Bool.and_eq_true, decide_eq_true_eq]
    <;> split_ifs <;> omega

theorem mirror_adr_horizontal (k : Nat) (hk : k < 0x400) :
    mirror_adr false k = k ∧ mirror_adr false (0x400 + k) = k ∧
    mirror_adr false (0x800 + k) = 0x400 + k ∧ mirror_adr false (0xc00 + k) = 0x400 + k := by
  unfold mirror_adr in_range
  simp only [if_true, Bool.and_eq_true, decide_eq_true_eq]
  refine ⟨?_, ?_, ?_, ?_⟩ <;> split_ifs <;> omega

theorem mirror_adr_vertical (k : Nat) (hk : k < 0x400) :
    mirror_adr true k = k ∧ mirror_adr true (0x800 + k) = k ∧
    mirror_adr true (0x400 + k) = 0x400 + k ∧ mirror_adr true (0xc00 + k) = 0x400 + k := by
  unfold mirror_adr in_range
  simp only [Bool.true_eq_false, if_false, Bool.and_eq_true, decide_eq_true_eq]
  refine ⟨?_, ?_, ?_, ?_⟩ <;> split_ifs <;> omega

/-- C21: for an offset `k` below 0x400, with horizontal mirroring (flag 0) the
addresses 0x2000+k and 0x2400+k fold to cell `k` of the nametable array and
0x2800+k and 0x2C00+k to cell 0x400+k; with vertical mirroring (flag 1) 0x2000+k
and 0x2800+k fold to cell `k` and 0x2400+k and 0x2C00+k to cell 0x400+k. For every
address in [0x2000, 0x3000) the cell index is below 0x800, a read returns the
byte of that cell and a write stores into that cell, so that a read after a
write returns the byte written exactly when the two addresses fold to one cell. -/
theorem nametable_mirroring (g : Gfx) (k : Nat) (hk : k < 0x400) :
    (g.mirroring = false →
      mirror_adr g.mirroring (0x2000 + k - 0x2000) = k ∧
      mirror_adr g.mirroring (0x2400 + k - 0x2000) = k ∧
      mirror_adr g.mirroring (0x2800 + k - 0x2000) = 0x400 + k ∧
      mirror_adr g.mirroring (0x2c00 + k - 0x2000) = 0x400 + k) ∧
    (g.mirroring = true →
      mirror_adr g.mirroring (0x2000 + k - 0x2000) = k ∧
      mirror_adr g.mirroring (0x2800 + k - 0x2000) = k ∧
      mirror_adr g.mirroring (0x2400 + k - 0x2000) = 0x400 + k ∧
      mirror_adr g.mirroring (0x2c00 + k - 0x2000) = 0x400 + k) ∧
    (∀ a v, 0x2000 ≤ a → a < 0x3000 →
      mirror_adr g.mirroring (a - 0x2000) < 0x800 ∧
      read_mem g a = g.memory (mirror_adr g.mirroring (a - 0x2000)) % 256 ∧
      write_mem g a v
        = { g with memory := upd g.memory (mirror_adr g.mirroring (a - 0x2000)) (v % 256) } ∧
      ∀ b, 0x2000 ≤ b → b < 0x3000 →
        read_mem (write_mem g a v) b
          = if mirror_adr g.mirroring (b - 0x2000) = mirror_adr g.mirroring (a - 0x2000)
            then v % 256 else read_mem g b) := by
  have e0 : 0x2000 + k - 0x2000 = k := by omega
  have e1 : 0x2400 + k - 0x2000 = 0x400 + k := by omega
  have e2 : 0x2800 + k - 0x2000 = 0x800 + k := by omega
  have e3 : 0x2c00 + k - 0x2000 = 0xc00 + k := by omega
  rw [e0, e1, e2, e3]
  refine ⟨fun h => ?_, fun h => ?_, fun a v h1 h2 => ⟨mirror_adr_lt _ _ (by omega),
    read_mem_nametable g a h1 h2, write_mem_nametable g a v h1 h2, fun b h3 h4 => ?_⟩⟩
  · rw [h]; exact mirror_adr_horizontal k hk
  · rw [h]
    obtain ⟨a, b, c, d⟩ := mirror_adr_vertical k hk
    exact ⟨a, b, c, d⟩
  · rw [write_mem_nametable g a v h1 h2, read_mem_nametable _ b h3 h4,
      read_mem_nametable g b h3 h4]
    simp only []
    by_cases hc : mirror_adr g.mirroring (b - 0x2000) = mirror_adr g.mirroring (a - 0x2000)
    · rw [if_pos hc, hc, upd_same, Nat.mod_mod]
    · rw [if_neg hc, upd_ne _ _ _ _ hc]

/-- Witness of C21: with horizontal mirroring 0x77 written at 0x2005 is read at
0x2405 and not at 0x2805. -/
theorem nametable_mirroring_witness :
    read_mem (write_mem start 0x2005 0x77) 0x2405 = 0x77 ∧
    read_mem (write_mem start 0x2005 0x77) 0x2805 = 0 :=
  have h := (nametable_mirroring start 5 (by decide)).2.2 0x2005 0x77 (by decide) (by decide)
  ⟨(h.2.2.2 0x2405 (by decide) (by decide)).trans (by decide),
   (h.2.2.2 0x2805 (by decide) (by decide)).trans (by decide)⟩

theorem write_mem_gap (g : Gfx) (a v : Nat) (h1 : 0x3000 ≤ a) (h2 : a < 0x3eff) :
    write_mem g a v = g := by
  unfold write_mem
  simp only []
  rw [mask14, Nat.mod_eq_of_lt (show a < 0x4000 by omega), alias_adr_of_lt a (by omega),
    if_neg (by omega), if_neg (by omega), if_pos h2]

/-- C22: a PPU-side write at 0x3EFF, the last address of the gap, is not a no-op:
`write_mem` tests `adr < 0x3eff`, so the byte goes to palette entry 0x1F. At every
address of [0x3000, 0x3EFF) the write changes nothing. -/
theorem write_mem_gap_end :
    (init start).palette 0x1f = 0 ∧
    (write_mem (init start) 0x3eff 0x55).palette 0x1f = 0x55 ∧
    read_mem (write_mem (init start) 0x3eff 0x55) 0x3f1f = 0x55 ∧
    (∀ (g : Gfx) (a v : Nat), 0x3000 ≤ a → a < 0x3eff → write_mem g a v = g) :=
  ⟨by decide, by decide, by decide, write_mem_gap⟩

/-! ### What each block of `gfx::cycle` changes -/

theorem cycle_start_frame (g : Gfx) :
    (cycle_start g).1 = { g with started := (cycle_start g).1.started,
                                 frame_idx := (cycle_start g).1.frame_idx } := by
  unfold cycle_start
  split <;> rfl

theorem evaluate_sprites_loop_frame (y n i : Nat) (g : Gfx) :
    evaluate_sprites_loop y n i g
      = { g with line_sprite_list := (evaluate_sprites_loop y n i g).line_sprite_list,
                 line_sprite_data_list := (evaluate_sprites_loop y n i g).line_sprite_data_list } := by
  induction n generalizing i g with
  | zero => rfl
  | succ n ih =>
    unfold evaluate_sprites_loop
    simp only []
    split
    · split
      · rfl
      · rw [ih]
    · rw [ih]

theorem background_fetch_pixel_frame (g : Gfx) :
    (background_fetch_pixel g).2
      = { g with scroll_x := (background_fetch_pixel g).2.scroll_x,
                 scroll_y := (background_fetch_pixel g).2.scroll_y,
                 scroll_nametable := (background_fetch_pixel g).2.scroll_nametable } := by
  unfold background_fetch_pixel
  simp only []
  split
  · split <;> split <;> rfl
  · split <;> rfl

theorem cycle_pixel_frame (g : Gfx) :
    (cycle_pixel g).1
      = { g with scroll_x := (cycle_pixel g).1.scroll_x,
                 scroll_y := (cycle_pixel g).1.scroll_y,
                 scroll_nametable := (cycle_pixel g).1.scroll_nametable,
                 sprite_0_hit := (cycle_pixel g).1.sprite_0_hit } := by
  unfold cycle_pixel
  simp only []
  split <;> split <;> (rw [background_fetch_pixel_frame])


theorem cycle_visible_frame (g : Gfx) :
    (cycle_visible g).1
      = { g with scroll_x := (cycle_visible g).1.scroll_x,
                 scroll_y := (cycle_visible g).1.scroll_y,
                 scroll_nametable := (cycle_visible g).1.scroll_nametable,
                 sprite_0_hit := (cycle_visible g).1.sprite_0_hit,
                 line_sprite_list := (cycle_visible g).1.line_sprite_list,
                 line_sprite_data_list := (cycle_visible g).1.line_sprite_data_list } := by
  unfold cycle_visible
  by_cases hv : g.ver_cnt < 240
  · rw [if_pos hv]
    simp only []
    by_cases h00 : g.ver_cnt = 0 ∧ g.hor_cnt = 0
    · rw [if_pos h00]
      simp only []
      rw [if_pos h00.2]
      unfold evaluate_sprites
      simp only []
      rw [evaluate_sprites_loop_frame]
    · rw [if_neg h00]
      by_cases h0 : g.hor_cnt = 0
      · rw [if_pos h0]
        unfold evaluate_sprites
        simp only []
        rw [evaluate_sprites_loop_frame]
      rw [if_neg h0]
      by_cases h1 : g.hor_cnt < 257
      · rw [if_pos h1]
        simp only []
        rw [cycle_pixel_frame]
      · rw [if_neg h1]
  · rw [if_neg hv]

theorem cycle_flags_frame (g : Gfx) :
    (cycle_flags g).1 = { g with sprite_0_hit := (cycle_flags g).1.sprite_0_hit,
                                 in_vblank := (cycle_flags g).1.in_vblank } := by
  unfold cycle_flags
  simp only []
  split <;> split <;> rfl

theorem cycle_advance_frame (g : Gfx) :
    cycle_advance g = { g with hor_cnt := (cycle_advance g).hor_cnt,
                               ver_cnt := (cycle_advance g).ver_cnt,
                               frame_idx := (cycle_advance g).frame_idx,
                               in_vblank := (cycle_advance g).in_vblank } := by
  unfold cycle_advance
  simp only []
  split <;> split <;> (try split) <;> rfl

/-- A register write leaves the timing variables, the flags, the read buffer, the
CHR and the sprite shortlist alone. -/
theorem set_frame (g : Gfx) (adr val : Nat) :
    set g adr val
      = { g with control_reg := (set g adr val).control_reg,
                 scroll_nametable := (set g adr val).scroll_nametable,
                 oam_address := (set g adr val).oam_address,
                 sprite_list := (set g adr val).sprite_list,
                 scroll_x := (set g adr val).scroll_x,
                 scroll_x_start := (set g adr val).scroll_x_start,
                 scroll_y_start := (set g adr val).scroll_y_start,
                 address_latch := (set g adr val).address_latch,
                 address := (set g adr val).address,
                 memory := (set g adr val).memory,
                 palette := (set g adr val).palette } := by
  unfold set
  simp only []
  by_cases h0 : adr = 0x2000
  · rw [if_pos h0]
  rw [if_neg h0]
  by_cases h3 : adr = 0x2003
  · rw [if_pos h3]
  rw [if_neg h3]
  by_cases h4 : adr = 0x2004
  · rw [if_pos h4]; rfl
  rw [if_neg h4]
  by_cases h5 : adr = 0x2005
  · rw [if_pos h5]
    by_cases hl : g.address_latch = true
    · rw [if_pos hl]
    · rw [if_neg hl]
  rw [if_neg h5]
  by_cases h6 : adr = 0x2006
  · rw [if_pos h6]
  rw [if_neg h6]
  by_cases h7 : adr = 0x2007
  · rw [if_pos h7]
    unfold increment_address write_mem
    simp only []
    split <;> split <;> (try split) <;> (try split) <;> (try split) <;> rfl
  rw [if_neg h7]

theorem cycle_delayed_set_frame (g : Gfx) :
    cycle_delayed_set g
      = { g with control_reg := (cycle_delayed_set g).control_reg,
                 scroll_nametable := (cycle_delayed_set g).scroll_nametable,
                 oam_address := (cycle_delayed_set g).oam_address,
                 sprite_list := (cycle_delayed_set g).sprite_list,
                 scroll_x := (cycle_delayed_set g).scroll_x,
                 scroll_x_start := (cycle_delayed_set g).scroll_x_start,
                 scroll_y_start := (cycle_delayed_set g).scroll_y_start,
                 address_latch := (cycle_delayed_set g).address_latch,
                 address := (cycle_delayed_set g).address,
                 memory := (cycle_delayed_set g).memory,
                 palette := (cycle_delayed_set g).palette,
                 set_delay := (cycle_delayed_set g).set_delay,
                 set_delay_active := (cycle_delayed_set g).set_delay_active } := by
  unfold cycle_delayed_set
  by_cases ha : g.set_delay_active = true
  · rw [if_pos ha]
    by_cases hd : g.set_delay = 0
    · rw [if_pos hd]
      simp only []
      rw [set_frame]
    · rw [if_neg hd]
  · rw [if_neg ha]

theorem get_frame (g : Gfx) (adr : Nat) :
    (get g adr).2 = { g with in_vblank := (get g adr).2.in_vblank,
                             address_latch := (get g adr).2.address_latch,
                             data_read_buffer := (get g adr).2.data_read_buffer,
                             address := (get g adr).2.address } := by
  unfold get
  by_cases h2 : adr = 0x2002
  · rw [if_pos h2]
  rw [if_neg h2]
  by_cases h7 : adr = 0x2007
  · rw [if_pos h7]
    unfold increment_address
    split <;> split <;> rfl
  rw [if_neg h7]


/-! ### The dot and scanline counters -/

theorem cycle_start_parity (g : Gfx) :
    (cycle_start g).1.frame_idx % 2 = g.frame_idx % 2 := by
  unfold cycle_start
  split
  · rename_i h
    simp only [Bool.and_eq_true, beq_iff_eq] at h
    simp only []
    rw [h.2]
  · rfl

/-- The counters after a tick, in a state whose counters are in range: the tick
at scanline 261, dot 339 of an odd frame and the tick at scanline 261, dot 340
lead to dot 0 of scanline 0 of a frame of the other parity, every other tick to
the next dot of the same frame. -/
theorem cycle_counters (g : Gfx) (hh : g.hor_cnt < 341) (hv : g.ver_cnt < 262) :
    ((g.frame_idx % 2 = 1 ∧ g.ver_cnt = 261 ∧ g.hor_cnt = 339) ∨
        (g.ver_cnt = 261 ∧ g.hor_cnt = 340) →
      (cycle g).1.hor_cnt = 0 ∧ (cycle g).1.ver_cnt = 0 ∧
      (cycle g).1.frame_idx % 2 ≠ g.frame_idx % 2) ∧
    (¬ ((g.frame_idx % 2 = 1 ∧ g.ver_cnt = 261 ∧ g.hor_cnt = 339) ∨
        (g.ver_cnt = 261 ∧ g.hor_cnt = 340)) →
      dots (cycle g).1 = dots g + 1 ∧ (cycle g).1.hor_cnt < 341 ∧ (cycle g).1.ver_cnt < 262 ∧
      (cycle g).1.frame_idx % 2 = g.frame_idx % 2) := by
  have hp := cycle_start_parity g
  unfold cycle
  simp only []
  rw [cycle_delayed_set_frame]
  simp only []
  generalize hf : (cycle_flags (cycle_visible (cycle_start g).1).1).1 = f
  have e1 : f.hor_cnt = g.hor_cnt := by
    rw [← hf, cycle_flags_frame, cycle_visible_frame, cycle_start_frame]
  have e2 : f.ver_cnt = g.ver_cnt := by
    rw [← hf, cycle_flags_frame, cycle_visible_frame, cycle_start_frame]
  have e3 : f.frame_idx = (cycle_start g).1.frame_idx := by
    rw [← hf, cycle_flags_frame, cycle_visible_frame]
  rw [← e3] at hp
  clear hf e3
  unfold cycle_advance dots scanline_length scanline_count u32 u64
  simp only []
  refine ⟨fun hw => ?_, fun hw => ?_⟩
  · split_ifs <;> simp only [true_and] at * <;> omega
  · split_ifs <;> simp only [] at * <;> omega


/-- The counters stay in range along every run of the exported functions. -/
theorem reachable_counters (g : Gfx) (h : Reachable g) :
    g.hor_cnt < 341 ∧ g.ver_cnt < 262 := by
  induction h with
  | start => exact ⟨by decide, by decide⟩
  | init g _ _ => exact ⟨(by decide : (0 : Nat) < 341), (by decide : (0 : Nat) < 262)⟩
  | load_pattern_table g data _ ih => exact ih
  | set g adr val _ ih => rw [set_frame]; exact ih
  | set_with_delay g adr val c _ ih => exact ih
  | get g adr _ ih => rw [get_frame]; exact ih
  | cycle g _ ih =>
    obtain ⟨c1, c2⟩ := cycle_counters g ih.1 ih.2
    by_cases hw : (g.frame_idx % 2 = 1 ∧ g.ver_cnt = 261 ∧ g.hor_cnt = 339) ∨
        (g.ver_cnt = 261 ∧ g.hor_cnt = 340)
    · obtain ⟨a, b, _⟩ := c1 hw
      rw [a, b]
      exact ⟨by decide, by decide⟩
    · exact ⟨(c2 hw).2.1, (c2 hw).2.2.1⟩
  | oam_write g val _ ih => exact ih
  | set_mirroring g val _ ih => exact ih

/-- C23: in every reachable PPU state the dot counter is below 341 and the
scanline counter below 262; the odd-frame skip at scanline 261, dot 339 adds 2
and lands on 341, which wraps like the ordinary end of the line. -/
theorem counters_in_range (g : Gfx) (h : Reachable g) :
    g.hor_cnt < 341 ∧ g.ver_cnt < 262 :=
  reachable_counters g h

/-- Witness of C23: the state after the first tick is at dot 1 of scanline 0. -/
theorem counters_in_range_witness :
    (cycle (init start)).1.hor_cnt < 341 ∧ (cycle (init start)).1.ver_cnt < 262 :=
  counters_in_range _ (Reachable.cycle _ Reachable.start)

/-! ### The length of a frame -/

theorem ticks_succ (n : Nat) (g : Gfx) : ticks (n + 1) g = (cycle (ticks n g)).1 := by
  induction n generalizing g with
  | zero => rfl
  | succ n ih =>
    show ticks (n + 1) (cycle g).1 = _
    rw [ih]
    rfl

theorem reachable_ticks (n : Nat) (g : Gfx) (h : Reachable g) : Reachable (ticks n g) := by
  induction n with
  | zero => exact h
  | succ n ih => rw [ticks_succ]; exact Reachable.cycle _ ih

/-- From dot 0 of scanline 0, as long as fewer ticks have run than the frame is
long, the position is the number of ticks and the frame parity is unchanged. -/
theorem ticks_dots (g : Gfx) (h0 : g.hor_cnt = 0) (v0 : g.ver_cnt = 0) (n : Nat)
    (hn : n + (g.frame_idx % 2) < 341 * 262) :
    dots (ticks n g) = n ∧ (ticks n g).hor_cnt < 341 ∧ (ticks n g).ver_cnt < 262 ∧
    (ticks n g).frame_idx % 2 = g.frame_idx % 2 := by
  induction n with
  | zero =>
    unfold dots scanline_length
    show g.ver_cnt * 341 + g.hor_cnt = 0 ∧ g.hor_cnt < 341 ∧ g.ver_cnt < 262 ∧ _
    rw [h0, v0]
    exact ⟨rfl, by decide, by decide, rfl⟩
  | succ n ih =>
    obtain ⟨d, hh, hv, hp⟩ := ih (by omega)
    rw [ticks_succ]
    have c := (cycle_counters (ticks n g) hh hv).2 (by
      unfold dots scanline_length at d
      omega)
    exact ⟨by rw [c.1, d], c.2.1, c.2.2.1, by rw [c.2.2.2, hp]⟩

/-- C24: from dot 0 of scanline 0 of a frame with odd index the PPU is back at dot
0 of scanline 0 after 341*262 - 1 ticks and not before; with even index after
341*262 ticks and not before. -/
theorem frame_length (g : Gfx) (h0 : g.hor_cnt = 0) (v0 : g.ver_cnt = 0) :
    (g.frame_idx % 2 = 1 →
      (ticks (341 * 262 - 1) g).hor_cnt = 0 ∧ (ticks (341 * 262 - 1) g).ver_cnt = 0 ∧
      ∀ n, 0 < n → n < 341 * 262 - 1 →
        ¬ ((ticks n g).hor_cnt = 0 ∧ (ticks n g).ver_cnt = 0)) ∧
    (g.frame_idx % 2 = 0 →
      (ticks (341 * 262) g).hor_cnt = 0 ∧ (ticks (341 * 262) g).ver_cnt = 0 ∧
      ∀ n, 0 < n → n < 341 * 262 →
        ¬ ((ticks n g).hor_cnt = 0 ∧ (ticks n g).ver_cnt = 0)) := by
  have hmid : ∀ n, 0 < n → n + (g.frame_idx % 2) < 341 * 262 →
      ¬ ((ticks n g).hor_cnt = 0 ∧ (ticks n g).ver_cnt = 0) := by
    intro n hn hlt hz
    have d := (ticks_dots g h0 v0 n hlt).1
    unfold dots at d
    rw [hz.1, hz.2] at d
    omega
  refine ⟨fun hodd => ?_, fun heven => ?_⟩
  · obtain ⟨d, hh, hv, hp⟩ := ticks_dots g h0 v0 (341 * 262 - 2) (by omega)
    have e : 341 * 262 - 1 = (341 * 262 - 2) + 1 := by decide
    rw [e, ticks_succ]
    have c := (cycle_counters _ hh hv).1 (by
      unfold dots scanline_length at d
      left; omega)
    exact ⟨c.1, c.2.1, fun n h1 h2 => hmid n h1 (by omega)⟩
  · obtain ⟨d, hh, hv, hp⟩ := ticks_dots g h0 v0 (341 * 262 - 1) (by omega)
    have e : 341 * 262 = (341 * 262 - 1) + 1 := by decide
    rw [e, ticks_succ]
    have c := (cycle_counters _ hh hv).1 (by
      unfold dots scanline_length at d
      right; omega)
    exact ⟨c.1, c.2.1, fun n h1 h2 => hmid n h1 (by omega)⟩


/-- Witness of C24: the first frame after `gfx::init()` has index 0 and lasts
341*262 ticks; a frame of index 1 lasts one tick less. -/
theorem frame_length_witness :
    (ticks (341 * 262) (init start)).hor_cnt = 0 ∧
    (ticks (341 * 262) (init start)).ver_cnt = 0 ∧
    (ticks (341 * 262 - 1) { init start with frame_idx := 1 }).hor_cnt = 0 ∧
    (ticks (341 * 262 - 1) { init start with frame_idx := 1 }).ver_cnt = 0 :=
  have h := frame_length (init start) rfl rfl
  have k := frame_length { init start with frame_idx := 1 } rfl rfl
  ⟨(h.2 rfl).1, (h.2 rfl).2.1, (k.1 rfl).1, (k.1 rfl).2.1⟩

/-! ### Vertical blank and the sprite-0 flag -/

theorem cycle_flags_vblank (x : Gfx) :
    (x.ver_cnt = 241 ∧ x.hor_cnt = 1 →
      (cycle_flags x).1.in_vblank = true ∧ (cycle_flags x).2 = get_nmi_output_flag x) ∧
    (¬ (x.ver_cnt = 241 ∧ x.hor_cnt = 1) →
      (cycle_flags x).1.in_vblank = x.in_vblank ∧ (cycle_flags x).2 = false) := by
  unfold cycle_flags prerender_line scanline_count
  simp only []
  refine ⟨fun h => ?_, fun h => ?_⟩
  · rw [if_neg (show ¬ (x.ver_cnt = 262 - 1 ∧ x.hor_cnt = 1) by omega), if_pos h]
    exact ⟨rfl, rfl⟩
  · by_cases hp : x.ver_cnt = 262 - 1 ∧ x.hor_cnt = 1
    · rw [if_pos hp]
      simp only []
      rw [if_neg h]
      exact ⟨rfl, rfl⟩
    · rw [if_neg hp, if_neg h]
      exact ⟨rfl, rfl⟩

theorem cycle_advance_vblank (f : Gfx) :
    ((cycle_advance f).in_vblank = true → f.in_vblank = true) ∧
    (f.ver_cnt = 241 → f.hor_cnt = 1 → (cycle_advance f).in_vblank = f.in_vblank) := by
  unfold cycle_advance scanline_length scanline_count u32
  simp only []
  refine ⟨fun h => ?_, fun h1 h2 => ?_⟩
  · revert h
    split_ifs <;> intro h <;>
      first
      | exact h
      | simp only [] at h
  · split_ifs <;> (try simp only [] at *) <;>
      first
      | rfl
      | omega

/-- C25: the tick executed at scanline 241, dot 1 sets `in_vblank` and calls
`machine::set_nmi_flag()` exactly when bit 7 of CTRL is set; a tick at any other
position does not call it and does not set `in_vblank`. -/
theorem vblank_tick (g : Gfx) :
    (g.ver_cnt = 241 ∧ g.hor_cnt = 1 →
      (cycle g).1.in_vblank = true ∧ ((cycle g).2.nmi = true ↔ get_bit g.control_reg 7 = 1)) ∧
    (¬ (g.ver_cnt = 241 ∧ g.hor_cnt = 1) →
      (cycle g).2.nmi = false ∧ ((cycle g).1.in_vblank = true → g.in_vblank = true)) := by
  unfold cycle
  simp only []
  rw [cycle_delayed_set_frame]
  simp only []
  generalize hx : (cycle_visible (cycle_start g).1).1 = x
  have e1 : x.hor_cnt = g.hor_cnt := by rw [← hx, cycle_visible_frame, cycle_start_frame]
  have e2 : x.ver_cnt = g.ver_cnt := by rw [← hx, cycle_visible_frame, cycle_start_frame]
  have e3 : x.control_reg = g.control_reg := by rw [← hx, cycle_visible_frame, cycle_start_frame]
  have e4 : x.in_vblank = g.in_vblank := by rw [← hx, cycle_visible_frame, cycle_start_frame]
  obtain ⟨f1, f2⟩ := cycle_flags_vblank x
  have e5 : (cycle_flags x).1.hor_cnt = x.hor_cnt := by rw [cycle_flags_frame]
  have e6 : (cycle_flags x).1.ver_cnt = x.ver_cnt := by rw [cycle_flags_frame]
  obtain ⟨a1, a2⟩ := cycle_advance_vblank (cycle_flags x).1
  rw [← e1, ← e2, ← e3, ← e4]
  refine ⟨fun h => ?_, fun h => ?_⟩
  · obtain ⟨v, n⟩ := f1 h
    rw [a2 (by rw [e6]; exact h.1) (by rw [e5]; exact h.2), v, n]
    unfold get_nmi_output_flag
    exact ⟨rfl, by rw [beq_iff_eq]⟩
  · obtain ⟨v, n⟩ := f2 h
    rw [n]
    exact ⟨rfl, fun hv => by rw [← v]; exact a1 hv⟩


/-- Witness of C25: at scanline 241, dot 1 with bit 7 of CTRL set the tick sets
`in_vblank` and raises the NMI flag. -/
theorem vblank_tick_witness :
    (cycle vblank_scenario).1.in_vblank = true ∧ (cycle vblank_scenario).2.nmi = true :=
  have h := (vblank_tick vblank_scenario).1 ⟨rfl, rfl⟩
  ⟨h.1, h.2.mpr (by decide)⟩

theorem cycle_visible_hit (g : Gfx) :
    (g.sprite_0_hit = true → (cycle_visible g).1.sprite_0_hit = true) ∧
    (240 ≤ g.ver_cnt → (cycle_visible g).1.sprite_0_hit = g.sprite_0_hit) := by
  unfold cycle_visible
  by_cases hv : g.ver_cnt < 240
  · rw [if_pos hv]
    refine ⟨fun hs => ?_, fun h => absurd hv (by omega)⟩
    simp only []
    have e : (if g.ver_cnt = 0 ∧ g.hor_cnt = 0 then { g with scroll_y := g.scroll_y_start }
        else g).sprite_0_hit = true := by split <;> exact hs
    generalize (if g.ver_cnt = 0 ∧ g.hor_cnt = 0 then { g with scroll_y := g.scroll_y_start }
        else g) = g1 at e ⊢
    by_cases h0 : g1.hor_cnt = 0
    · rw [if_pos h0]
      unfold evaluate_sprites
      simp only []
      rw [evaluate_sprites_loop_frame]
      exact e
    rw [if_neg h0]
    by_cases h1 : g1.hor_cnt < 257
    · rw [if_pos h1]
      simp only []
      unfold cycle_pixel
      simp only []
      split <;> split <;> first | rfl | (rw [background_fetch_pixel_frame]; exact e)
    · rw [if_neg h1]; exact e
  · rw [if_neg hv]
    exact ⟨fun hs => hs, fun _ => rfl⟩

/-- The sprite-0 flag across one tick: the tick at scanline 261, dot 1 clears it;
no other tick clears it; a tick outside the visible scanlines leaves it. -/
theorem cycle_sprite_0_hit (g : Gfx) :
    (g.ver_cnt = 261 ∧ g.hor_cnt = 1 → (cycle g).1.sprite_0_hit = false) ∧
    (¬ (g.ver_cnt = 261 ∧ g.hor_cnt = 1) → g.sprite_0_hit = true →
      (cycle g).1.sprite_0_hit = true) ∧
    (¬ (g.ver_cnt = 261 ∧ g.hor_cnt = 1) → 240 ≤ g.ver_cnt →
      (cycle g).1.sprite_0_hit = g.sprite_0_hit) := by
  unfold cycle
  simp only []
  rw [cycle_delayed_set_frame]
  simp only []
  rw [cycle_advance_frame]
  simp only []
  have s1 : (cycle_start g).1.hor_cnt = g.hor_cnt := by rw [cycle_start_frame]
  have s2 : (cycle_start g).1.ver_cnt = g.ver_cnt := by rw [cycle_start_frame]
  have s3 : (cycle_start g).1.sprite_0_hit = g.sprite_0_hit := by rw [cycle_start_frame]
  obtain ⟨v1, v2⟩ := cycle_visible_hit (cycle_start g).1
  rw [s3] at v1 v2
  rw [s2] at v2
  generalize hx : (cycle_visible (cycle_start g).1).1 = x at v1 v2
  have e1 : x.hor_cnt = g.hor_cnt := by rw [← hx, cycle_visible_frame, cycle_start_frame]
  have e2 : x.ver_cnt = g.ver_cnt := by rw [← hx, cycle_visible_frame, cycle_start_frame]
  have hf : (cycle_flags x).1.sprite_0_hit
      = if x.ver_cnt = 261 ∧ x.hor_cnt = 1 then false else x.sprite_0_hit := by
    unfold cycle_flags prerender_line scanline_count
    simp only []
    split <;> split <;> rfl
  rw [hf, e1, e2]
  refine ⟨fun h => by rw [if_pos h], fun h hs => ?_, fun h hv => ?_⟩
  · rw [if_neg h]; exact v1 hs
  · rw [if_neg h]; exact v2 hv

/-- C26 (amended): in every reachable PPU state whose position is dot 2 or later of
the pre-render scanline (scanline 261), `sprite_0_hit` is false: the flag is
cleared by the tick executed at dot 1. -/
theorem prerender_sprite_0_hit (g : Gfx) (h : Reachable g) (hv : g.ver_cnt = 261)
    (hh : 2 ≤ g.hor_cnt) : g.sprite_0_hit = false := by
  induction h with
  | start => exact absurd hv (by decide)
  | init g _ _ => exact absurd hv (by decide : (0 : Nat) ≠ 261)
  | load_pattern_table g data _ ih => exact ih hv hh
  | set g adr val _ ih =>
    rw [set_frame] at hv hh ⊢
    exact ih hv hh
  | set_with_delay g adr val c _ ih => exact ih hv hh
  | get g adr _ ih =>
    rw [get_frame] at hv hh ⊢
    exact ih hv hh
  | cycle g hr ih =>
    obtain ⟨r1, r2⟩ := reachable_counters g hr
    obtain ⟨c1, c2⟩ := cycle_counters g r1 r2
    obtain ⟨k1, _, k3⟩ := cycle_sprite_0_hit g
    by_cases hw : (g.frame_idx % 2 = 1 ∧ g.ver_cnt = 261 ∧ g.hor_cnt = 339) ∨
        (g.ver_cnt = 261 ∧ g.hor_cnt = 340)
    · have := (c1 hw).1
      omega
    · obtain ⟨d, b1, b2, _⟩ := c2 hw
      unfold dots scanline_length at d
      have e1 : g.ver_cnt = 261 := by omega
      have e2 : 1 ≤ g.hor_cnt := by omega
      by_cases h1 : g.hor_cnt = 1
      · exact k1 ⟨e1, h1⟩
      · rw [k3 (fun h => h1 h.2) (by omega)]
        exact ih e1 (by omega)
  | oam_write g val _ ih => exact ih hv hh
  | set_mirroring g val _ ih => exact ih hv hh

/-- From dot 0 of scanline 0, a sprite-0 flag that is set stays set up to dot 1
of scanline 261. -/
theorem ticks_hit (g : Gfx) (h0 : g.hor_cnt = 0) (v0 : g.ver_cnt = 0) (k : Nat)
    (hk : (ticks k g).sprite_0_hit = true) (n : Nat) (h1 : k ≤ n) (h2 : n ≤ 261 * 341 + 1) :
    (ticks n g).sprite_0_hit = true := by
  induction n with
  | zero =>
    have : k = 0 := by omega
    subst this
    exact hk
  | succ n ih =>
    by_cases hkn : k = n + 1
    · subst hkn; exact hk
    · obtain ⟨d, hh, hv, _⟩ := ticks_dots g h0 v0 n (by omega)
      unfold dots scanline_length at d
      rw [ticks_succ]
      exact (cycle_sprite_0_hit _).2.1 (by omega) (ih (by omega) (by omega))

/-- The run of the hit scenario: after `n` ticks, 2 ≤ n ≤ 261*341 + 1, the state is
reachable, `n` dots into the first frame, and the sprite-0 flag is set. -/
theorem hit_run (n : Nat) (h1 : 2 ≤ n) (h2 : n ≤ 261 * 341 + 1) :
    Reachable (ticks n hit_scenario) ∧
    (ticks n hit_scenario).ver_cnt * 341 + (ticks n hit_scenario).hor_cnt = n ∧
    (ticks n hit_scenario).hor_cnt < 341 ∧
    (ticks n hit_scenario).sprite_0_hit = true := by
  have hr : Reachable hit_scenario := Reachable.load_pattern_table _ _ Reachable.start
  have e0 : hit_scenario.frame_idx % 2 = 0 := rfl
  obtain ⟨d, hh, _, _⟩ := ticks_dots hit_scenario rfl rfl n (by rw [e0]; omega)
  exact ⟨reachable_ticks _ _ hr, d, hh,
    ticks_hit hit_scenario rfl rfl 2 (by decide) n h1 h2⟩

/-- The run of any reachable state at dot 0 of scanline 0 of an even frame: after
`n` ticks, n < 341*262, the state is reachable and `n` dots into the frame. -/
theorem even_run (g : Gfx) (hr : Reachable g) (h0 : g.hor_cnt = 0) (v0 : g.ver_cnt = 0)
    (hp : g.frame_idx % 2 = 0) (n : Nat) (h : n < 341 * 262) :
    Reachable (ticks n g) ∧
    (ticks n g).ver_cnt * 341 + (ticks n g).hor_cnt = n ∧ (ticks n g).hor_cnt < 341 := by
  obtain ⟨d, hh, _, _⟩ := ticks_dots g h0 v0 n (by rw [hp]; omega)
  exact ⟨reachable_ticks _ _ hr, d, hh⟩

/-- C26 (as stated) fails: with an opaque background and an opaque sprite 0 at the
first pixel, the flag is set by the second tick of the frame and is still set in
the reachable state at dot 0 of scanline 261. -/
theorem prerender_dot_0_hit :
    Reachable (ticks (261 * 341) hit_scenario) ∧
    (ticks (261 * 341) hit_scenario).ver_cnt = 261 ∧
    (ticks (261 * 341) hit_scenario).hor_cnt = 0 ∧
    (ticks (261 * 341) hit_scenario).sprite_0_hit = true := by
  obtain ⟨a, b, c, d⟩ := hit_run (261 * 341) (by decide) (by decide)
  generalize ticks (261 * 341) hit_scenario = s at a b c d ⊢
  exact ⟨a, by omega, by omega, d⟩

/-- Witness of C26 (amended): two ticks later, at dot 2 of scanline 261, the flag
is clear. -/
theorem prerender_sprite_0_hit_witness :
    (ticks (261 * 341 + 2) hit_scenario).ver_cnt = 261 ∧
    (ticks (261 * 341 + 2) hit_scenario).hor_cnt = 2 ∧
    (ticks (261 * 341 + 2) hit_scenario).sprite_0_hit = false := by
  obtain ⟨a, b, c⟩ := even_run hit_scenario (Reachable.load_pattern_table _ _ Reachable.start)
    rfl rfl rfl (261 * 341 + 2) (by decide)
  have key := prerender_sprite_0_hit (ticks (261 * 341 + 2) hit_scenario) a
  generalize ticks (261 * 341 + 2) hit_scenario = s at a b c key ⊢
  have e1 : s.ver_cnt = 261 := by omega
  have e2 : s.hor_cnt = 2 := by omega
  exact ⟨e1, e2, key e1 (by omega)⟩

/-! ### The range of an emitted pixel -/

theorem read_mem_lt (g : Gfx) (a : Nat) : read_mem g a < 256 := by
  unfold read_mem
  simp only []
  split
  · exact Nat.mod_lt _ (by decide)
  · split
    · exact Nat.mod_lt _ (by decide)
    · split
      · decide
      · exact Nat.mod_lt _ (by decide)

theorem palette_cell (idx : Nat) (h : idx < 32) :
    0x3eff ≤ alias_adr (u32 (0x3f00 + idx) &&& 0x3fff) := by
  interval_cases idx <;> decide

theorem get_palette_entry_six_bit (g : Gfx) (hp : palette_six_bit g) (idx : Nat) (h : idx < 32) :
    get_palette_entry g idx < 64 := by
  have c := palette_cell idx h
  unfold get_palette_entry read_mem
  simp only []
  rw [if_neg (by omega), if_neg (by omega), if_neg (by omega)]
  exact Nat.lt_of_le_of_lt (Nat.mod_le _ _) (hp _)

theorem get_bit_lt (x n : Nat) : get_bit x n < 2 := Nat.mod_lt _ (by decide)

theorem palette_pixel_range (g : Gfx) (c : Prop) [Decidable c] (idx : Nat) (h : idx < 32) :
    (if c then transparent_pixel else get_palette_entry g idx) < 256 ∧
    (palette_six_bit g →
      (if c then transparent_pixel else get_palette_entry g idx) = transparent_pixel ∨
      (if c then transparent_pixel else get_palette_entry g idx) < 64) := by
  by_cases hc : c
  · rw [if_pos hc]
    exact ⟨by decide, fun _ => Or.inl rfl⟩
  · rw [if_neg hc]
    exact ⟨read_mem_lt _ _, fun hp => Or.inr (get_palette_entry_six_bit g hp idx h)⟩

theorem bin_num_five (b0 b1 b2 b3 : Nat) (h0 : b0 < 2) (h1 : b1 < 2) (h2 : b2 < 2) (h3 : b3 < 2) :
    bin_num [b0, b1, b2, b3, 1] < 32 := by
  unfold bin_num bin_num bin_num bin_num bin_num bin_num
  omega

theorem bin_num_four (b0 b1 b2 b3 : Nat) (h0 : b0 < 2) (h1 : b1 < 2) (h2 : b2 < 2) (h3 : b3 < 2) :
    bin_num [b0, b1, b2, b3] < 32 := by
  unfold bin_num bin_num bin_num bin_num bin_num
  omega

theorem get_pixel_range (spr : t_sprite) (g : Gfx) (x y : Nat) :
    spr.get_pixel g x y < 256 ∧
    (palette_six_bit g → spr.get_pixel g x y = transparent_pixel ∨ spr.get_pixel g x y < 64) :=
  palette_pixel_range g _ _
    (bin_num_five _ _ _ _ (get_bit_lt _ _) (get_bit_lt _ _) (get_bit_lt _ _) (get_bit_lt _ _))

theorem background_get_pixel_range (g : Gfx) (x y n : Nat) :
    background_get_pixel g x y n < 256 ∧
    (palette_six_bit g →
      background_get_pixel g x y n = transparent_pixel ∨ background_get_pixel g x y n < 64) :=
  palette_pixel_range g _ _
    (bin_num_four _ _ _ _ (get_bit_lt _ _) (get_bit_lt _ _) (get_bit_lt _ _) (get_bit_lt _ _))

theorem sprite_walk_range (x y : Nat) (l : List t_sprite) (ds : List (Nat → Nat)) (acc : Nat × Nat)
    (ha : acc.1 < 256) :
    (sprite_walk x y l ds acc).1 < 256 ∧
    ((∀ sd ∈ ds, ∀ k, sd k % 256 = transparent_pixel ∨ sd k % 256 < 64) →
      (acc.1 = transparent_pixel ∨ acc.1 < 64) →
      (sprite_walk x y l ds acc).1 = transparent_pixel ∨ (sprite_walk x y l ds acc).1 < 64) := by
  induction l generalizing ds acc with
  | nil => exact ⟨ha, fun _ h => h⟩
  | cons spr l ih =>
    have ht : ∀ sd ∈ ds.tail, sd ∈ ds := fun sd h => List.mem_of_mem_tail h
    have hd : ∀ k, (∀ sd ∈ ds, ∀ k, sd k % 256 = transparent_pixel ∨ sd k % 256 < 64) →
        (ds.headD (fun _ => 0) k % 256 = transparent_pixel ∨ ds.headD (fun _ => 0) k % 256 < 64) := by
      intro k hc
      cases ds with
      | nil => exact Or.inr (show (0 : Nat) % 256 < 64 by decide)
      | cons d ds => exact hc d (List.mem_cons_self _ _) k
    unfold sprite_walk
    simp only []
    by_cases hr : in_range x spr.get_x (u32 (spr.get_x + sprite_width)) = true
    · rw [if_pos hr]
      by_cases ho : pixel_is_opaque
          (ds.headD (fun _ => 0) (u32 (u32 (y + 4294967296 - spr.get_y) * sprite_width
            + u32 (x + 4294967296 - spr.get_x))) % 256) = true
      · rw [if_pos ho]
        exact ⟨Nat.mod_lt _ (by decide), fun hc _ => hd _ hc⟩
      · rw [if_neg ho]
        obtain ⟨a, b⟩ := ih ds.tail (_, spr.get_priority) (Nat.mod_lt _ (by decide))
        exact ⟨a, fun hc _ => b (fun sd h => hc sd (ht sd h)) (hd _ hc)⟩
    · rw [if_neg hr]
      obtain ⟨a, b⟩ := ih ds.tail acc ha
      exact ⟨a, fun hc h => b (fun sd h => hc sd (ht sd h)) h⟩

theorem compose_range (bg sp pe : Nat) (c : Bool) (H : Prop) (hb : bg < 256) (hs : sp < 256)
    (he : pe < 256) (kb : H → bg = transparent_pixel ∨ bg < 64)
    (ks : H → sp = transparent_pixel ∨ sp < 64) (ke : H → pe < 64) :
    (if (if c = true then sp else if bg = transparent_pixel then sp else bg) = transparent_pixel
      then pe else (if c = true then sp else if bg = transparent_pixel then sp else bg)) < 256 ∧
    (H → (if (if c = true then sp else if bg = transparent_pixel then sp else bg) = transparent_pixel
      then pe else (if c = true then sp else if bg = transparent_pixel then sp else bg)) < 64) := by
  unfold transparent_pixel at *
  constructor
  · split_ifs <;> omega
  · intro h
    have a := kb h
    have b := ks h
    have e := ke h
    split_ifs <;> omega

theorem cycle_pixel_palette (g : Gfx) : (cycle_pixel g).1.palette = g.palette := by
  rw [cycle_pixel_frame]

theorem cycle_pixel_range (g : Gfx) :
    (cycle_pixel g).2.1 < 256 ∧
    (palette_six_bit g → cache_six_bit g → (cycle_pixel g).2.1 < 64) := by
  have hw := sprite_walk_range (u32 (g.hor_cnt + 4294967296 - 1)) g.ver_cnt g.line_sprite_list
    g.line_sprite_data_list (transparent_pixel, 0) (by decide)
  have hb := background_get_pixel_range g g.scroll_x g.scroll_y g.scroll_nametable
  have hpe : palette_six_bit g → get_palette_entry (cycle_pixel g).1 0 < 64 := by
    intro hp
    refine get_palette_entry_six_bit _ ?_ 0 (by decide)
    intro i
    rw [cycle_pixel_palette]
    exact hp i
  have key := compose_range (background_fetch_pixel g).1
    (sprite_walk (u32 (g.hor_cnt + 4294967296 - 1)) g.ver_cnt g.line_sprite_list
      g.line_sprite_data_list (transparent_pixel, 0)).1
    (get_palette_entry (cycle_pixel g).1 0)
    ( pixel_is_opaque (sprite_walk (u32 (g.hor_cnt + 4294967296 - 1)) g.ver_cnt g.line_sprite_list
        g.line_sprite_data_list (transparent_pixel, 0)).1 &&
      (sprite_walk (u32 (g.hor_cnt + 4294967296 - 1)) g.ver_cnt g.line_sprite_list
        g.line_sprite_data_list (transparent_pixel, 0)).2 == 0)
    (palette_six_bit g ∧ cache_six_bit g) hb.1 hw.1 (read_mem_lt _ _)
    (fun h => hb.2 h.1) (fun h => hw.2 h.2 (Or.inl rfl)) (fun h => hpe h.1)
  exact ⟨key.1, fun hp hc => key.2 ⟨hp, hc⟩⟩

theorem cycle_visible_range (g : Gfx) (p : Nat) (h : (cycle_visible g).2.1 = some p) :
    p < 256 ∧ (palette_six_bit g → cache_six_bit g → p < 64) := by
  unfold cycle_visible at h
  by_cases hv : g.ver_cnt < 240
  · rw [if_pos hv] at h
    simp only [] at h
    by_cases h00 : g.ver_cnt = 0 ∧ g.hor_cnt = 0
    · rw [if_pos h00] at h
      simp only [] at h
      rw [if_pos h00.2] at h
      exact absurd h (by simp)
    · rw [if_neg h00] at h
      by_cases h0 : g.hor_cnt = 0
      · rw [if_pos h0] at h
        exact absurd h (by simp)
      rw [if_neg h0] at h
      by_cases h1 : g.hor_cnt < 257
      · rw [if_pos h1] at h
        simp only [] at h
        have e : (cycle_pixel g).2.1 = p := Option.some.inj h
        rw [← e]
        exact cycle_pixel_range g
      · rw [if_neg h1] at h
        exact absurd h (by simp)
  · rw [if_neg hv] at h
    exact absurd h (by simp)

theorem cycle_start_palette (g : Gfx) : (cycle_start g).1.palette = g.palette := by
  rw [cycle_start_frame]

theorem cycle_start_cache (g : Gfx) :
    (cycle_start g).1.line_sprite_data_list = g.line_sprite_data_list := by
  rw [cycle_start_frame]

/-- C27 (amended): the pixel a tick hands to the sink is a byte, and it is below 64
when every byte of palette RAM and every opaque cell of the cached sprite
matrices is below 64. -/
theorem pixel_range (g : Gfx) (p : Nat) (h : (cycle g).2.pixel = some p) :
    p < 256 ∧ (palette_six_bit g → cache_six_bit g → p < 64) := by
  have key := cycle_visible_range (cycle_start g).1 p h
  refine ⟨key.1, fun hp hc => key.2 ?_ ?_⟩
  · intro i
    rw [cycle_start_palette]
    exact hp i
  · intro sd hsd
    rw [cycle_start_cache] at hsd
    exact hc sd hsd

theorem evaluate_sprites_loop_cache (y n i : Nat) (g : Gfx) (hp : palette_six_bit g)
    (hc : cache_six_bit g) : cache_six_bit (evaluate_sprites_loop y n i g) := by
  induction n generalizing i g with
  | zero => exact hc
  | succ n ih =>
    have hnew : cache_six_bit
        { g with line_sprite_list := g.line_sprite_list ++ [g.sprite_list i],
                 line_sprite_data_list := g.line_sprite_data_list ++
                   [fun k => if k < sprite_height * sprite_width then
                      (g.sprite_list i).get_pixel g (k % sprite_width) (k / sprite_width)
                    else 0] } := by
      intro sd hsd k
      rcases List.mem_append.mp hsd with h | h
      · exact hc sd h k
      · rw [List.mem_singleton.mp h]
        simp only []
        by_cases hk : k < sprite_height * sprite_width
        · rw [if_pos hk]
          have r := get_pixel_range (g.sprite_list i) g (k % sprite_width) (k / sprite_width)
          rw [Nat.mod_eq_of_lt r.1]
          exact r.2 hp
        · rw [if_neg hk]
          exact Or.inr (show (0 : Nat) % 256 < 64 by decide)
    unfold evaluate_sprites_loop
    simp only []
    split
    · split
      · exact hnew
      · exact ih _ _ hp hnew
    · exact ih _ _ hp hc

theorem cycle_visible_cache (g : Gfx) (hp : palette_six_bit g) (hc : cache_six_bit g) :
    cache_six_bit (cycle_visible g).1 := by
  unfold cycle_visible
  by_cases hv : g.ver_cnt < 240
  · rw [if_pos hv]
    simp only []
    by_cases h00 : g.ver_cnt = 0 ∧ g.hor_cnt = 0
    · rw [if_pos h00]
      simp only []
      rw [if_pos h00.2]
      exact evaluate_sprites_loop_cache _ _ _ _ hp (fun sd h => absurd h (List.not_mem_nil sd))
    · rw [if_neg h00]
      by_cases h0 : g.hor_cnt = 0
      · rw [if_pos h0]
        exact evaluate_sprites_loop_cache _ _ _ _ hp (fun sd h => absurd h (List.not_mem_nil sd))
      rw [if_neg h0]
      by_cases h1 : g.hor_cnt < 257
      · rw [if_pos h1]
        simp only []
        intro sd hsd
        rw [cycle_pixel_frame] at hsd
        exact hc sd hsd
      · rw [if_neg h1]
        exact hc
  · rw [if_neg hv]
    exact hc

theorem cycle_cache (g : Gfx) (hp : palette_six_bit g) (hc : cache_six_bit g) :
    cache_six_bit (cycle g).1 := by
  have hv : cache_six_bit (cycle_visible (cycle_start g).1).1 := by
    apply cycle_visible_cache
    · intro i
      rw [cycle_start_palette]
      exact hp i
    · intro sd hsd
      rw [cycle_start_cache] at hsd
      exact hc sd hsd
  intro sd hsd
  have e : (cycle g).1.line_sprite_data_list
      = (cycle_visible (cycle_start g).1).1.line_sprite_data_list := by
    show (cycle_delayed_set (cycle_advance (cycle_flags
      (cycle_visible (cycle_start g).1).1).1)).line_sprite_data_list = _
    rw [cycle_delayed_set_frame, cycle_advance_frame, cycle_flags_frame]
  rw [e] at hsd
  exact hv sd hsd

/-- C27 (as stated) fails: the byte 0xC0 written to palette cell 0 through the
registers is handed to the sink as the backdrop pixel of the next tick. -/
theorem pixel_above_six_bit :
    Reachable palette_scenario ∧ (cycle palette_scenario).2.pixel = some 0xc0 ∧ ¬ (0xc0 < 64) := by
  refine ⟨?_, by decide, by decide⟩
  unfold palette_scenario set_address
  apply Reachable.cycle
  apply Reachable.set
  apply Reachable.set
  apply Reachable.set
  apply Reachable.get
  exact Reachable.start

/-- Witness of C27 (amended): after `gfx::init()` and one tick the palette and the
eight cached matrices are six-bit, and the next tick emits the pixel 0. -/
theorem pixel_range_witness :
    palette_six_bit first_pixel_scenario ∧ cache_six_bit first_pixel_scenario ∧
    first_pixel_scenario.line_sprite_data_list.length = 8 ∧
    (cycle first_pixel_scenario).2.pixel = some 0 ∧ 0 < 256 ∧ 0 < 64 :=
  have hp0 : palette_six_bit (init start) := fun _ => (by decide : (0 : Nat) < 64)
  have hc0 : cache_six_bit (init start) := fun sd h => absurd h (List.not_mem_nil sd)
  have hp : palette_six_bit first_pixel_scenario := fun _ => (by decide : (0 : Nat) < 64)
  have hc : cache_six_bit first_pixel_scenario := cycle_cache _ hp0 hc0
  have r := pixel_range first_pixel_scenario 0 (by decide)
  ⟨hp, hc, by decide, by decide, r.1, r.2 hp hc⟩

/-! ### The sprite shortlist of a scanline -/

theorem oam_write_sprite_y (g : Gfx) (val : Nat) (h : ∀ i, (g.sprite_list i).sy ≤ 256) (i : Nat) :
    ((oam_write g val).sprite_list i).sy ≤ 256 := by
  unfold oam_write upd
  simp only []
  by_cases hi : i = g.oam_address / 4
  · rw [if_pos hi]
    have := h (g.oam_address / 4)
    have hv : val % 256 < 256 := Nat.mod_lt _ (by decide)
    unfold t_sprite.set_y t_sprite.set_tile_index t_sprite.set_attr t_sprite.set_x
    split_ifs <;> (try simp only []) <;> omega
  · rw [if_neg hi]
    exact h i

theorem set_sprite_y (g : Gfx) (adr val : Nat) (h : ∀ i, (g.sprite_list i).sy ≤ 256) (i : Nat) :
    ((set g adr val).sprite_list i).sy ≤ 256 := by
  unfold set
  simp only []
  by_cases h0 : adr = 0x2000
  · rw [if_pos h0]; exact h i
  rw [if_neg h0]
  by_cases h3 : adr = 0x2003
  · rw [if_pos h3]; exact h i
  rw [if_neg h3]
  by_cases h4 : adr = 0x2004
  · rw [if_pos h4]; exact oam_write_sprite_y g _ h i
  rw [if_neg h4]
  by_cases h5 : adr = 0x2005
  · rw [if_pos h5]
    by_cases hl : g.address_latch = true
    · rw [if_pos hl]; exact h i
    · rw [if_neg hl]; exact h i
  rw [if_neg h5]
  by_cases h6 : adr = 0x2006
  · rw [if_pos h6]; exact h i
  rw [if_neg h6]
  by_cases h7 : adr = 0x2007
  · rw [if_pos h7]
    unfold increment_address write_mem
    simp only []
    split <;> split <;> (try split) <;> (try split) <;> (try split) <;> exact h i
  rw [if_neg h7]
  exact h i

theorem cycle_sprite_y (g : Gfx) (h : ∀ i, (g.sprite_list i).sy ≤ 256) (i : Nat) :
    (((cycle g).1).sprite_list i).sy ≤ 256 := by
  have e : (cycle_advance (cycle_flags (cycle_visible (cycle_start g).1).1).1).sprite_list
      = g.sprite_list := by
    rw [cycle_advance_frame, cycle_flags_frame, cycle_visible_frame, cycle_start_frame]
  show ((cycle_delayed_set (cycle_advance (cycle_flags
    (cycle_visible (cycle_start g).1).1).1)).sprite_list i).sy ≤ 256
  generalize cycle_advance (cycle_flags (cycle_visible (cycle_start g).1).1).1 = x at e
  unfold cycle_delayed_set
  by_cases ha : x.set_delay_active = true
  · rw [if_pos ha]
    by_cases hd : x.set_delay = 0
    · rw [if_pos hd]
      exact set_sprite_y x _ _ (fun j => by rw [e]; exact h j) i
    · rw [if_neg hd]
      show (x.sprite_list i).sy ≤ 256
      rw [e]; exact h i
  · rw [if_neg ha]
    rw [e]; exact h i

theorem reachable_sprite_y (g : Gfx) (h : Reachable g) : ∀ i, (g.sprite_list i).sy ≤ 256 := by
  induction h with
  | start => exact fun _ => (by decide : (0 : Nat) ≤ 256)
  | init g _ ih => exact ih
  | load_pattern_table g data _ ih => exact ih
  | set g adr val _ ih => exact set_sprite_y g adr val ih
  | set_with_delay g adr val c _ ih => exact ih
  | get g adr _ ih =>
    intro i
    rw [get_frame]
    exact ih i
  | cycle g _ ih => exact cycle_sprite_y g ih
  | oam_write g val _ ih => exact oam_write_sprite_y g val ih
  | set_mirroring g val _ ih => exact ih

theorem evaluate_sprites_loop_list (y n i : Nat) (g : Gfx) (hl : g.line_sprite_list.length < 8) :
    (evaluate_sprites_loop y n i g).line_sprite_list
      = g.line_sprite_list ++
        (((List.range' i n).map g.sprite_list).filter
          (fun spr => in_range y spr.get_y (u32 (spr.get_y + sprite_height)))).take
            (8 - g.line_sprite_list.length) := by
  induction n generalizing i g with
  | zero => simp [evaluate_sprites_loop]
  | succ n ih =>
    unfold evaluate_sprites_loop
    simp only []
    rw [List.range'_succ, List.map_cons]
    by_cases hr : in_range y (g.sprite_list i).get_y (u32 ((g.sprite_list i).get_y + sprite_height)) = true
    · rw [if_pos hr, List.filter_cons]
      simp only [hr, if_true]
      obtain ⟨k, hk⟩ : ∃ k, 8 - g.line_sprite_list.length = k + 1 := ⟨7 - g.line_sprite_list.length, by omega⟩
      rw [hk, List.take_succ_cons]
      by_cases h8 : (g.line_sprite_list ++ [g.sprite_list i]).length ≥ 8
      · rw [if_pos h8]
        have hk0 : k = 0 := by
          rw [List.length_append, List.length_singleton] at h8
          omega
        rw [hk0, List.take_zero]
      · rw [if_neg h8]
        rw [ih]
        · simp only [List.length_append, List.length_singleton, List.append_assoc,
            List.singleton_append]
          have hk1 : 8 - (g.line_sprite_list.length + 1) = k := by omega
          rw [hk1]
        · exact Nat.lt_of_not_le h8
    · rw [if_neg hr, List.filter_cons]
      simp only [hr, if_false]
      exact ih _ _ hl

theorem evaluate_sprites_loop_length (y n i : Nat) (g : Gfx)
    (h : g.line_sprite_data_list.length = g.line_sprite_list.length) :
    (evaluate_sprites_loop y n i g).line_sprite_data_list.length
      = (evaluate_sprites_loop y n i g).line_sprite_list.length := by
  induction n generalizing i g with
  | zero => exact h
  | succ n ih =>
    unfold evaluate_sprites_loop
    simp only []
    split
    · split
      · simp only [List.length_append, List.length_singleton, h]
      · apply ih
        simp only [List.length_append, List.length_singleton, h]
    · exact ih _ _ h

theorem covers_in_range (y : Nat) (spr : t_sprite) (h : spr.sy ≤ 256) :
    in_range y spr.get_y (u32 (spr.get_y + sprite_height)) = covers y spr := by
  unfold in_range covers t_sprite.get_y sprite_height u32
  rw [Nat.mod_eq_of_lt (by omega)]
  by_cases h1 : spr.sy ≤ y <;> by_cases h2 : y < spr.sy + 8 <;> simp [h1, h2]

/-- C30: in every reachable state and for every scanline `y`, `evaluate_sprites(y)`
leaves as shortlist the first 8 (all, when there are fewer) of the sprites whose Y
range `[sy, sy + 8)` contains `y`, in OAM order; the shortlist has min(8, m)
entries, m the number of such sprites, and the list of cached matrices has the
same length. -/
theorem evaluate_sprites_shortlist (g : Gfx) (h : Reachable g) (y : Nat) :
    (evaluate_sprites g y).line_sprite_list = ((oam g).filter (covers y)).take 8 ∧
    (evaluate_sprites g y).line_sprite_list.length = min 8 ((oam g).filter (covers y)).length ∧
    (evaluate_sprites g y).line_sprite_data_list.length
      = (evaluate_sprites g y).line_sprite_list.length ∧
    (evaluate_sprites g y).line_sprite_list.length ≤ 8 := by
  have hy := reachable_sprite_y g h
  have e : (evaluate_sprites g y).line_sprite_list = ((oam g).filter (covers y)).take 8 := by
    unfold evaluate_sprites
    rw [evaluate_sprites_loop_list y 64 0
      { g with line_sprite_list := [], line_sprite_data_list := [] } (by decide : (0 : Nat) < 8)]
    simp only [List.nil_append, List.length_nil, Nat.sub_zero]
    unfold oam
    rw [List.range_eq_range']
    congr 1
    apply List.filter_congr
    intro spr hs
    obtain ⟨i, _, rfl⟩ := List.mem_map.mp hs
    exact covers_in_range y _ (hy i)
  refine ⟨e, ?_, ?_, ?_⟩
  · rw [e, List.length_take]
  · unfold evaluate_sprites
    exact evaluate_sprites_loop_length _ _ _ _ rfl
  · rw [e, List.length_take]
    exact Nat.min_le_left _ _

/-- Witness of C30: with sprite 0 moved to Y = 0x21 and the others at Y = 0, the
shortlist of scanline 0 is sprites 1 to 8. -/
theorem evaluate_sprites_shortlist_witness :
    Reachable shortlist_scenario ∧
    (evaluate_sprites shortlist_scenario 0).line_sprite_list
      = ((oam shortlist_scenario).filter (covers 0)).take 8 ∧
    ((oam shortlist_scenario).filter (covers 0)).length = 63 ∧
    (evaluate_sprites shortlist_scenario 0).line_sprite_list.length = 8 ∧
    (evaluate_sprites shortlist_scenario 0).line_sprite_data_list.length = 8 :=
  have hr : Reachable shortlist_scenario :=
    Reachable.oam_write _ _ (Reachable.oam_write _ _ (Reachable.oam_write _ _
      (Reachable.oam_write _ _ Reachable.start)))
  ⟨hr, (evaluate_sprites_shortlist shortlist_scenario hr 0).1, by decide, by decide, by decide⟩

end gfx

/-! ## Cartridge loading -/

namespace machine

theorem load_program_status (s : Machine) (is : Nat → Nat) :
    (load_program s (some is)).1 = Status.success ↔ header_ok is := by
  unfold load_program header_ok
  simp only []
  by_cases hm : [is 0 % 256, is 1 % 256, is 2 % 256, is 3 % 256] = [0x4e, 0x45, 0x53, 0x1a]
  · rw [if_neg (not_not_intro hm)]
    have b1 := gfx.get_bit_lt (is 6 % 256) 1
    have b2 := gfx.get_bit_lt (is 6 % 256) 2
    have b3 := gfx.get_bit_lt (is 6 % 256) 3
    have c0 := gfx.get_bit_lt (is 7 % 256) 0
    have c1 := gfx.get_bit_lt (is 7 % 256) 1
    by_cases h6 : get_bit (is 6 % 256) 1 = 1 ∨ get_bit (is 6 % 256) 2 = 1 ∨ get_bit (is 6 % 256) 3 = 1
    · rw [if_pos h6]
      constructor
      · intro h; exact Status.noConfusion h
      · intro h; omega
    rw [if_neg h6]
    by_cases h7 : get_bit (is 7 % 256) 0 = 1 ∨ get_bit (is 7 % 256) 1 = 1
    · rw [if_pos h7]
      constructor
      · intro h; exact Status.noConfusion h
      · intro h; omega
    rw [if_neg h7]
    by_cases hs : ¬ ((is 4 % 256 = 1 ∨ is 4 % 256 = 2) ∧ (is 5 % 256 = 0 ∨ is 5 % 256 = 1))
    · rw [if_pos hs]
      constructor
      · intro h; exact Status.noConfusion h
      · intro h; exact absurd ⟨h.2.2.2.1, h.2.2.2.2⟩ hs
    rw [if_neg hs]
    have hs2 := not_not.mp hs
    constructor
    · intro _
      exact ⟨hm, by omega, by omega, hs2.1, hs2.2⟩
    · intro _
      split <;> rfl
  · rw [if_pos hm]
    constructor
    · intro h; exact Status.noConfusion h
    · intro h; exact absurd h.1 hm

/-- C28 at its failing input: an image whose mapper number is 1 and whose header
is otherwise accepted is loaded with `success`; whether `load_program` succeeds
is decided by the magic, the two sizes and the five reserved bits alone, and a
file that cannot be opened is rejected. -/
theorem load_program_mapper_accepted :
    load_program_mapper mapper_image = 1 ∧
    (∀ s : Machine, (load_program s (some mapper_image)).1 = Status.success) ∧
    (∀ (s : Machine) (is : Nat → Nat),
      (load_program s (some is)).1 = Status.success ↔ header_ok is) ∧
    (∀ s : Machine, (load_program s none).1 = Status.failure) :=
  ⟨by decide, fun s => (load_program_status s mapper_image).mpr (by unfold header_ok; decide),
   load_program_status, fun _ => rfl⟩

theorem load_program_failure (s : Machine) (f : Option (Nat → Nat))
    (h : (load_program s f).1 = Status.failure) :
    (load_program s f).2
      = { s with gfx := { s.gfx with mirroring := (load_program s f).2.gfx.mirroring } } := by
  cases f with
  | none => rfl
  | some is =>
    revert h
    unfold load_program
    simp only []
    split
    · intro _; rfl
    · split
      · intro _; rfl
      · split
        · intro _; rfl
        · split
          · intro _; rfl
          · split <;> intro h <;> exact Status.noConfusion h

theorem load_program_early_failure (s : Machine) (is : Nat → Nat)
    (h : ¬ ([is 0 % 256, is 1 % 256, is 2 % 256, is 3 % 256] = [0x4e, 0x45, 0x53, 0x1a] ∧
      get_bit (is 6 % 256) 1 = 0 ∧ get_bit (is 6 % 256) 2 = 0 ∧ get_bit (is 6 % 256) 3 = 0)) :
    load_program s (some is) = (Status.failure, s) := by
  unfold load_program
  simp only []
  by_cases hm : [is 0 % 256, is 1 % 256, is 2 % 256, is 3 % 256] = [0x4e, 0x45, 0x53, 0x1a]
  · rw [if_neg (not_not_intro hm)]
    have b1 := gfx.get_bit_lt (is 6 % 256) 1
    have b2 := gfx.get_bit_lt (is 6 % 256) 2
    have b3 := gfx.get_bit_lt (is 6 % 256) 3
    rw [if_pos]
    by_contra hc
    exact h ⟨hm, by omega, by omega, by omega⟩
  · rw [if_pos hm]

/-- C29 at its failing input: an image with the magic, bit 0 of byte 6 set and
bit 0 of byte 7 set is rejected with `failure`, and the mirroring flag, clear
before the call, is set after it. A failing call changes nothing else, and
nothing at all when the file cannot be opened or the magic or bits 1 to 3 of
byte 6 are what is rejected. -/
theorem load_program_failure_mirroring :
    unloaded.gfx.mirroring = false ∧
    (load_program unloaded (some rejected_image)).1 = Status.failure ∧
    (load_program unloaded (some rejected_image)).2.gfx.mirroring = true ∧
    (∀ (s : Machine) (f : Option (Nat → Nat)), (load_program s f).1 = Status.failure →
      (load_program s f).2
        = { s with gfx := { s.gfx with mirroring := (load_program s f).2.gfx.mirroring } }) ∧
    (∀ s : Machine, load_program s none = (Status.failure, s)) ∧
    (∀ (s : Machine) (is : Nat → Nat),
      ¬ ([is 0 % 256, is 1 % 256, is 2 % 256, is 3 % 256] = [0x4e, 0x45, 0x53, 0x1a] ∧
        get_bit (is 6 % 256) 1 = 0 ∧ get_bit (is 6 % 256) 2 = 0 ∧ get_bit (is 6 % 256) 3 = 0) →
      load_program s (some is) = (Status.failure, s)) :=
  ⟨by decide, by decide, by decide, load_program_failure, fun _ => rfl, load_program_early_failure⟩

end machine

namespace gfx

/-! ## The sprite walk and compositing -/

theorem getLast_getD_cons {α : Type} (a acc : α) (L : List α) :
    ((a :: L).getLast?).getD acc = (L.getLast?).getD a := by
  cases L with
  | nil => rfl
  | cons b L =>
    rw [List.getLast?_cons_cons, List.getLast?_eq_getLast _ (List.cons_ne_nil b L)]
    rfl

/-- C31 (amended): the sprite pixel and the priority bit of a dot are those of the
first shortlisted sprite, in list order, whose X range contains `x` and whose
cached pixel there is opaque; when no covering sprite has an opaque pixel they are
those of the last covering sprite (a transparent pixel), and the initial
transparent marker with priority 0 when no sprite covers `x`. -/
theorem first_opaque_sprite_wins (x y : Nat) (l : List t_sprite) (ds : List (Nat → Nat))
    (acc : Nat × Nat) (h : ds.length = l.length) :
    sprite_walk x y l ds acc
      = match (covering x y l ds).find? (fun e => pixel_is_opaque e.1) with
        | some e => e
        | none => ((covering x y l ds).getLast?).getD acc := by
  induction l generalizing ds acc with
  | nil => cases ds <;> rfl
  | cons spr l ih =>
    cases ds with
    | nil => cases h
    | cons d ds =>
      have hl : ds.length = l.length := Nat.succ.inj h
      unfold sprite_walk covering
      simp only [List.zip_cons_cons, List.headD_cons, List.tail_cons]
      by_cases hr : in_range x spr.get_x (u32 (spr.get_x + sprite_width)) = true
      · rw [if_pos hr, List.filter_cons]
        simp only [hr, if_true, List.map_cons]
        by_cases ho : pixel_is_opaque
            (d (u32 (u32 (y + 4294967296 - spr.get_y) * sprite_width
              + u32 (x + 4294967296 - spr.get_x))) % 256) = true
        · rw [if_pos ho]
          rw [List.find?_cons_of_pos]
          · rfl
          · exact ho
        · rw [if_neg ho]
          rw [List.find?_cons_of_neg]
          · rw [ih ds _ hl]
            unfold covering
            rw [getLast_getD_cons]
            rfl
          · exact ho
      · rw [if_neg hr, List.filter_cons]
        simp only [hr, if_false]
        rw [ih ds acc hl]
        rfl

theorem walk_scenario_reachable : Reachable walk_scenario := by
  unfold walk_scenario set_address
  simp only []
  apply Reachable.cycle
  apply Reachable.set
  apply Reachable.set
  apply Reachable.set
  apply Reachable.set
  apply Reachable.set
  apply Reachable.set
  apply Reachable.set
  apply Reachable.get
  apply Reachable.load_pattern_table
  exact Reachable.start

/-- C31 (as stated) fails: in a reachable state at dot 1 of scanline 0 the first
shortlisted sprite covering column 0 has a transparent pixel and priority 0, yet
the walk yields the opaque pixel 0x2A and the priority 1 of the next sprite, and
the tick emits 0x2A. -/
theorem sprite_walk_past_transparent :
    Reachable walk_scenario ∧ walk_scenario.hor_cnt = 1 ∧ walk_scenario.ver_cnt = 0 ∧
    (covering 0 0 walk_scenario.line_sprite_list walk_scenario.line_sprite_data_list).head?
      = some (transparent_pixel, 0) ∧
    sprite_walk 0 0 walk_scenario.line_sprite_list walk_scenario.line_sprite_data_list
      (transparent_pixel, 0) = (0x2a, 1) ∧
    (cycle walk_scenario).2.pixel = some 0x2a := by
  exact ⟨walk_scenario_reachable, by decide, by decide, by decide, by decide, by decide⟩

/-- Witness of C31 (amended): on the shortlist of the scenario the first covering
sprite with an opaque pixel is the second one, and the walk yields its pixel and
priority. -/
theorem first_opaque_sprite_wins_witness :
    walk_scenario.line_sprite_data_list.length = walk_scenario.line_sprite_list.length ∧
    (covering 0 0 walk_scenario.line_sprite_list walk_scenario.line_sprite_data_list).find?
      (fun e => pixel_is_opaque e.1) = some (0x2a, 1) ∧
    sprite_walk 0 0 walk_scenario.line_sprite_list walk_scenario.line_sprite_data_list
      (transparent_pixel, 0) = (0x2a, 1) :=
  ⟨by decide, by decide,
   (first_opaque_sprite_wins 0 0 walk_scenario.line_sprite_list
      walk_scenario.line_sprite_data_list (transparent_pixel, 0) (by decide)).trans (by decide)⟩

theorem sprite_walk_priority (x y : Nat) (l : List t_sprite) (ds : List (Nat → Nat))
    (acc : Nat × Nat) (h : acc.2 < 2) : (sprite_walk x y l ds acc).2 < 2 := by
  induction l generalizing ds acc with
  | nil => exact h
  | cons spr l ih =>
    unfold sprite_walk
    simp only []
    split
    · split
      · exact get_bit_lt _ _
      · exact ih _ _ (get_bit_lt _ _)
    · exact ih _ _ h

theorem cycle_start_cases (g : Gfx) :
    (cycle_start g).1 = g ∨ (cycle_start g).1 = { g with started := true, frame_idx := 0 } := by
  unfold cycle_start
  split
  · exact Or.inr rfl
  · exact Or.inl rfl

theorem cycle_visible_dot (g : Gfx) (hv : g.ver_cnt < 240) (h1 : 1 ≤ g.hor_cnt)
    (h2 : g.hor_cnt < 257) : cycle_visible g = ((cycle_pixel g).1, some (cycle_pixel g).2.1,
      (cycle_pixel g).2.2) := by
  unfold cycle_visible
  rw [if_pos hv]
  simp only []
  rw [if_neg (show ¬ (g.ver_cnt = 0 ∧ g.hor_cnt = 0) by omega),
    if_neg (show ¬ g.hor_cnt = 0 by omega), if_pos h2]

theorem cycle_pixel_composite (g : Gfx) (b s p : Nat)
    (hb : b = background_get_pixel g g.scroll_x g.scroll_y g.scroll_nametable)
    (hs : (s, p) = sprite_walk (u32 (g.hor_cnt + 4294967296 - 1)) g.ver_cnt g.line_sprite_list
      g.line_sprite_data_list (transparent_pixel, 0)) :
    (cycle_pixel g).2.1
      = if (if ( pixel_is_opaque s && p == 0) = true then s
            else if b = transparent_pixel then s else b) = transparent_pixel
        then g.palette 0 % 256
        else (if ( pixel_is_opaque s && p == 0) = true then s
              else if b = transparent_pixel then s else b) := by
  have e0 : get_palette_entry (cycle_pixel g).1 0 = g.palette 0 % 256 := by
    rw [← cycle_pixel_palette g]
    rfl
  have e1 : s = (sprite_walk (u32 (g.hor_cnt + 4294967296 - 1)) g.ver_cnt g.line_sprite_list
      g.line_sprite_data_list (transparent_pixel, 0)).1 := by rw [← hs]
  have e2 : p = (sprite_walk (u32 (g.hor_cnt + 4294967296 - 1)) g.ver_cnt g.line_sprite_list
      g.line_sprite_data_list (transparent_pixel, 0)).2 := by rw [← hs]
  rw [hb, e1, e2, ← e0]
  rfl

/-- C32: at a visible dot, with `b` the background pixel, `s` the sprite pixel and
`p` the priority bit of the walk, the tick emits `s` when `s` is opaque and
(`p` = 0 or `b` is transparent), `b` when `b` is opaque and (`s` is transparent or
`p` = 1), and palette entry 0 when both are transparent; `p` is 0 or 1. -/
theorem emitted_pixel (g : Gfx) (hv : g.ver_cnt < 240) (h1 : 1 ≤ g.hor_cnt) (h2 : g.hor_cnt < 257)
    (b s p : Nat) (hb : b = background_get_pixel g g.scroll_x g.scroll_y g.scroll_nametable)
    (hs : (s, p) = sprite_walk (g.hor_cnt - 1) g.ver_cnt g.line_sprite_list
      g.line_sprite_data_list (transparent_pixel, 0)) :
    ( pixel_is_opaque s = true ∧ (p = 0 ∨ b = transparent_pixel) → (cycle g).2.pixel = some s) ∧
    ( pixel_is_opaque b = true ∧ (s = transparent_pixel ∨ p = 1) → (cycle g).2.pixel = some b) ∧
    (b = transparent_pixel ∧ s = transparent_pixel →
      (cycle g).2.pixel = some (get_palette_entry g 0)) ∧
    (p = 0 ∨ p = 1) := by
  have hp : p < 2 := by
    have := sprite_walk_priority (g.hor_cnt - 1) g.ver_cnt g.line_sprite_list
      g.line_sprite_data_list (transparent_pixel, 0) (by decide)
    rw [← hs] at this
    exact this
  have hx : u32 (g.hor_cnt + 4294967296 - 1) = g.hor_cnt - 1 := by
    unfold u32
    omega
  have key : (cycle g).2.pixel = some
      (if (if ( pixel_is_opaque s && p == 0) = true then s
            else if b = transparent_pixel then s else b) = transparent_pixel
        then g.palette 0 % 256
        else (if ( pixel_is_opaque s && p == 0) = true then s
              else if b = transparent_pixel then s else b)) := by
    show (cycle_visible (cycle_start g).1).2.1 = _
    rcases cycle_start_cases g with e | e
    · rw [e, cycle_visible_dot g hv h1 h2]
      simp only []
      rw [cycle_pixel_composite g b s p hb (by rw [hx]; exact hs)]
    · rw [e, cycle_visible_dot { g with started := true, frame_idx := 0 } hv h1 h2]
      simp only []
      rw [cycle_pixel_composite { g with started := true, frame_idx := 0 } b s p hb
        (by rw [hx]; exact hs)]
  have hpe : get_palette_entry g 0 = g.palette 0 % 256 := rfl
  rw [key, hpe]
  unfold pixel_is_opaque transparent_pixel
  refine ⟨?_, ?_, ?_, by omega⟩
  · rintro ⟨ho, hc⟩
    have hs0 : s ≠ 255 := by simpa using ho
    rcases hc with hc | hc
    · subst hc
      simp [hs0]
    · subst hc
      by_cases hp0 : p = 0 <;> simp [hs0, hp0]
  · rintro ⟨ho, hc⟩
    have hb0 : b ≠ 255 := by simpa using ho
    rcases hc with hc | hc
    · subst hc
      simp [hb0]
    · subst hc
      simp [hb0]
  · rintro ⟨hb0, hs0⟩
    subst hb0
    subst hs0
    simp

/-- Witness of C32: in the scenario the background is transparent and the walk
yields the opaque pixel 0x2A with priority 1; the tick emits 0x2A. -/
theorem emitted_pixel_witness :
    walk_scenario.ver_cnt < 240 ∧ walk_scenario.hor_cnt = 1 ∧
    background_get_pixel walk_scenario walk_scenario.scroll_x walk_scenario.scroll_y
      walk_scenario.scroll_nametable = transparent_pixel ∧
    (cycle walk_scenario).2.pixel = some 0x2a :=
  ⟨by decide, by decide, by decide,
   (emitted_pixel walk_scenario (by decide) (by decide) (by decide) transparent_pixel 0x2a 1
      (by decide) (by decide)).1 ⟨by decide, Or.inr rfl⟩⟩

/-! ## The arrays behind the PPU address space -/

theorem write_mem_chr (g : Gfx) (a v : Nat) (h : a < 0x2000) :
    write_mem g a v = { g with memory := upd g.memory a (v % 256) } := by
  unfold write_mem
  simp only []
  rw [mask14, Nat.mod_eq_of_lt (show a < 0x4000 by omega), alias_adr_of_lt a (by omega),
    if_pos h]

theorem read_mem_chr (g : Gfx) (a : Nat) (h : a < 0x2000) :
    read_mem g a = g.pattern_table a % 256 := by
  unfold read_mem
  simp only []
  rw [mask14, Nat.mod_eq_of_lt (show a < 0x4000 by omega), alias_adr_of_lt a (by omega),
    if_pos h]

theorem palette_region (a : Nat) (h1 : 0x3f00 ≤ a) (h2 : a < 0x4000) :
    0x3eff ≤ alias_adr (a &&& 0x3fff) := by
  rw [mask14, Nat.mod_eq_of_lt h2]
  unfold alias_adr
  split <;> omega

/-- C33 at its failing input: a PPU-side write at the CHR address 0x0005 leaves the
pattern table as it is and stores the byte in cell 5 of the nametable array,
where a read at 0x2005 finds it. For every CHR address `a` the write goes to cell
`a` of the nametable array; reads of the CHR range, and reads and writes of the
nametable and palette ranges, use the array of their region at an index within
its size. -/
theorem write_mem_chr_hits_nametable :
    read_mem (init start) 0x2005 = 0 ∧
    read_mem (write_mem (init start) 0x0005 0x55) 0x2005 = 0x55 ∧
    read_mem (write_mem (init start) 0x0005 0x55) 0x0005 = 0 ∧
    (∀ (g : Gfx) (a v : Nat), a < 0x2000 →
      write_mem g a v = { g with memory := upd g.memory a (v % 256) }) ∧
    (∀ (g : Gfx) (a : Nat), a < 0x2000 → read_mem g a = g.pattern_table a % 256) ∧
    (∀ (g : Gfx) (a v : Nat), 0x2000 ≤ a → a < 0x3000 →
      mirror_adr g.mirroring (a - 0x2000) < 0x800 ∧
      read_mem g a = g.memory (mirror_adr g.mirroring (a - 0x2000)) % 256 ∧
      write_mem g a v
        = { g with memory := upd g.memory (mirror_adr g.mirroring (a - 0x2000)) (v % 256) }) ∧
    (∀ (g : Gfx) (a v : Nat), 0x3f00 ≤ a → a < 0x4000 →
      get_last_bits (alias_adr (a &&& 0x3fff)) 5 < 0x20 ∧
      read_mem g a = g.palette (get_last_bits (alias_adr (a &&& 0x3fff)) 5) % 256 ∧
      write_mem g a v = { g with palette := (write_mem g a v).palette } ∧
      ∀ j, 0x20 ≤ j → (write_mem g a v).palette j = g.palette j) := by
  refine ⟨by decide, by decide, by decide, write_mem_chr, read_mem_chr, ?_, ?_⟩
  · intro g a v h1 h2
    exact ⟨mirror_adr_lt _ _ (by omega), read_mem_nametable g a h1 h2,
      write_mem_nametable g a v h1 h2⟩
  · intro g a v h1 h2
    have hr := palette_region a h1 h2
    have hlt : get_last_bits (alias_adr (a &&& 0x3fff)) 5 < 0x20 := by
      unfold get_last_bits
      exact Nat.mod_lt _ (by decide)
    refine ⟨hlt, read_mem_palette g a hr, ?_, ?_⟩
    · rw [write_mem_palette g a v hr]
    · intro j hj
      rw [write_mem_palette g a v hr]
      simp only []
      have hc : get_last_bits (alias_adr (a &&& 0x3fff)) 5 % 256 < 32 := by omega
      generalize get_last_bits (alias_adr (a &&& 0x3fff)) 5 % 256 = c at hc
      have hf : flip_bit c 4 < 32 := by
        interval_cases c <;> decide
      split
      · rw [upd_ne _ _ _ _ (by omega), upd_ne _ _ _ _ (by omega)]
      · rw [upd_ne _ _ _ _ (by omega)]

/-! ## The shortlist during the pixel dots of a scanline -/

theorem evaluate_sprites_covers (g : Gfx) (y : Nat) :
    (evaluate_sprites g y).line_sprite_data_list.length
      = (evaluate_sprites g y).line_sprite_list.length ∧
    ∀ spr ∈ (evaluate_sprites g y).line_sprite_list,
      in_range y spr.get_y (u32 (spr.get_y + sprite_height)) = true := by
  unfold evaluate_sprites
  refine ⟨evaluate_sprites_loop_length _ _ _ _ rfl, ?_⟩
  intro spr hs
  rw [evaluate_sprites_loop_list y 64 0
    { g with line_sprite_list := [], line_sprite_data_list := [] } (by decide : (0 : Nat) < 8)]
    at hs
  simp only [List.nil_append] at hs
  have hf := List.mem_of_mem_take hs
  exact (List.mem_filter.mp hf).2

theorem cycle_visible_lists (g : Gfx) :
    (g.ver_cnt < 240 ∧ g.hor_cnt = 0 →
      (cycle_visible g).1.line_sprite_data_list.length
        = (cycle_visible g).1.line_sprite_list.length ∧
      ∀ spr ∈ (cycle_visible g).1.line_sprite_list,
        in_range g.ver_cnt spr.get_y (u32 (spr.get_y + sprite_height)) = true) ∧
    (¬ (g.ver_cnt < 240 ∧ g.hor_cnt = 0) →
      (cycle_visible g).1.line_sprite_list = g.line_sprite_list ∧
      (cycle_visible g).1.line_sprite_data_list = g.line_sprite_data_list) := by
  unfold cycle_visible
  by_cases hv : g.ver_cnt < 240
  · rw [if_pos hv]
    simp only []
    by_cases h00 : g.ver_cnt = 0 ∧ g.hor_cnt = 0
    · rw [if_pos h00]
      simp only []
      rw [if_pos h00.2]
      exact ⟨fun _ => evaluate_sprites_covers _ _, fun hn => absurd ⟨hv, h00.2⟩ hn⟩
    · rw [if_neg h00]
      by_cases h0 : g.hor_cnt = 0
      · rw [if_pos h0]
        exact ⟨fun _ => evaluate_sprites_covers _ _, fun hn => absurd ⟨hv, h0⟩ hn⟩
      rw [if_neg h0]
      by_cases h1 : g.hor_cnt < 257
      · rw [if_pos h1]
        simp only []
        refine ⟨fun hn => absurd hn.2 h0, fun _ => ?_⟩
        rw [cycle_pixel_frame]
        exact ⟨rfl, rfl⟩
      · rw [if_neg h1]
        exact ⟨fun hn => absurd hn.2 h0, fun _ => ⟨rfl, rfl⟩⟩
  · rw [if_neg hv]
    exact ⟨fun hn => absurd hn.1 hv, fun _ => ⟨rfl, rfl⟩⟩

theorem cycle_lists (g : Gfx) :
    (cycle g).1.line_sprite_list = (cycle_visible (cycle_start g).1).1.line_sprite_list ∧
    (cycle g).1.line_sprite_data_list
      = (cycle_visible (cycle_start g).1).1.line_sprite_data_list := by
  constructor
  · show (cycle_delayed_set (cycle_advance (cycle_flags
      (cycle_visible (cycle_start g).1).1).1)).line_sprite_list = _
    rw [cycle_delayed_set_frame, cycle_advance_frame, cycle_flags_frame]
  · show (cycle_delayed_set (cycle_advance (cycle_flags
      (cycle_visible (cycle_start g).1).1).1)).line_sprite_data_list = _
    rw [cycle_delayed_set_frame, cycle_advance_frame, cycle_flags_frame]

theorem cycle_start_position (g : Gfx) :
    (cycle_start g).1.hor_cnt = g.hor_cnt ∧ (cycle_start g).1.ver_cnt = g.ver_cnt ∧
    (cycle_start g).1.line_sprite_list = g.line_sprite_list ∧
    (cycle_start g).1.line_sprite_data_list = g.line_sprite_data_list := by
  rw [cycle_start_frame]
  exact ⟨rfl, rfl, rfl, rfl⟩

theorem cycle_shortlist (g : Gfx) (hh : g.hor_cnt < 341) (hv : g.ver_cnt < 262)
    (hl : g.line_sprite_data_list.length = g.line_sprite_list.length)
    (hc : g.ver_cnt < 240 → 1 ≤ g.hor_cnt → g.hor_cnt < 257 →
      ∀ spr ∈ g.line_sprite_list, spr.get_y ≤ g.ver_cnt ∧ g.ver_cnt < spr.get_y + 8) :
    (cycle g).1.line_sprite_data_list.length = (cycle g).1.line_sprite_list.length ∧
    ((cycle g).1.ver_cnt < 240 → 1 ≤ (cycle g).1.hor_cnt → (cycle g).1.hor_cnt < 257 →
      ∀ spr ∈ (cycle g).1.line_sprite_list,
        spr.get_y ≤ (cycle g).1.ver_cnt ∧ (cycle g).1.ver_cnt < spr.get_y + 8) := by
  obtain ⟨p1, p2, p3, p4⟩ := cycle_start_position g
  obtain ⟨l1, l2⟩ := cycle_lists g
  obtain ⟨v1, v2⟩ := cycle_visible_lists (cycle_start g).1
  rw [p1, p2] at v1 v2
  obtain ⟨c1, c2⟩ := cycle_counters g hh hv
  unfold dots scanline_length at c2
  rw [l1, l2]
  by_cases h0 : g.ver_cnt < 240 ∧ g.hor_cnt = 0
  · obtain ⟨e1, e2⟩ := v1 h0
    refine ⟨e1, ?_⟩
    intro a b c spr hs
    have hr := e2 spr hs
    have c3 := c2 (by omega)
    unfold in_range sprite_height u32 at hr
    simp only [Bool.and_eq_true, decide_eq_true_eq] at hr
    have hy : (cycle g).1.ver_cnt = g.ver_cnt := by omega
    rw [hy]
    omega
  · obtain ⟨e1, e2⟩ := v2 h0
    rw [e1, e2, p3, p4]
    refine ⟨hl, ?_⟩
    intro a b c spr hs
    by_cases hw : (g.frame_idx % 2 = 1 ∧ g.ver_cnt = 261 ∧ g.hor_cnt = 339) ∨
        (g.ver_cnt = 261 ∧ g.hor_cnt = 340)
    · have := (c1 hw).1
      omega
    · have c3 := c2 hw
      have hy : (cycle g).1.ver_cnt = g.ver_cnt := by omega
      have hx : (cycle g).1.hor_cnt = g.hor_cnt + 1 := by omega
      rw [hy]
      exact hc (by omega) (by omega) (by omega) spr hs

theorem set_position (g : Gfx) (adr val : Nat) :
    (set g adr val).hor_cnt = g.hor_cnt ∧ (set g adr val).ver_cnt = g.ver_cnt ∧
    (set g adr val).line_sprite_list = g.line_sprite_list ∧
    (set g adr val).line_sprite_data_list = g.line_sprite_data_list := by
  rw [set_frame]
  exact ⟨rfl, rfl, rfl, rfl⟩

theorem get_position (g : Gfx) (adr : Nat) :
    (get g adr).2.hor_cnt = g.hor_cnt ∧ (get g adr).2.ver_cnt = g.ver_cnt ∧
    (get g adr).2.line_sprite_list = g.line_sprite_list ∧
    (get g adr).2.line_sprite_data_list = g.line_sprite_data_list := by
  rw [get_frame]
  exact ⟨rfl, rfl, rfl, rfl⟩

theorem reachable_shortlist (g : Gfx) (h : Reachable g) :
    g.line_sprite_data_list.length = g.line_sprite_list.length ∧
    (g.ver_cnt < 240 → 1 ≤ g.hor_cnt → g.hor_cnt < 257 →
      ∀ spr ∈ g.line_sprite_list, spr.get_y ≤ g.ver_cnt ∧ g.ver_cnt < spr.get_y + 8) := by
  induction h with
  | start => exact ⟨rfl, fun _ h1 _ => absurd h1 (by decide)⟩
  | init g _ ih => exact ⟨ih.1, fun _ h1 _ => absurd h1 (by decide : ¬ 1 ≤ 0)⟩
  | load_pattern_table g data _ ih => exact ih
  | set g adr val _ ih =>
    obtain ⟨a, b, c, d⟩ := set_position g adr val
    rw [a, b, c, d]
    exact ih
  | set_with_delay g adr val c _ ih => exact ih
  | get g adr _ ih =>
    obtain ⟨a, b, c, d⟩ := get_position g adr
    rw [a, b, c, d]
    exact ih
  | cycle g hr ih =>
    obtain ⟨hh, hv⟩ := reachable_counters g hr
    exact cycle_shortlist g hh hv ih.1 ih.2
  | oam_write g val _ ih => exact ih
  | set_mirroring g val _ ih => exact ih

/-- C34: in every reachable state at a visible dot, the list of cached matrices is
as long as the shortlist, and each shortlisted sprite whose X range contains the
current column has a Y range containing the current scanline, so the index
`(y - sy) * 8 + (x - sx)` the walk computes for its matrix is below 64. -/
theorem walk_in_bounds (g : Gfx) (h : Reachable g) (hv : g.ver_cnt < 240) (h1 : 1 ≤ g.hor_cnt)
    (h2 : g.hor_cnt < 257) :
    g.line_sprite_data_list.length = g.line_sprite_list.length ∧
    ∀ spr ∈ g.line_sprite_list,
      in_range (g.hor_cnt - 1) spr.get_x (u32 (spr.get_x + sprite_width)) = true →
      (spr.get_y ≤ g.ver_cnt ∧ g.ver_cnt < spr.get_y + 8) ∧
      (spr.get_x ≤ g.hor_cnt - 1 ∧ g.hor_cnt - 1 < spr.get_x + 8) ∧
      u32 (u32 (g.ver_cnt + 4294967296 - spr.get_y) * sprite_width
          + u32 (u32 (g.hor_cnt + 4294967296 - 1) + 4294967296 - spr.get_x))
        = (g.ver_cnt - spr.get_y) * 8 + (g.hor_cnt - 1 - spr.get_x) ∧
      (g.ver_cnt - spr.get_y) * 8 + (g.hor_cnt - 1 - spr.get_x) < 64 := by
  obtain ⟨hl, hc⟩ := reachable_shortlist g h
  refine ⟨hl, ?_⟩
  intro spr hs hx
  have hy := hc hv h1 h2 spr hs
  unfold in_range sprite_width u32 at hx
  simp only [Bool.and_eq_true, decide_eq_true_eq] at hx
  unfold sprite_width u32
  omega

/-- Witness of C34: the scenario is a reachable state at dot 1 of scanline 0 with
eight shortlisted sprites, all of which cover column 0 and scanline 0. -/
theorem walk_in_bounds_witness :
    Reachable walk_scenario ∧ walk_scenario.ver_cnt = 0 ∧ walk_scenario.hor_cnt = 1 ∧
    walk_scenario.line_sprite_list.length = 8 ∧
    walk_scenario.line_sprite_data_list.length = walk_scenario.line_sprite_list.length ∧
    ∀ spr ∈ walk_scenario.line_sprite_list,
      in_range 0 spr.get_x (u32 (spr.get_x + sprite_width)) = true →
      (0 - spr.get_y) * 8 + (0 - spr.get_x) < 64 :=
  have key := walk_in_bounds walk_scenario walk_scenario_reachable (by decide) (by decide)
    (by decide)
  ⟨walk_scenario_reachable, by decide, by decide, by decide, key.1,
   fun spr hs hx => (key.2 spr hs hx).2.2.2⟩

end gfx

/-! ## The pointer of the zero-page indirect modes -/

namespace machine

theorem m_inx_arg (s : Machine) :
    (m_inx s).arg
      = make_adr (s.memory (((read_mem s s.pc).1 + s.rx) % 256 + 1) % 256)
          (s.memory (((read_mem s s.pc).1 + s.rx) % 256) % 256) := by
  unfold m_inx
  simp only []
  rw [set_arg_one]
  simp only []
  have e1 : (read_mem { s with r_cyc := 4, w_cyc := 4 } s.pc).1 = (read_mem s s.pc).1 :=
    (read_mem_congr s { s with r_cyc := 4, w_cyc := 4 } s.pc rfl rfl rfl rfl rfl rfl rfl rfl
      rfl rfl).1
  rw [e1, read_mem_rx]
  simp only []
  have hz : ((read_mem s s.pc).1 + s.rx) % 256 < 256 := Nat.mod_lt _ (by decide)
  generalize ((read_mem s s.pc).1 + s.rx) % 256 = z at hz
  unfold read_mem_2
  simp only []
  have e2 : u64 (z + 1) = z + 1 := by unfold u64; omega
  rw [e2, read_mem_ram _ z (by omega)]
  simp only []
  rw [read_mem_ram _ (z + 1) (by omega)]
  simp only []
  rw [read_mem_memory]
  simp only []
  rw [Nat.mod_eq_of_lt (show z < 0x800 by omega), Nat.mod_eq_of_lt (show z + 1 < 0x800 by omega)]

theorem m_iny_arg (s : Machine) (h : s.pc < 0x10000) :
    (m_iny s).arg
      = make_adr
          ((s.memory (((read_mem s s.pc).1 + 1) % 256) % 256
            + (add_with_carry (s.memory (read_mem s s.pc).1 % 256) s.ry).2.toNat) % 256)
          (add_with_carry (s.memory (read_mem s s.pc).1 % 256) s.ry).1 := by
  unfold m_iny
  simp only []
  rw [set_arg_one]
  simp only []
  have hz : (read_mem s s.pc).1 < 256 := read_mem_fst_lt s s.pc h
  have hm : (read_mem s s.pc).2.memory = s.memory := read_mem_memory s s.pc
  have hy : (read_mem s s.pc).2.ry = s.ry := read_mem_ry s s.pc
  generalize (read_mem s s.pc).1 = z at hz
  generalize (read_mem s s.pc).2 = t at hm hy
  have hz1 : (z + 1) % 256 < 256 := Nat.mod_lt _ (by decide)
  rw [read_mem_ram t z (by omega)]
  simp only []
  rw [read_mem_ram t ((z + 1) % 256) (by omega)]
  simp only []
  rw [hm, hy, Nat.mod_eq_of_lt (show z < 0x800 by omega),
    Nat.mod_eq_of_lt (show (z + 1) % 256 < 0x800 by omega)]

/-- C35 at its failing input: for `LDA ($FF,X)` with X = 0 the high byte of the
pointer comes from 0x0100 (0x03), not from 0x0000 (0x02), so the operand address
is 0x0300 and A is loaded with 0xBB; `LDA ($FF),Y` with Y = 0 on the same RAM takes
the high byte from 0x0000 and loads 0xAA. In general `m_inx` reads the pointer at
`z` and `z + 1` for `z = (operand + X) mod 0x100`, and `m_iny` at `z` and
`(z + 1) mod 0x100` for `z = operand`. -/
theorem m_inx_pointer_leaves_zero_page :
    inx_scenario.memory 0x0000 = 0x02 ∧ inx_scenario.memory 0x0100 = 0x03 ∧
    (m_inx (fetch inx_scenario)).arg = 0x0300 ∧
    (step inx_scenario).1 = 0 ∧ (step inx_scenario).2.ra = 0xbb ∧
    (step iny_scenario).1 = 0 ∧ (step iny_scenario).2.ra = 0xaa ∧
    (∀ s : Machine, (m_inx s).arg
      = make_adr (s.memory (((read_mem s s.pc).1 + s.rx) % 256 + 1) % 256)
          (s.memory (((read_mem s s.pc).1 + s.rx) % 256) % 256)) ∧
    (∀ s : Machine, s.pc < 0x10000 → (m_iny s).arg
      = make_adr
          ((s.memory (((read_mem s s.pc).1 + 1) % 256) % 256
            + (add_with_carry (s.memory (read_mem s s.pc).1 % 256) s.ry).2.toNat) % 256)
          (add_with_carry (s.memory (read_mem s s.pc).1 % 256) s.ry).1) :=
  ⟨by decide, by decide, by decide, by decide, by decide, by decide, by decide, m_inx_arg,
   m_iny_arg⟩

end machine

namespace gfx

/-! ## The scroll registers over the pixel dots of a scanline -/

theorem background_fetch_pixel_scroll (g : Gfx) :
    (background_fetch_pixel g).2.scroll_x_start = g.scroll_x_start ∧
    (background_fetch_pixel g).2.scroll_x = (g.scroll_x + 1) % 256 ∧
    ((g.scroll_x + 1) % 256 = g.scroll_x_start →
      (background_fetch_pixel g).2.scroll_y
        = (if (g.scroll_y + 1) % 256 = 240 then 0 else (g.scroll_y + 1) % 256) ∧
      (background_fetch_pixel g).2.scroll_nametable
        = (if g.scroll_x_start ≠ 0 then
            flip_bit (if (g.scroll_y + 1) % 256 = 240 then flip_bit g.scroll_nametable 1
              else g.scroll_nametable) 0
           else (if (g.scroll_y + 1) % 256 = 240 then flip_bit g.scroll_nametable 1
              else g.scroll_nametable))) ∧
    ((g.scroll_x + 1) % 256 ≠ g.scroll_x_start →
      (background_fetch_pixel g).2.scroll_y = g.scroll_y ∧
      (background_fetch_pixel g).2.scroll_nametable
        = (if (g.scroll_x + 1) % 256 = 0 then flip_bit g.scroll_nametable 0
           else g.scroll_nametable)) := by
  unfold background_fetch_pixel
  simp only []
  refine ⟨?_, ?_, ?_, ?_⟩
  · split
    · split <;> split <;> rfl
    · split <;> rfl
  · split
    · split <;> split <;> rfl
    · split <;> rfl
  · intro h
    rw [if_pos h]
    by_cases hy : (g.scroll_y + 1) % 256 = 240
    · rw [if_pos hy, if_pos hy, if_pos hy]
      simp only []
      split <;> exact ⟨rfl, rfl⟩
    · rw [if_neg hy, if_neg hy, if_neg hy]
      simp only []
      split <;> exact ⟨rfl, rfl⟩
  · intro h
    rw [if_neg h]
    split <;> exact ⟨rfl, rfl⟩

theorem cycle_pixel_scroll (g : Gfx) :
    (cycle_pixel g).1.hor_cnt = g.hor_cnt ∧ (cycle_pixel g).1.ver_cnt = g.ver_cnt ∧
    (cycle_pixel g).1.set_delay_active = g.set_delay_active ∧
    (cycle_pixel g).1.scroll_x_start = g.scroll_x_start ∧
    (cycle_pixel g).1.scroll_x = (background_fetch_pixel g).2.scroll_x ∧
    (cycle_pixel g).1.scroll_y = (background_fetch_pixel g).2.scroll_y ∧
    (cycle_pixel g).1.scroll_nametable = (background_fetch_pixel g).2.scroll_nametable := by
  have hs : (cycle_pixel g).1.scroll_x = (background_fetch_pixel g).2.scroll_x ∧
      (cycle_pixel g).1.scroll_y = (background_fetch_pixel g).2.scroll_y ∧
      (cycle_pixel g).1.scroll_nametable = (background_fetch_pixel g).2.scroll_nametable := by
    unfold cycle_pixel
    simp only []
    split <;> split <;> exact ⟨rfl, rfl, rfl⟩
  refine ⟨?_, ?_, ?_, ?_, hs.1, hs.2.1, hs.2.2⟩ <;> rw [cycle_pixel_frame]

theorem cycle_flags_visible (x : Gfx) (hv : x.ver_cnt < 240) : (cycle_flags x).1 = x := by
  unfold cycle_flags prerender_line scanline_count
  simp only []
  rw [if_neg (show ¬ (x.ver_cnt = 262 - 1 ∧ x.hor_cnt = 1) by omega),
    if_neg (show ¬ (x.ver_cnt = 241 ∧ x.hor_cnt = 1) by omega)]

theorem cycle_advance_dot (x : Gfx) (hv : x.ver_cnt < 240) (hh : x.hor_cnt < 257) :
    cycle_advance x = { x with hor_cnt := x.hor_cnt + 1 } := by
  unfold cycle_advance scanline_length
  simp only []
  rw [if_neg (show ¬ (x.frame_idx % 2 = 1 ∧ x.ver_cnt = 261 ∧ x.hor_cnt = 339) by omega)]
  simp only []
  have e : u32 (x.hor_cnt + 1) = x.hor_cnt + 1 := by unfold u32; omega
  rw [e, if_neg (show ¬ (x.hor_cnt + 1 = 341) by omega)]

theorem cycle_delayed_set_idle (x : Gfx) (hd : x.set_delay_active = false) :
    cycle_delayed_set x = x := by
  unfold cycle_delayed_set
  rw [if_neg (by rw [hd]; decide)]

theorem cycle_dot (g : Gfx) (hv : g.ver_cnt < 240) (h1 : 1 ≤ g.hor_cnt) (h2 : g.hor_cnt < 257)
    (hd : g.set_delay_active = false) :
    (cycle g).1.hor_cnt = g.hor_cnt + 1 ∧ (cycle g).1.ver_cnt = g.ver_cnt ∧
    (cycle g).1.set_delay_active = false ∧
    (cycle g).1.scroll_x_start = g.scroll_x_start ∧
    (cycle g).1.scroll_x = (g.scroll_x + 1) % 256 ∧
    ((g.scroll_x + 1) % 256 = g.scroll_x_start →
      (cycle g).1.scroll_y
        = (if (g.scroll_y + 1) % 256 = 240 then 0 else (g.scroll_y + 1) % 256) ∧
      (cycle g).1.scroll_nametable
        = (if g.scroll_x_start ≠ 0 then
            flip_bit (if (g.scroll_y + 1) % 256 = 240 then flip_bit g.scroll_nametable 1
              else g.scroll_nametable) 0
           else (if (g.scroll_y + 1) % 256 = 240 then flip_bit g.scroll_nametable 1
              else g.scroll_nametable))) ∧
    ((g.scroll_x + 1) % 256 ≠ g.scroll_x_start →
      (cycle g).1.scroll_y = g.scroll_y ∧
      (cycle g).1.scroll_nametable
        = (if (g.scroll_x + 1) % 256 = 0 then flip_bit g.scroll_nametable 0
           else g.scroll_nametable)) := by
  have key : ∀ s : Gfx, s.ver_cnt = g.ver_cnt → s.hor_cnt = g.hor_cnt →
      s.set_delay_active = false →
      cycle_delayed_set (cycle_advance (cycle_flags (cycle_visible s).1).1)
        = { (cycle_pixel s).1 with hor_cnt := g.hor_cnt + 1 } := by
    intro s e1 e2 e3
    obtain ⟨p1, p2, p3, _⟩ := cycle_pixel_scroll s
    rw [cycle_visible_dot s (by omega) (by omega) (by omega)]
    simp only []
    rw [cycle_flags_visible _ (by omega), cycle_advance_dot _ (by omega) (by omega),
      cycle_delayed_set_idle _ (by simp only []; rw [p3, e3]), p1, e2]
  have hc : (cycle g).1 = cycle_delayed_set (cycle_advance (cycle_flags
      (cycle_visible (cycle_start g).1).1).1) := rfl
  rw [hc]
  rcases cycle_start_cases g with e | e
  · rw [e, key g rfl rfl hd]
    simp only []
    obtain ⟨_, p2, p3, p4, p5, p6, p7⟩ := cycle_pixel_scroll g
    obtain ⟨_, q2, q3, q4⟩ := background_fetch_pixel_scroll g
    rw [p5, p6, p7]
    exact ⟨trivial, p2, p3.trans hd, p4, q2, q3, q4⟩
  · rw [e, key { g with started := true, frame_idx := 0 } rfl rfl hd]
    simp only []
    obtain ⟨_, p2, p3, p4, p5, p6, p7⟩ :=
      cycle_pixel_scroll { g with started := true, frame_idx := 0 }
    obtain ⟨_, q2, q3, q4⟩ :=
      background_fetch_pixel_scroll { g with started := true, frame_idx := 0 }
    simp only [] at q2 q3 q4
    rw [p5, p6, p7]
    exact ⟨trivial, p2, p3.trans hd, p4, q2, q3, q4⟩

theorem get_bit_flip_bit (x n m : Nat) (hn : n < 8) (hm : m < 8) :
    get_bit (flip_bit x n) m = if m = n then 1 - get_bit x n else get_bit x m := by
  unfold flip_bit
  rw [get_bit_set_bit x n m _ hn hm]
  have h := get_bit_lt x n
  by_cases e : m = n
  · rw [if_pos e, if_pos e]
    by_cases h0 : get_bit x n = 0
    · rw [h0]; rfl
    · have h1 : get_bit x n = 1 := by omega
      rw [h1]; rfl
  · rw [if_neg e, if_neg e]

theorem scroll_run (g : Gfx) (hv : g.ver_cnt < 240) (h1 : g.hor_cnt = 1)
    (hx : g.scroll_x = g.scroll_x_start) (hs : g.scroll_x_start < 256)
    (hd : g.set_delay_active = false) (k : Nat) (hk : k ≤ 255) :
    (ticks k g).hor_cnt = 1 + k ∧ (ticks k g).ver_cnt = g.ver_cnt ∧
    (ticks k g).set_delay_active = false ∧
    (ticks k g).scroll_x_start = g.scroll_x_start ∧
    (ticks k g).scroll_x = (g.scroll_x_start + k) % 256 ∧
    (ticks k g).scroll_y = g.scroll_y ∧
    (ticks k g).scroll_nametable
      = (if 256 ≤ g.scroll_x_start + k then flip_bit g.scroll_nametable 0
         else g.scroll_nametable) := by
  induction k with
  | zero =>
    refine ⟨h1, rfl, hd, rfl, ?_, rfl, ?_⟩
    · show g.scroll_x = _
      rw [hx, Nat.add_zero, Nat.mod_eq_of_lt hs]
    · rw [if_neg (by omega)]
      rfl
  | succ k ih =>
    obtain ⟨a1, a2, a3, a4, a5, a6, a7⟩ := ih (by omega)
    obtain ⟨c1, c2, c3, c4, c5, _, c7⟩ := cycle_dot (ticks k g) (by omega) (by omega) (by omega) a3
    rw [ticks_succ]
    have e5 : ((ticks k g).scroll_x + 1) % 256 = (g.scroll_x_start + (k + 1)) % 256 := by
      rw [a5]; omega
    have hne : ((ticks k g).scroll_x + 1) % 256 ≠ (ticks k g).scroll_x_start := by
      rw [e5, a4]; omega
    obtain ⟨d1, d2⟩ := c7 hne
    refine ⟨by omega, by omega, c3, c4.trans a4, c5.trans e5, d1.trans a6, ?_⟩
    rw [d2, e5, a7]
    by_cases z : (g.scroll_x_start + (k + 1)) % 256 = 0
    · rw [if_pos z, if_neg (by omega), if_pos (by omega)]
    · rw [if_neg z]
      by_cases w : 256 ≤ g.scroll_x_start + k
      · rw [if_pos w, if_pos (by omega)]
      · rw [if_neg w, if_neg (by omega)]

/-- C36: from dot 1 of a visible scanline with `scroll_x = scroll_x_start` and no
delayed register write pending, the 256 pixel ticks bring `scroll_x` back to
`scroll_x_start`, leave bit 0 of the nametable selector as it was, and advance
`scroll_y` once, at the last of them: 239 becomes 0 with bit 1 of the selector
toggled, any other value `y` becomes `(y + 1) mod 256` with bit 1 unchanged. -/
theorem scanline_scroll (g : Gfx) (hv : g.ver_cnt < 240) (h1 : g.hor_cnt = 1)
    (hx : g.scroll_x = g.scroll_x_start) (hs : g.scroll_x_start < 256) (hy : g.scroll_y < 256)
    (hd : g.set_delay_active = false) :
    (ticks 256 g).hor_cnt = 257 ∧ (ticks 256 g).ver_cnt = g.ver_cnt ∧
    (ticks 256 g).scroll_x = g.scroll_x_start ∧
    get_bit (ticks 256 g).scroll_nametable 0 = get_bit g.scroll_nametable 0 ∧
    (∀ k, k ≤ 255 → (ticks k g).scroll_y = g.scroll_y) ∧
    (g.scroll_y = 239 → (ticks 256 g).scroll_y = 0 ∧
      get_bit (ticks 256 g).scroll_nametable 1 = 1 - get_bit g.scroll_nametable 1) ∧
    (g.scroll_y ≠ 239 → (ticks 256 g).scroll_y = (g.scroll_y + 1) % 256 ∧
      get_bit (ticks 256 g).scroll_nametable 1 = get_bit g.scroll_nametable 1) := by
  obtain ⟨a1, a2, a3, a4, a5, a6, a7⟩ := scroll_run g hv h1 hx hs hd 255 (Nat.le_refl _)
  obtain ⟨c1, c2, c3, c4, c5, c6, _⟩ :=
    cycle_dot (ticks 255 g) (by omega) (by omega) (by omega) a3
  have e : ticks 256 g = (cycle (ticks 255 g)).1 := ticks_succ 255 g
  rw [e]
  have e5 : ((ticks 255 g).scroll_x + 1) % 256 = g.scroll_x_start := by
    rw [a5]; omega
  obtain ⟨d1, d2⟩ := c6 (e5.trans a4.symm)
  rw [a6] at d1 d2
  rw [a4, a7] at d2
  have b0 := get_bit_lt g.scroll_nametable 0
  have b1 := get_bit_lt g.scroll_nametable 1
  have w : 256 ≤ g.scroll_x_start + 255 ↔ g.scroll_x_start ≠ 0 := by omega
  have hn : (cycle (ticks 255 g)).1.scroll_nametable
      = (if g.scroll_x_start ≠ 0 then
          flip_bit (if (g.scroll_y + 1) % 256 = 240 then
              flip_bit (flip_bit g.scroll_nametable 0) 1
            else flip_bit g.scroll_nametable 0) 0
         else (if (g.scroll_y + 1) % 256 = 240 then flip_bit g.scroll_nametable 1
            else g.scroll_nametable)) := by
    rw [d2]
    by_cases s0 : g.scroll_x_start ≠ 0
    · rw [if_pos s0, if_pos s0, if_pos (w.mpr s0)]
    · rw [if_neg s0, if_neg s0, if_neg (fun c => s0 (w.mp c))]
  have f00 : ∀ x, get_bit (flip_bit x 0) 0 = 1 - get_bit x 0 := fun x => by
    rw [get_bit_flip_bit x 0 0 (by decide) (by decide), if_pos rfl]
  have f01 : ∀ x, get_bit (flip_bit x 0) 1 = get_bit x 1 := fun x => by
    rw [get_bit_flip_bit x 0 1 (by decide) (by decide), if_neg (by decide)]
  have f10 : ∀ x, get_bit (flip_bit x 1) 0 = get_bit x 0 := fun x => by
    rw [get_bit_flip_bit x 1 0 (by decide) (by decide), if_neg (by decide)]
  have f11 : ∀ x, get_bit (flip_bit x 1) 1 = 1 - get_bit x 1 := fun x => by
    rw [get_bit_flip_bit x 1 1 (by decide) (by decide), if_pos rfl]
  refine ⟨by omega, by omega, c5.trans e5, ?_,
    fun k hk => (scroll_run g hv h1 hx hs hd k hk).2.2.2.2.2.1, ?_, ?_⟩
  · rw [hn]
    by_cases s0 : g.scroll_x_start ≠ 0
    · rw [if_pos s0]
      by_cases y0 : (g.scroll_y + 1) % 256 = 240
      · rw [if_pos y0, f00, f10, f00]
        omega
      · rw [if_neg y0, f00, f00]
        omega
    · rw [if_neg s0]
      by_cases y0 : (g.scroll_y + 1) % 256 = 240
      · rw [if_pos y0, f10]
      · rw [if_neg y0]
  · intro y239
    have y0 : (g.scroll_y + 1) % 256 = 240 := by omega
    rw [d1, hn, if_pos y0, if_pos y0, if_pos y0]
    refine ⟨rfl, ?_⟩
    by_cases s0 : g.scroll_x_start ≠ 0
    · rw [if_pos s0, f01, f11, f01]
    · rw [if_neg s0, f11]
  · intro y239
    have y0 : ¬ (g.scroll_y + 1) % 256 = 240 := by omega
    rw [d1, hn, if_neg y0, if_neg y0, if_neg y0]
    refine ⟨rfl, ?_⟩
    by_cases s0 : g.scroll_x_start ≠ 0
    · rw [if_pos s0, f01, f01]
    · rw [if_neg s0]

/-- Witness of C36: with the X scroll set to 0x10, the line that starts at dot 1 of
scanline 0 ends with `scroll_x` back at 0x10 and `scroll_y` advanced from 0 to 1. -/
theorem scanline_scroll_witness :
    scroll_scenario.ver_cnt = 0 ∧ scroll_scenario.hor_cnt = 1 ∧
    scroll_scenario.scroll_x = 0x10 ∧ scroll_scenario.scroll_x_start = 0x10 ∧
    scroll_scenario.scroll_y = 0 ∧ scroll_scenario.set_delay_active = false ∧
    (ticks 256 scroll_scenario).scroll_x = 0x10 ∧
    (ticks 256 scroll_scenario).scroll_y = 1 :=
  have key := scanline_scroll scroll_scenario (by decide) (by decide) (by decide) (by decide)
    (by decide) (by decide)
  ⟨by decide, by decide, by decide, by decide, by decide, by decide,
   key.2.2.1.trans (by decide), (key.2.2.2.2.2.2 (by decide)).1.trans (by decide)⟩

end gfx

/-! ## The cycle budget after a step -/

namespace machine

section budget

seal read_mem write_mem oam_dma

theorem oam_dma_cycle_count (val n i : Nat) (s : Machine) :
    (oam_dma val n i s).cycle_count = s.cycle_count := by
  induction n generalizing i s with
  | zero => unfold oam_dma; rfl
  | succ n ih =>
    unfold oam_dma
    simp only []
    rw [ih]
    exact read_mem_cycle_count _ _

theorem oam_dma_w_cyc (val n i : Nat) (s : Machine) : (oam_dma val n i s).w_cyc = s.w_cyc := by
  induction n generalizing i s with
  | zero => unfold oam_dma; rfl
  | succ n ih =>
    unfold oam_dma
    simp only []
    rw [ih]
    exact read_mem_w_cyc _ _

/-- What the DMA trigger leaves in the timing variables: the budget grows by 513
or 514, `w_cyc` stays. -/
theorem write_mem_dma (s : Machine) (v : Nat) :
    (write_mem s 0x4014 v).w_cyc = s.w_cyc ∧
    ((write_mem s 0x4014 v).cycle_count = u64 (s.cycle_count + 513) ∨
     (write_mem s 0x4014 v).cycle_count = u64 (u64 (s.cycle_count + 513) + 1)) := by
  unfold write_mem
  rw [if_neg (by decide), if_neg (by decide), if_pos rfl]
  simp only []
  by_cases ho : (oam_dma (v % 256) 0x100 0 s).odd_cycle = true
  · rw [if_pos ho]
    simp only []
    rw [oam_dma_w_cyc, oam_dma_cycle_count]
    exact ⟨rfl, Or.inr rfl⟩
  · rw [if_neg ho]
    simp only []
    rw [oam_dma_w_cyc, oam_dma_cycle_count]
    exact ⟨rfl, Or.inl rfl⟩

theorem write_mem_w_cyc_all (s : Machine) (a v : Nat) : (write_mem s a v).w_cyc = s.w_cyc := by
  by_cases h : a = 0x4014
  · subst h
    exact (write_mem_dma s v).1
  · exact write_mem_w_cyc s a v h

/-- A CPU-side write does not lower a small cycle budget. -/
theorem write_mem_budget (s : Machine) (a v : Nat) (h : s.cycle_count ≤ 1000) :
    s.cycle_count ≤ (write_mem s a v).cycle_count ∧
    (write_mem s a v).cycle_count ≤ s.cycle_count + 514 := by
  by_cases ha : a = 0x4014
  · subst ha
    rcases (write_mem_dma s v).2 with e | e <;> rw [e] <;> unfold u64 <;> omega
  · rw [write_mem_cycle_count s a v ha]
    omega

theorem set_with_flags_budget (s : Machine) (a v : Nat) (h : s.cycle_count ≤ 1000) :
    s.cycle_count ≤ (set_with_flags s a v).cycle_count ∧
    (set_with_flags s a v).cycle_count ≤ s.cycle_count + 514 ∧
    (set_with_flags s a v).w_cyc = s.w_cyc ∧ (set_with_flags s a v).arg = s.arg := by
  rw [set_with_flags_eq]
  simp only []
  exact ⟨(write_mem_budget s a _ h).1, (write_mem_budget s a _ h).2, write_mem_w_cyc_all s a _,
    write_mem_arg_all s a _⟩

theorem i_sta_budget (s : Machine) (h0 : s.cycle_count = 0) (hw : s.w_cyc ≤ 10) :
    2 ≤ (i_sta s).cycle_count ∧ (i_sta s).cycle_count ≤ 1000 := by
  unfold i_sta
  simp only [add_cycles]
  have e : u64 (s.cycle_count + u32 (2 + s.w_cyc)) = 2 + s.w_cyc := by
    rw [h0]; unfold u64 u32; omega
  rw [e]
  have := write_mem_budget { s with cycle_count := 2 + s.w_cyc } s.arg s.ra
    (by simp only []; omega)
  simp only [] at this
  omega

theorem i_stx_budget (s : Machine) (h0 : s.cycle_count = 0) (hr : s.r_cyc ≤ 10) :
    2 ≤ (i_stx s).cycle_count ∧ (i_stx s).cycle_count ≤ 1000 := by
  unfold i_stx
  simp only [add_cycles]
  have e : u64 (s.cycle_count + u32 (2 + s.r_cyc)) = 2 + s.r_cyc := by
    rw [h0]; unfold u64 u32; omega
  rw [e]
  have := write_mem_budget { s with cycle_count := 2 + s.r_cyc } s.arg s.rx
    (by simp only []; omega)
  simp only [] at this
  omega

theorem i_sty_budget (s : Machine) (h0 : s.cycle_count = 0) (hr : s.r_cyc ≤ 10) :
    2 ≤ (i_sty s).cycle_count ∧ (i_sty s).cycle_count ≤ 1000 := by
  unfold i_sty
  simp only [add_cycles]
  have e : u64 (s.cycle_count + u32 (2 + s.r_cyc)) = 2 + s.r_cyc := by
    rw [h0]; unfold u64 u32; omega
  rw [e]
  have := write_mem_budget { s with cycle_count := 2 + s.r_cyc } s.arg s.ry
    (by simp only []; omega)
  simp only [] at this
  omega

/-- The tail shared by the read-modify-write instructions: a `set_with_flags` on a
state with a zero budget, then `cycle_count += n` with `n` between 2 and 14. -/
theorem rmw_budget (t : Machine) (a v : Nat) (h0 : t.cycle_count = 0) (hw : t.w_cyc ≤ 10)
    (n : Machine → Nat)
    (hn : ∀ x : Machine, x.w_cyc ≤ 10 → 2 ≤ n x ∧ n x ≤ 14) :
    2 ≤ (add_cycles (set_with_flags t a v) (n (set_with_flags t a v))).cycle_count ∧
    (add_cycles (set_with_flags t a v) (n (set_with_flags t a v))).cycle_count ≤ 1000 ∧
    (add_cycles (set_with_flags t a v) (n (set_with_flags t a v))).w_cyc = t.w_cyc := by
  obtain ⟨b1, b2, b3, _⟩ := set_with_flags_budget t a v (by omega)
  obtain ⟨n1, n2⟩ := hn (set_with_flags t a v) (by rw [b3]; exact hw)
  unfold add_cycles
  simp only []
  refine ⟨?_, ?_, b3⟩ <;> unfold u64 u32 <;> omega

theorem i_inc_budget (s : Machine) (h0 : s.cycle_count = 0) (hw : s.w_cyc ≤ 10) :
    2 ≤ (i_inc s).cycle_count ∧ (i_inc s).cycle_count ≤ 1000 ∧ (i_inc s).w_cyc = s.w_cyc := by
  have key := rmw_budget (read_mem s s.arg).2 (read_mem s s.arg).2.arg ((read_mem s s.arg).1 + 1)
    (by rw [read_mem_cycle_count]; exact h0) (by rw [read_mem_w_cyc]; exact hw)
    (fun x => 4 + x.w_cyc)
    (fun x hx => show 2 ≤ 4 + x.w_cyc ∧ 4 + x.w_cyc ≤ 14 by omega)
  rw [read_mem_w_cyc] at key
  exact key

theorem i_dec_budget (s : Machine) (h0 : s.cycle_count = 0) (hw : s.w_cyc ≤ 10) :
    2 ≤ (i_dec s).cycle_count ∧ (i_dec s).cycle_count ≤ 1000 := by
  have key := rmw_budget (read_mem s s.arg).2 (read_mem s s.arg).2.arg
    ((read_mem s s.arg).1 + 4294967296 - 1)
    (by rw [read_mem_cycle_count]; exact h0) (by rw [read_mem_w_cyc]; exact hw)
    (fun x => 4 + x.w_cyc)
    (fun x hx => show 2 ≤ 4 + x.w_cyc ∧ 4 + x.w_cyc ≤ 14 by omega)
  exact ⟨key.1, key.2.1⟩

theorem shift_cost (x : Machine) (hx : x.w_cyc ≤ 10) :
    2 ≤ (if x.arg = adr_ra then 2 else 4 + x.w_cyc) ∧
    (if x.arg = adr_ra then 2 else 4 + x.w_cyc) ≤ 14 := by
  split <;> omega

theorem i_asl_budget (s : Machine) (h0 : s.cycle_count = 0) (hw : s.w_cyc ≤ 10) :
    2 ≤ (i_asl s).cycle_count ∧ (i_asl s).cycle_count ≤ 1000 := by
  have key := rmw_budget (set_carry_flag (read_mem s s.arg).2 (get_bit (read_mem s s.arg).1 7 == 1))
    (set_carry_flag (read_mem s s.arg).2 (get_bit (read_mem s s.arg).1 7 == 1)).arg
    ((read_mem s s.arg).1 <<< 1)
    (by unfold set_carry_flag; simp only []; rw [read_mem_cycle_count]; exact h0)
    (by unfold set_carry_flag; simp only []; rw [read_mem_w_cyc]; exact hw)
    (fun x => if x.arg = adr_ra then 2 else 4 + x.w_cyc) shift_cost
  exact ⟨key.1, key.2.1⟩

theorem i_lsr_budget (s : Machine) (h0 : s.cycle_count = 0) (hw : s.w_cyc ≤ 10) :
    2 ≤ (i_lsr s).cycle_count ∧ (i_lsr s).cycle_count ≤ 1000 := by
  have key := rmw_budget (set_carry_flag (read_mem s s.arg).2 (get_bit (read_mem s s.arg).1 0 == 1))
    (set_carry_flag (read_mem s s.arg).2 (get_bit (read_mem s s.arg).1 0 == 1)).arg
    ((read_mem s s.arg).1 >>> 1)
    (by unfold set_carry_flag; simp only []; rw [read_mem_cycle_count]; exact h0)
    (by unfold set_carry_flag; simp only []; rw [read_mem_w_cyc]; exact hw)
    (fun x => if x.arg = adr_ra then 2 else 4 + x.w_cyc) shift_cost
  exact ⟨key.1, key.2.1⟩

theorem i_rol_budget (s : Machine) (h0 : s.cycle_count = 0) (hw : s.w_cyc ≤ 10) :
    2 ≤ (i_rol s).cycle_count ∧ (i_rol s).cycle_count ≤ 1000 := by
  have key := rmw_budget (set_carry_flag (read_mem s s.arg).2 (get_bit (read_mem s s.arg).1 7 == 1))
    (set_carry_flag (read_mem s s.arg).2 (get_bit (read_mem s s.arg).1 7 == 1)).arg
    (set_bit (((read_mem s s.arg).1 <<< 1) % 256) 0 (get_carry_flag (read_mem s s.arg).2))
    (by unfold set_carry_flag; simp only []; rw [read_mem_cycle_count]; exact h0)
    (by unfold set_carry_flag; simp only []; rw [read_mem_w_cyc]; exact hw)
    (fun x => if x.arg = adr_ra then 2 else 4 + x.w_cyc) shift_cost
  exact ⟨key.1, key.2.1⟩

theorem i_ror_budget (s : Machine) (h0 : s.cycle_count = 0) (hw : s.w_cyc ≤ 10) :
    2 ≤ (i_ror s).cycle_count ∧ (i_ror s).cycle_count ≤ 1000 := by
  have key := rmw_budget (set_carry_flag (read_mem s s.arg).2 (get_bit (read_mem s s.arg).1 0 == 1))
    (set_carry_flag (read_mem s s.arg).2 (get_bit (read_mem s s.arg).1 0 == 1)).arg
    (set_bit (((read_mem s s.arg).1 >>> 1) % 256) 7 (get_carry_flag (read_mem s s.arg).2))
    (by unfold set_carry_flag; simp only []; rw [read_mem_cycle_count]; exact h0)
    (by unfold set_carry_flag; simp only []; rw [read_mem_w_cyc]; exact hw)
    (fun x => if x.arg = adr_ra then 2 else 4 + x.w_cyc) shift_cost
  exact ⟨key.1, key.2.1⟩

theorem i_sbc_w_cyc (s : Machine) : (i_sbc s).w_cyc = s.w_cyc := by
  unfold i_sbc
  simp only [add_cycles, set_zero_flag, set_negative_flag, set_carry_flag, set_overflow_flag,
    apply_ite Machine.w_cyc, ite_self]
  rw [set_with_flags_w_cyc _ _ _ (by decide), read_mem_w_cyc]

/-- The instruction `i_isc` assigns the budget: 4 + `w_cyc`, whatever `i_inc` and
`i_sbc` added before. -/
theorem i_isc_budget (s : Machine) (h0 : s.cycle_count = 0) (hw : s.w_cyc ≤ 10) :
    (i_isc s).cycle_count = 4 + s.w_cyc := by
  unfold i_isc
  simp only []
  rw [i_sbc_w_cyc, (i_inc_budget s h0 hw).2.2]
  unfold u64 u32
  omega

theorem short_jump_if_budget (s : Machine) (c : Bool) (h0 : s.cycle_count = 0) :
    2 ≤ (short_jump_if s c).cycle_count ∧ (short_jump_if s c).cycle_count ≤ 1000 := by
  cases c
  · rw [short_jump_if_false, h0]
    exact (by decide : 2 ≤ u64 (0 + 2) ∧ u64 (0 + 2) ≤ 1000)
  · rw [short_jump_if_true, h0]
    simp only []
    split
    · exact (by decide : 2 ≤ u64 (u64 (u64 (0 + 2) + 1) + 1) ∧
        u64 (u64 (u64 (0 + 2) + 1) + 1) ≤ 1000)
    · exact (by decide : 2 ≤ u64 (u64 (0 + 2) + 1) ∧ u64 (u64 (0 + 2) + 1) ≤ 1000)

theorem billed_bounds (i : Instr) (r w k : Nat) (acc : Bool) (hb : billed i r w acc = some k)
    (hr : r ≤ 10) (hw : i ≠ Instr.jmp → w ≤ 10) (hj : i = Instr.jmp → 1 ≤ r) :
    2 ≤ k ∧ k ≤ 20 := by
  cases i <;> cases acc <;>
    simp only [billed, Option.some.injEq, Bool.false_eq_true, if_false, if_true,
      reduceCtorEq] at hb <;>
    first
      | omega
      | (have hw1 := hw (by decide)
         omega)
      | (have hj1 := hj rfl
         omega)

/-- After any addressing mode that the `switch` pairs it with, an instruction
entered with a zero budget leaves a budget of 2 or more. -/
theorem run_instr_budget (i : Instr) (s : Machine) (h0 : s.cycle_count = 0) (hsp : s.sp < 256)
    (hr : s.r_cyc ≤ 10) (hw : i ≠ Instr.jmp → s.w_cyc ≤ 10) (hj : i = Instr.jmp → 1 ≤ s.r_cyc) :
    2 ≤ (run_instr i s).cycle_count ∧ (run_instr i s).cycle_count ≤ 1000 := by
  cases hb : billed i s.r_cyc s.w_cyc (s.arg == adr_ra) with
  | none =>
    cases i <;>
      first
        | exact short_jump_if_budget _ _ h0
        | (have hw10 := hw (by decide)
           rw [show run_instr Instr.isc = i_isc from rfl, i_isc_budget s h0 hw10]
           omega)
        | exact Option.noConfusion hb
  | some k =>
    by_cases hwr : writes_operand i = true
    · cases i <;>
        first
          | exact absurd hwr Bool.false_ne_true
          | exact i_sta_budget s h0 (hw (by decide))
          | exact i_stx_budget s h0 hr
          | exact i_sty_budget s h0 hr
          | exact ⟨(i_inc_budget s h0 (hw (by decide))).1,
              (i_inc_budget s h0 (hw (by decide))).2.1⟩
          | exact i_dec_budget s h0 (hw (by decide))
          | exact i_asl_budget s h0 (hw (by decide))
          | exact i_lsr_budget s h0 (hw (by decide))
          | exact i_rol_budget s h0 (hw (by decide))
          | exact i_ror_budget s h0 (hw (by decide))
          | exact Option.noConfusion hb
    · have e := run_instr_cycles i s k hb hsp (fun h => absurd h hwr)
      obtain ⟨k1, k2⟩ := billed_bounds i s.r_cyc s.w_cyc k _ hb hr hw hj
      rw [e, h0]
      unfold u64 u32
      omega

theorem opcode_table_jmp :
    opcode_table.all (fun e =>
      (e.2.1 != Mode.ind || e.2.2 == Instr.jmp) &&
      (e.2.2 != Instr.jmp || e.2.1 == Mode.abs || e.2.1 == Mode.ind)) = true := by
  decide

theorem mode_cyc_bounds (m : Mode) (c : Bool) (w : Nat) :
    mode_r_cyc m c ≤ 10 ∧ (m ≠ Mode.ind → mode_w_cyc m w ≤ 10) ∧
    (m = Mode.abs ∨ m = Mode.ind → 1 ≤ mode_r_cyc m c) := by
  cases m <;> cases c <;> simp [mode_r_cyc, mode_w_cyc]

end budget

/-- C37: a `step` entered with a zero cycle budget and byte-wide registers that
does not fail on a bad opcode, whether it acknowledges an interrupt or runs a
decoded opcode (0x04 and 0xE7 included), leaves a budget of 2 or more, and the
decrement of `machine::cycle` that follows leaves one less, without wrapping. -/
theorem step_budget (s : Machine) (h0 : s.cycle_count = 0) (hwf : regs_wf s)
    (hok : (step s).1 ≠ -1) :
    2 ≤ (step s).2.cycle_count ∧
    (s.ready = true → ∃ t, cycle s = some t ∧ t.cycle_count + 1 = (step s).2.cycle_count) := by
  have key : 2 ≤ (step s).2.cycle_count ∧ (step s).2.cycle_count ≤ 1000 := by
    by_cases hint : interrupt_pending s = true
    · rw [step_interrupt s hint]
      exact ⟨(by decide : 2 ≤ 6), (by decide : 6 ≤ 1000)⟩
    · have hint0 : interrupt_pending s = false := by
        cases h : interrupt_pending s
        · rfl
        · exact absurd h hint
      cases hdec : decode (read_mem s s.pc).1 with
      | none =>
        rw [step_fail s hint0 hdec] at hok
        exact absurd rfl hok
      | some mi =>
        obtain ⟨m, i⟩ := mi
        have hmem := lookup_mem opcode_table _ _ hdec
        have htab := List.all_eq_true.mp opcode_table_jmp _ hmem
        simp only [Bool.and_eq_true, Bool.or_eq_true, bne_iff_ne, ne_eq, beq_iff_eq] at htab
        obtain ⟨t1, t2⟩ := htab
        obtain ⟨hcc, hspf, hr, hw, _⟩ := run_mode_frame m (fetch s) (fetch_wf s hwf)
        obtain ⟨b1, b2, b3⟩ := mode_cyc_bounds m (page_crossed m (fetch s)) (fetch s).w_cyc
        rw [step_exec s m i hint0 hdec]
        simp only []
        apply run_instr_budget
        · rw [hcc, fetch_eq]; exact h0
        · rw [hspf, fetch_eq]; exact hwf.2.2.2.2
        · rw [hr]; exact b1
        · intro hi
          rw [hw]
          refine b2 (fun hm => hi ?_)
          rcases t1 with t | t
          · exact absurd hm t
          · exact t
        · intro hi
          rw [hr]
          refine b3 ?_
          rcases t2 with (t | t) | t
          · exact absurd hi t
          · exact Or.inl t
          · exact Or.inr t
  refine ⟨key.1, fun hrdy => ?_⟩
  unfold cycle
  rw [if_pos h0]
  simp only []
  rw [hrdy]
  simp only [Bool.not_true, Bool.false_eq_true, if_false]
  rw [if_neg hok]
  refine ⟨_, rfl, ?_⟩
  simp only []
  unfold u64
  omega

/-- Witness of C37: `ISC $10` entered with a zero budget leaves a budget of 5, and
the cycle that runs it leaves 4. -/
theorem step_budget_witness :
    isc_scenario.cycle_count = 0 ∧ (step isc_scenario).1 = 0 ∧
    (step isc_scenario).2.cycle_count = 5 ∧
    ∃ t, cycle isc_scenario = some t ∧ t.cycle_count + 1 = (step isc_scenario).2.cycle_count :=
  ⟨by decide, by decide, by decide,
   (step_budget isc_scenario (by decide) (by decide) (by decide)).2 (by decide)⟩

end machine
